import Mathlib

/-!
# Porto task launcher: a shallow embedding of `task.cpp`

The launcher of the container daemon turns a task environment into an isolated,
privilege-dropped process.  This development embeds the launcher's functions as
Lean functions over an explicit trace of the external calls they perform, and
proves (or refutes) the statements of the specification about them.

Conventions of the embedding.

* A `TError` is a value; `TError.isError` is the C++ `operator bool`.
* Every call that leaves the translated code (a system call, a mount helper, a
  netlink helper) is a constructor of `Call`.  A function that performs calls
  takes the trace of the calls made so far and returns the extended trace.
* What the outside world answers is given by a `World`: each answer may depend
  on the whole history of calls.
* A result `none` means that the function does not return to its caller (the
  process image was replaced by `execvpe`, or an assertion stopped the process).
-/

namespace Porto

/-! ## Errors -/

/-- Error kinds of `EError` (§7 of the specification; `error.hpp` is not among the sources). -/
inductive EError where
  | Success
  | Unknown
  | InvalidValue
  | NoSpace
  | ResourceNotAvailable
  | Permission
  | NotFound
  | Busy
deriving DecidableEq

/-- Modelled from the spec: the class `TError` of `error.hpp`, which is not among the
sources.  "Each error carries: kind, OS errno (or 0), message". -/
structure TError where
  kind : EError
  errno : Int
  msg : String
deriving DecidableEq

namespace TError

/-- `TError::Success()`. -/
def Success : TError := { kind := EError.Success, errno := 0, msg := "" }

/-- The conversion `operator bool` used by `if (error)`: true for every kind but `Success`. -/
def isError (e : TError) : Bool := e.kind != EError.Success

end TError

/-! ## Constants of the kernel headers -/

def SIGCHLD : Nat := 17
def CLONE_NEWNS : Nat := 0x00020000
def CLONE_NEWUTS : Nat := 0x04000000
def CLONE_NEWIPC : Nat := 0x08000000
def CLONE_NEWPID : Nat := 0x20000000
def CLONE_NEWNET : Nat := 0x40000000

def CAP_SETPCAP : Nat := 8

def EINVAL : Int := 22
def ENODATA : Int := 61

def MS_RDONLY : Nat := 1
def MS_NOSUID : Nat := 2
def MS_NODEV : Nat := 4
def MS_NOEXEC : Nat := 8
def MS_REMOUNT : Nat := 32
def MS_BIND : Nat := 4096
def MS_SHARED : Nat := 1 <<< 20
def MS_STRICTATIME : Nat := 1 <<< 24

def S_IFCHR : Nat := 0o020000

/-- `MKDEV(ma, mi)` of the user-space header `linux/kdev_t.h`, which `task.cpp` includes:
`((ma)<<8 | (mi))`. -/
def MKDEV (ma mi : Nat) : Nat := (ma <<< 8) ||| mi

def WRDE_NOSPACE : Int := 1
def WRDE_BADCHAR : Int := 2
def WRDE_BADVAL : Int := 3
def WRDE_CMDSUB : Int := 4
def WRDE_SYNTAX : Int := 5

/-! ## The task environment -/

/-- The credential `TCred`.  `IsRoot()` is declared in `util/cred.hpp`, which is not among
the sources: its verdict is carried as a field, so that the theorems hold for whatever
`IsRoot()` computes from the credential. -/
structure TCred where
  Uid : Nat
  Gid : Nat
  IsRoot : Bool
deriving DecidableEq

structure TBindMap where
  Source : String
  Dest : String
  Rdonly : Bool
deriving DecidableEq

structure THostNetCfg where
  Dev : String
deriving DecidableEq

structure TMacVlanNetCfg where
  Master : String
  Name : String
  Type_ : String
  Hw : String
  Mtu : Int
deriving DecidableEq

structure TIpVlanNetCfg where
  Master : String
  Name : String
  Mode : String
  Mtu : Int
deriving DecidableEq

structure TVethNetCfg where
  Bridge : String
  Name : String
  Hw : String
  Peer : String
  Mtu : Int
deriving DecidableEq

structure TNetCfg where
  Share : Bool
  Host : List THostNetCfg
  MacVlan : List TMacVlanNetCfg
  IpVlan : List TIpVlanNetCfg
  Veth : List TVethNetCfg
deriving DecidableEq

/-- An entry of the map `IpMap`: an address (empty when unset) and its prefix length. -/
structure TIpVec where
  Addr : String
  PrefixLen : Nat
deriving DecidableEq

/-- A namespace snapshot, of which the launcher only asks whether it is valid. -/
structure TNamespaceSnapshot where
  Valid : Bool
deriving DecidableEq

/-- The fields of `TTaskEnv` read by the launcher.  Paths are strings; the maps `Rlimit`
and `IpMap` are association lists in the iteration order of `std::map`. -/
structure TTaskEnv where
  Command : String
  Cwd : String
  CreateCwd : Bool
  Root : String
  RootRdOnly : Bool
  User : String
  Environ : List String
  Isolate : Bool
  Hostname : String
  BindDns : Bool
  Rlimit : List (Int × Nat × Nat)
  Cred : TCred
  ParentNs : TNamespaceSnapshot
  ClientNs : TNamespaceSnapshot
  BindMap : List TBindMap
  NetCfg : TNetCfg
  Loop : String
  LoopDev : Int
  Caps : Nat
  IpMap : List (String × TIpVec)
  DefaultGw : String
  NewMountNs : Bool
  StdinPath : String := "/dev/null"
  StdoutPath : String := "/tmp/stdout"
  StderrPath : String := "/tmp/stderr"
deriving DecidableEq

/-! ## Clone flags (`TTask::Start`, lines 828-839) -/

/-- The value of `cloneFlags` when `clone` is called. -/
def cloneFlags (env : TTaskEnv) : Nat :=
  let cloneFlags := SIGCHLD
  let cloneFlags := if env.Isolate then cloneFlags ||| (CLONE_NEWPID ||| CLONE_NEWIPC) else cloneFlags
  let cloneFlags := if env.NewMountNs then cloneFlags ||| CLONE_NEWNS else cloneFlags
  let cloneFlags := if env.Hostname != "" then cloneFlags ||| CLONE_NEWUTS else cloneFlags
  let cloneFlags := if !env.NetCfg.Share then cloneFlags ||| CLONE_NEWNET else cloneFlags
  cloneFlags

/-! ## External calls, traces and the outside world -/

/-- The descriptors of the two synchronisation pipes kept in `TTask`. -/
inductive Fd where
  | Rfd
  | Wfd
  | WaitParentRfd
  | WaitParentWfd
deriving DecidableEq

/-- A mount record `TMount(source, target, type, options)`. -/
structure TMount where
  Source : String
  Target : String
  Type_ : String
  Options : List String
deriving DecidableEq

/-- The calls made by `TTask::Start` in the daemon and in the intermediate process, and by
`TTask::Kill`.  `ReportPid` is the write of a pid on the outer pipe, `Serialize` the write of an
error on it, `writeGo` the write of the go on the inner pipe, `readPid` and `Deserialize` the
reads of the daemon from the outer pipe. -/
inductive LaunchCall where
  | CgroupAttach (subsystem : String) (cgroup : Option String)
  | ClientNsAttach
  | ClientNsChroot
  | ParentNsAttach
  | CloseFds (first : Nat)
  | openFile (path : String) (flags mode : Nat)
  | fchown (fd : Int) (uid gid : Nat)
  | pipe2Pfd
  | pipe2Syncfd
  | fork
  | clone (flags : Nat)
  | ReportPid (pid : Int)
  | Serialize (error : TError)
  | exit (status : Int)
  | writeGo
  | waitpid (pid : Int)
  | readPid
  | Deserialize
  | kill (pid : Int) (signal : Int)
  | Chown (path : String) (uid gid : Nat)
deriving DecidableEq

/-- The calls that leave the translated code.  An argument of type `Option` is `none` where
the source relies on a default argument declared in a header that is not among the sources. -/
inductive Call where
  | SetCap (effective permitted inheritable : Nat)
  | DropBoundedCap (cap : Nat)
  | setgid (gid : Nat)
  | initgroups (user : String) (gid : Nat)
  | setuid (uid : Nat)
  | clearenv
  | putenv (s : String)
  | wordexp (words : String)
  | execvpe (file : Option String) (argv : List String) (envp : List String)
  | BindFile (m : TMount) (rdonly : Bool)
  | BindDir (m : TMount) (rdonly : Bool) (flags : Option Nat)
  | Bind (m : TMount) (rdonly : Bool)
  | MountDir (m : TMount) (flags : Option Nat)
  | Mount (m : TMount) (flags : Nat)
  | LoopMount (loop target fstype : String) (loopDev : Int)
  | RemountSlave
  | mknod (path : String) (mode dev : Nat)
  | symlink (target linkpath : String)
  | Touch (path : String) (mode : Nat)
  | FolderCreate (path : String) (args : Option (Nat × Bool))
  | FolderItems (path : String)
  | Chdir (path : String)
  | Chroot (path : String)
  | PivotRoot (path : String)
  | ParentNsChroot
  | WriteStringNoAppend (path : String) (str : String)
  | sethostname (name : String) (len : Nat)
  | setrlimit (resource : Int) (cur max : Nat)
  | setsid
  | umask (mask : Nat)
  | close (fd : Fd)
  | readSync
  | ResetAllSignalHandlers
  | NlConnect
  | LinkLoad (link : String)
  | LinkUp (link : String)
  | LinkRemove (link : String)
  | LinkSetIpAddr (link : String) (addr : String) (plen : Nat)
  | LinkSetDefaultGw (link : String) (gw : String)
  | LinkChangeNs (link : String) (newName : String) (pid : Int)
  | LinkAddIpVlan (link : String) (master mode : String) (mtu : Int)
  | LinkAddMacVlan (link : String) (master type hw : String) (mtu : Int)
  | LinkAddVeth (link : String) (name peerName hw : String) (mtu : Int) (nsPid : Int)
  | launch (c : LaunchCall)
deriving DecidableEq

/-- The calls made so far, oldest first. -/
abbrev Trace := List Call

/-- What the outside world answers.  Every answer may depend on the calls made so far. -/
structure World where
  /-- The result of a call that returns a `TError`. -/
  terr : Trace → Call → TError
  /-- The return value of a raw system or library call. -/
  sys : Trace → Call → Int
  /-- The value of `errno` after the calls made so far. -/
  errno : Trace → Int
  /-- Whether `execvpe` comes back to its caller (it only does so when it fails). -/
  execReturns : Trace → Call → Bool
  /-- The words produced by `wordexp` (`we_wordv`). -/
  wordv : Trace → String → List String
  /-- `Exists()` of a path, file or folder. -/
  pathExists : Trace → String → Bool
  /-- Whether `GetType()` of a path is `EFileType::Directory`. -/
  isDirectory : Trace → String → Bool
  /-- `RealPath()` of a path. -/
  realPath : Trace → String → String
  /-- The names returned by `TFolder::Items(EFileType::Directory, _)`. -/
  items : Trace → String → List String
  /-- The link names returned by `TNl::FindLink(0)`. -/
  findLink : Trace → List String
  /-- `TNlLink::HasQueue()` of the named link. -/
  hasQueue : Trace → String → Bool
  /-- `GetHostName()`: the host name of the machine the daemon runs on. -/
  hostName : Trace → String
  /-- `GetTid()`. -/
  tid : Trace → Int

/-- The outcome of a function: what it returned (`none`: it did not return) and the trace. -/
abbrev Ret := Option TError × Trace

/-- A call returning a `TError`. -/
def call (w : World) (c : Call) (tr : Trace) : Ret :=
  (some (w.terr tr c), tr ++ [c])

/-- The idiom `if (f(...) < 0) return TError(EError::Unknown, errno, msg);` around a raw call. -/
def sysCall (w : World) (c : Call) (msg : String) (tr : Trace) : Ret :=
  if w.sys tr c < 0 then
    (some { kind := EError.Unknown, errno := w.errno (tr ++ [c]), msg := msg }, tr ++ [c])
  else
    (some TError.Success, tr ++ [c])

/-- The idiom `error = ...; if (error) return error;` followed by the rest of the function. -/
def andThen (r : Ret) (k : Trace → Ret) : Ret :=
  match r with
  | (some e, tr) => if e.isError then (some e, tr) else k tr
  | (none, tr) => (none, tr)

/-- A range-based `for` loop whose body returns from the function on the first error. -/
def forEach {α : Type} (body : α → Trace → Ret) : List α → Trace → Ret
  | [], tr => (some TError.Success, tr)
  | x :: xs, tr => andThen (body x tr) (forEach body xs)

/-! ## Capabilities and credentials -/

/-- The test `Env->Caps & (1ULL << i)` on 64-bit unsigned integers, for a shift count `i`
in 0..63.  For `i ≥ 64` the shift is undefined in C++; the definition then takes the count
modulo 64, as the shift instruction of x86-64 does, and no theorem is stated for that range. -/
def capRequested (caps : Nat) (i : Nat) : Bool :=
  (caps &&& ((1 <<< (i % 64)) % 2 ^ 64)) != 0

/-- The body of the loop of `ChildApplyCapabilities` for the index `i`. -/
def dropUnlessRequested (w : World) (env : TTaskEnv) (i : Nat) (tr : Trace) : Ret :=
  if !capRequested env.Caps i && i != CAP_SETPCAP then
    call w (Call.DropBoundedCap i) tr
  else
    (some TError.Success, tr)

/-- `TTask::ChildApplyCapabilities` (lines 154-184).  `lastCap` is the file-level variable
read from `/proc/sys/kernel/cap_last_cap`; a failed `PORTO_ASSERT` stops the process. -/
def ChildApplyCapabilities (w : World) (env : TTaskEnv) (lastCap : Int) (tr : Trace) : Ret :=
  if !env.Cred.IsRoot then
    (some TError.Success, tr)
  else if lastCap = 0 then
    (none, tr)
  else
    andThen (call w (Call.SetCap (2 ^ 64 - 1) (2 ^ 64 - 1) env.Caps) tr) fun tr =>
    andThen (forEach (dropUnlessRequested w env) (List.range (lastCap + 1).toNat) tr) fun tr =>
    andThen (if !capRequested env.Caps CAP_SETPCAP then call w (Call.DropBoundedCap CAP_SETPCAP) tr
             else (some TError.Success, tr)) fun tr =>
    (some TError.Success, tr)

/-- `TTask::ChildDropPriveleges` (lines 186-197). -/
def ChildDropPriveleges (w : World) (env : TTaskEnv) (tr : Trace) : Ret :=
  andThen (sysCall w (Call.setgid env.Cred.Gid) "setgid()" tr) fun tr =>
  andThen (sysCall w (Call.initgroups env.User env.Cred.Gid) "initgroups()" tr) fun tr =>
  andThen (sysCall w (Call.setuid env.Cred.Uid) "setuid()" tr) fun tr =>
  (some TError.Success, tr)

/-! ## Exec -/

/-- The `switch` over the result of `wordexp` in `ChildExec`: the error returned for a
non-zero result, `none` for the `case 0: break`. -/
def wordexpError (ret : Int) : Option TError :=
  if ret = WRDE_BADCHAR then
    some { kind := EError.Unknown, errno := EINVAL,
           msg := "wordexp(): illegal occurrence of newline or one of |, &, ;, <, >, (, ), \x7b, \x7d" }
  else if ret = WRDE_BADVAL then
    some { kind := EError.Unknown, errno := EINVAL,
           msg := "wordexp(): undefined shell variable was referenced" }
  else if ret = WRDE_CMDSUB then
    some { kind := EError.Unknown, errno := EINVAL,
           msg := "wordexp(): command substitution is not supported" }
  else if ret = WRDE_SYNTAX then
    some { kind := EError.Unknown, errno := EINVAL, msg := "wordexp(): syntax error" }
  else if ret = 0 then
    none
  else
    some { kind := EError.Unknown, errno := EINVAL, msg := "wordexp(): error " ++ toString ret }

/-- `TTask::ChildExec` (lines 199-237).  The logging under `config().log().verbose()` makes no
call of interest and is left out.  `we_wordv[0]` is `none` when there is no word. -/
def ChildExec (w : World) (env : TTaskEnv) (tr : Trace) : Ret :=
  let tr := tr ++ [Call.clearenv]
  let tr := tr ++ env.Environ.map Call.putenv
  let ret := w.sys tr (Call.wordexp env.Command)
  let we_wordv := w.wordv tr env.Command
  let tr := tr ++ [Call.wordexp env.Command]
  match wordexpError ret with
  | some error => (some error, tr)
  | none =>
    let envp := env.Environ
    let exec := Call.execvpe we_wordv.head? we_wordv envp
    if w.execReturns tr exec then
      (some { kind := EError.InvalidValue, errno := w.errno (tr ++ [exec]),
              msg := "execvpe(" ++ we_wordv.head?.getD "" ++ ", " ++ toString we_wordv.length
                     ++ ", " ++ toString env.Environ.length ++ ")" },
       tr ++ [exec])
    else
      (none, tr ++ [exec])

/-! ## Bind mounts -/

/-- Modelled from the spec: `StringStartsWith` of `util/string.hpp`, which is not among the
sources, the test behind "destination real path does not start with root": whether `str`
begins with the characters of `start`. -/
def StringStartsWith (str start : String) : Bool :=
  start.data.isPrefixOf str.data

/-- `TTask::ChildBindDns` (lines 239-250). -/
def ChildBindDns (w : World) (env : TTaskEnv) (tr : Trace) : Ret :=
  andThen (forEach (fun file tr =>
      call w (Call.BindFile { Source := file, Target := env.Root ++ file, Type_ := "none",
                              Options := [] } true) tr)
    ["/etc/hosts", "/etc/resolv.conf"] tr) fun tr =>
  (some TError.Success, tr)

/-- The message of the error of `ChildBindDirectores` for a destination outside the root. -/
def resolvesToRootMsg (source realDest root : String) : String :=
  "Container bind mount " ++ source ++ " resolves to root " ++ realDest ++ " (" ++ root ++ ")"

/-- The mount at the end of the loop body of `ChildBindDirectores`. -/
def bindMount (w : World) (bindMap : TBindMap) (dest : String) (tr : Trace) : Ret :=
  let mnt : TMount := { Source := bindMap.Source, Target := dest, Type_ := "none", Options := [] }
  if w.isDirectory tr bindMap.Source then
    call w (Call.BindDir mnt bindMap.Rdonly none) tr
  else
    call w (Call.BindFile mnt bindMap.Rdonly) tr

/-- The body of the loop of `ChildBindDirectores` for one entry of `BindMap`.  The sum of two
paths is the concatenation of their strings. -/
def bindDirectory (w : World) (env : TTaskEnv) (bindMap : TBindMap) (tr : Trace) : Ret :=
  let dest := env.Root ++ bindMap.Dest
  if env.Root = "/" then
    bindMount w bindMap (env.Cwd ++ bindMap.Dest) tr
  else if !StringStartsWith (w.realPath tr dest) env.Root then
    (some { kind := EError.InvalidValue, errno := 0,
            msg := resolvesToRootMsg bindMap.Source (w.realPath tr dest) env.Root }, tr)
  else
    bindMount w bindMap dest tr

/-- `TTask::ChildBindDirectores` (lines 252-275). -/
def ChildBindDirectores (w : World) (env : TTaskEnv) (tr : Trace) : Ret :=
  andThen (forEach (bindDirectory w env) env.BindMap tr) fun tr =>
  (some TError.Success, tr)

/-! ## Construction of the mount namespace -/

/-- `TTask::CreateNode` (lines 277-282). -/
def CreateNode (w : World) (path : String) (mode dev : Nat) (tr : Trace) : Ret :=
  sysCall w (Call.mknod path mode dev) ("mknod(" ++ path ++ ")") tr

/-- `TTask::ChildRestrictProc` (lines 284-303). -/
def ChildRestrictProc (w : World) (env : TTaskEnv) (restrictProcSys : Bool) (tr : Trace) : Ret :=
  let dirs := ["/proc/sysrq-trigger", "/proc/irq", "/proc/bus"]
  let dirs := if restrictProcSys then dirs ++ ["/proc/sys"] else dirs
  andThen (forEach (fun path tr =>
      call w (Call.BindFile { Source := env.Root ++ path, Target := env.Root ++ path,
                              Type_ := "none", Options := [] } true) tr) dirs tr) fun tr =>
  andThen (call w (Call.Bind { Source := "/dev/null", Target := env.Root ++ "/proc/kcore",
                               Type_ := "", Options := [] } false) tr) fun tr =>
  (some TError.Success, tr)

/-- `TTask::ChildMountRun` (lines 305-332). -/
def ChildMountRun (w : World) (env : TTaskEnv) (tr : Trace) : Ret :=
  let run := env.Root ++ "/run"
  let listed : Ret × List String :=
    if !w.pathExists tr run then
      (call w (Call.FolderCreate run none) tr, [])
    else
      (call w (Call.FolderItems run) tr, w.items tr run)
  let subdirs := listed.2
  andThen listed.1 fun tr =>
  andThen (call w (Call.MountDir { Source := "tmpfs", Target := run, Type_ := "tmpfs",
                                   Options := ["mode=755", "size=32m"] }
                                 (some (MS_NOSUID ||| MS_STRICTATIME))) tr) fun tr =>
  andThen (forEach (fun name tr => call w (Call.FolderCreate (run ++ "/" ++ name) none) tr)
                   subdirs tr) fun tr =>
  (some TError.Success, tr)

/-- The table `node[]` of `ChildMountDev`. -/
def devNodes : List (String × Nat × Nat) :=
  [ ("/dev/null", 0o666 ||| S_IFCHR, MKDEV 1 3),
    ("/dev/zero", 0o666 ||| S_IFCHR, MKDEV 1 5),
    ("/dev/full", 0o666 ||| S_IFCHR, MKDEV 1 7),
    ("/dev/random", 0o666 ||| S_IFCHR, MKDEV 1 8),
    ("/dev/urandom", 0o666 ||| S_IFCHR, MKDEV 1 9) ]

/-- `TTask::ChildMountDev` (lines 334-377). -/
def ChildMountDev (w : World) (env : TTaskEnv) (tr : Trace) : Ret :=
  andThen (call w (Call.MountDir { Source := "tmpfs", Target := env.Root ++ "/dev",
                                   Type_ := "tmpfs", Options := ["mode=755", "size=32m"] }
                                 (some (MS_NOSUID ||| MS_STRICTATIME))) tr) fun tr =>
  andThen (call w (Call.MountDir { Source := "devpts", Target := env.Root ++ "/dev/pts",
                                   Type_ := "devpts",
                                   Options := ["newinstance", "ptmxmode=0666", "mode=620", "gid=5"] }
                                 (some (MS_NOSUID ||| MS_NOEXEC))) tr) fun tr =>
  andThen (forEach (fun (node : String × Nat × Nat) tr =>
      CreateNode w (env.Root ++ node.1) node.2.1 node.2.2 tr) devNodes tr) fun tr =>
  andThen (sysCall w (Call.symlink "pts/ptmx" (env.Root ++ "/dev/ptmx"))
                   "symlink(/dev/pts/ptmx)" tr) fun tr =>
  andThen (sysCall w (Call.symlink "/proc/self/fd" (env.Root ++ "/dev/fd"))
                   "symlink(/dev/fd)" tr) fun tr =>
  let tr := tr ++ [Call.Touch (env.Root ++ "/dev/console") 0o755]
  (some TError.Success, tr)

/-- The end of `ChildIsolateFs`: `PivotRoot`, the fall back to `Chroot`, and `chdir("/")`. -/
def pivotOrChroot (w : World) (env : TTaskEnv) (tr : Trace) : Ret :=
  let pivot := call w (Call.PivotRoot env.Root) tr
  let entered : Ret :=
    match pivot with
    | (some error, tr) =>
      if error.isError then call w (Call.Chroot env.Root) tr else (some error, tr)
    | (none, tr) => (none, tr)
  andThen entered fun tr =>
  call w (Call.Chdir "/") tr

/-- `TTask::ChildIsolateFs` (lines 379-465). -/
def ChildIsolateFs (w : World) (env : TTaskEnv) (tr : Trace) : Ret :=
  if env.Root = "/" then
    ChildBindDirectores w env tr
  else
    let defaultFlags := MS_NOEXEC ||| MS_NOSUID ||| MS_NODEV
    let sysfsFlags := defaultFlags ||| MS_RDONLY
    andThen (if w.pathExists tr env.Loop then
               call w (Call.LoopMount env.Loop env.Root "ext4" env.LoopDev) tr
             else
               call w (Call.BindDir { Source := env.Root, Target := env.Root, Type_ := "none",
                                      Options := [] } false (some MS_SHARED)) tr) fun tr =>
    andThen (call w (Call.MountDir { Source := "sysfs", Target := env.Root ++ "/sys",
                                     Type_ := "sysfs", Options := [] } (some sysfsFlags)) tr) fun tr =>
    andThen (call w (Call.MountDir { Source := "proc", Target := env.Root ++ "/proc",
                                     Type_ := "proc", Options := [] } (some defaultFlags)) tr) fun tr =>
    let privileged := env.Cred.IsRoot
    andThen (ChildRestrictProc w env (!privileged) tr) fun tr =>
    andThen (ChildMountDev w env tr) fun tr =>
    andThen (if w.pathExists tr env.Loop then ChildMountRun w env tr
             else (some TError.Success, tr)) fun tr =>
    andThen (call w (Call.MountDir { Source := "shm", Target := env.Root ++ "/dev/shm",
                                     Type_ := "tmpfs", Options := ["mode=1777", "size=65536k"] }
                                   (some defaultFlags)) tr) fun tr =>
    andThen (if env.BindDns then ChildBindDns w env tr else (some TError.Success, tr)) fun tr =>
    andThen (ChildBindDirectores w env tr) fun tr =>
    andThen (if env.RootRdOnly then
               let flags := MS_REMOUNT ||| MS_RDONLY
               let flags := if !w.pathExists tr env.Loop then flags ||| MS_BIND else flags
               call w (Call.Mount { Source := env.Root, Target := env.Root, Type_ := "none",
                                    Options := [] } flags) tr
             else (some TError.Success, tr)) fun tr =>
    andThen (call w (Call.Chdir env.Root) tr) fun tr =>
    pivotOrChroot w env tr

/-! ## Network -/

/-- The body of the loop of `EnableNet` for one link, up to the election of the gateway. -/
def enableLink (w : World) (env : TTaskEnv) (dev : String) (tr : Trace) : Ret :=
  andThen (call w (Call.LinkLoad dev) tr) fun tr =>
  andThen (call w (Call.LinkUp dev) tr) fun tr =>
  match env.IpMap.lookup dev with
  | some ip =>
    if ip.Addr != "" then call w (Call.LinkSetIpAddr dev ip.Addr ip.PrefixLen) tr
    else (some TError.Success, tr)
  | none => (some TError.Success, tr)

/-- The loop of `EnableNet` over the links; `gw` is the gateway link elected so far. -/
def enableLinks (w : World) (env : TTaskEnv) : List String → Option String → Trace →
    Ret × Option String
  | [], gw, tr => ((some TError.Success, tr), gw)
  | dev :: devices, gw, tr =>
    match enableLink w env dev tr with
    | (some error, tr) =>
      if error.isError then ((some error, tr), gw)
      else
        let gw := if gw.isNone && w.hasQueue tr dev then some dev else gw
        enableLinks w env devices gw tr
    | (none, tr) => ((none, tr), gw)

/-- `TTask::EnableNet` (lines 467-510). -/
def EnableNet (w : World) (env : TTaskEnv) (tr : Trace) : Ret :=
  andThen (call w Call.NlConnect tr) fun tr =>
  let devices := w.findLink tr
  let looped := enableLinks w env devices none tr
  andThen looped.1 fun tr =>
  andThen (match looped.2 with
           | some gw =>
             if env.DefaultGw != "" then call w (Call.LinkSetDefaultGw gw env.DefaultGw) tr
             else (some TError.Success, tr)
           | none => (some TError.Success, tr)) fun tr =>
  (some TError.Success, tr)

/-- The conversion `%02x` of `sprintf`: the hexadecimal digits of the value in lower case,
padded on the left with zeros to a width of two. -/
def fmt02x (v : Nat) : String :=
  let digits := Nat.toDigits 16 v
  String.mk (List.replicate (2 - digits.length) '0' ++ digits)

/-- `GenerateHw` (lines 512-526).  `Crc32` is declared in `util/crc32.hpp`, which is not among
the sources, and is a parameter; its result is a `uint32_t`. -/
def GenerateHw (Crc32 : String → Nat) (host name : String) : String :=
  let n := Crc32 name % 2 ^ 32
  let h := Crc32 host % 2 ^ 32
  "02:" ++ fmt02x ((n &&& 0x000000FF) >>> 0)
    ++ ":" ++ fmt02x ((h &&& 0xFF000000) >>> 24)
    ++ ":" ++ fmt02x ((h &&& 0x00FF0000) >>> 16)
    ++ ":" ++ fmt02x ((h &&& 0x0000FF00) >>> 8)
    ++ ":" ++ fmt02x ((h &&& 0x000000FF) >>> 0)

/-- The body of the loop of `IsolateNet` over `NetCfg.Host`. -/
def isolateHost (w : World) (childPid : Int) (host : THostNetCfg) (tr : Trace) : Ret :=
  call w (Call.LinkChangeNs host.Dev host.Dev childPid) tr

/-- The body of the loop of `IsolateNet` over `NetCfg.IpVlan`. -/
def isolateIpVlan (w : World) (childPid : Int) (ipvlan : TIpVlanNetCfg) (tr : Trace) : Ret :=
  let link := "piv" ++ toString (w.tid tr)
  let tr := tr ++ [Call.LinkRemove link]
  andThen (call w (Call.LinkAddIpVlan link ipvlan.Master ipvlan.Mode ipvlan.Mtu) tr) fun tr =>
  let error := w.terr tr (Call.LinkChangeNs link ipvlan.Name childPid)
  let tr := tr ++ [Call.LinkChangeNs link ipvlan.Name childPid]
  if error.isError then (some error, tr ++ [Call.LinkRemove link])
  else (some TError.Success, tr)

/-- The body of the loop of `IsolateNet` over `NetCfg.MacVlan`. -/
def isolateMacVlan (Crc32 : String → Nat) (w : World) (env : TTaskEnv) (childPid : Int)
    (mvlan : TMacVlanNetCfg) (tr : Trace) : Ret :=
  let link := "pmv" ++ toString (w.tid tr)
  let tr := tr ++ [Call.LinkRemove link]
  let hw := mvlan.Hw
  let hw := if hw = "" then GenerateHw Crc32 env.Hostname (mvlan.Master ++ mvlan.Name) else hw
  andThen (call w (Call.LinkAddMacVlan link mvlan.Master mvlan.Type_ hw mvlan.Mtu) tr) fun tr =>
  let error := w.terr tr (Call.LinkChangeNs link mvlan.Name childPid)
  let tr := tr ++ [Call.LinkChangeNs link mvlan.Name childPid]
  if error.isError then (some error, tr ++ [Call.LinkRemove link])
  else (some TError.Success, tr)

/-- The body of the loop of `IsolateNet` over `NetCfg.Veth`. -/
def isolateVeth (Crc32 : String → Nat) (w : World) (env : TTaskEnv) (childPid : Int)
    (veth : TVethNetCfg) (tr : Trace) : Ret :=
  andThen (call w (Call.LinkLoad veth.Bridge) tr) fun tr =>
  let hw := veth.Hw
  let hw := if hw = "" then GenerateHw Crc32 env.Hostname (veth.Name ++ veth.Peer) else hw
  call w (Call.LinkAddVeth veth.Bridge veth.Name veth.Peer hw veth.Mtu childPid) tr

/-- `TTask::IsolateNet` (lines 528-602).  The local `hostname = GetHostName()` is computed
between the second and the third loop and is not read afterwards. -/
def IsolateNet (Crc32 : String → Nat) (w : World) (env : TTaskEnv) (childPid : Int)
    (tr : Trace) : Ret :=
  andThen (call w Call.NlConnect tr) fun tr =>
  andThen (forEach (isolateHost w childPid) env.NetCfg.Host tr) fun tr =>
  andThen (forEach (isolateIpVlan w childPid) env.NetCfg.IpVlan tr) fun tr =>
  let _hostname := w.hostName tr
  andThen (forEach (isolateMacVlan Crc32 w env childPid) env.NetCfg.MacVlan tr) fun tr =>
  andThen (forEach (isolateVeth Crc32 w env childPid) env.NetCfg.Veth tr) fun tr =>
  (some TError.Success, tr)

/-! ## The script of the grandchild -/

/-- `TTask::ChildApplyLimits` (lines 604-615). -/
def ChildApplyLimits (w : World) (env : TTaskEnv) (tr : Trace) : Ret :=
  andThen (forEach (fun (pair : Int × Nat × Nat) tr =>
      sysCall w (Call.setrlimit pair.1 pair.2.1 pair.2.2)
        ("setrlimit(" ++ toString pair.1 ++ ", " ++ toString pair.2.1 ++ ":"
          ++ toString pair.2.2 ++ ")") tr) env.Rlimit tr) fun tr =>
  (some TError.Success, tr)

/-- `TTask::ChildSetHostname` (lines 617-633).  The error built from the error of the write
keeps that error's errno. -/
def ChildSetHostname (w : World) (env : TTaskEnv) (tr : Trace) : Ret :=
  if env.Hostname = "" || env.Root = "/" then
    (some TError.Success, tr)
  else
    andThen (if w.pathExists tr "/etc/hostname" then
               let host := env.Hostname ++ "\n"
               let error := w.terr tr (Call.WriteStringNoAppend "/etc/hostname" host)
               let tr := tr ++ [Call.WriteStringNoAppend "/etc/hostname" host]
               if error.isError then
                 (some { kind := EError.Unknown, errno := error.errno,
                         msg := "write(/etc/hostname)" }, tr)
               else (some TError.Success, tr)
             else (some TError.Success, tr)) fun tr =>
    andThen (sysCall w (Call.sethostname env.Hostname env.Hostname.utf8ByteSize)
                     "sethostname()" tr) fun tr =>
    (some TError.Success, tr)

/-- `TTask::ChildPrepareLoop` (lines 635-646). -/
def ChildPrepareLoop (w : World) (env : TTaskEnv) (tr : Trace) : Ret :=
  andThen (if w.pathExists tr env.Loop then
             if !w.pathExists tr env.Root then
               call w (Call.FolderCreate env.Root (some (0o755, true))) tr
             else (some TError.Success, tr)
           else (some TError.Success, tr)) fun tr =>
  (some TError.Success, tr)

/-- `TTask::ChildRemountSlave` (lines 648-651). -/
def ChildRemountSlave (w : World) (tr : Trace) : Ret :=
  call w Call.RemountSlave tr

/-- The read of the go from the inner pipe at the head of `ChildCallback`. -/
def readGo (w : World) (tr : Trace) : Ret :=
  let tr := tr ++ [Call.close Fd.WaitParentWfd]
  let n := w.sys tr Call.readSync
  let tr := tr ++ [Call.readSync]
  if n ≠ 4 then
    (some { kind := EError.Unknown, errno := if w.errno tr ≠ 0 then w.errno tr else ENODATA,
            msg := "partial read from child sync pipe" }, tr)
  else
    (some TError.Success, tr)

/-- The remount of `/proc` in `ChildCallback`, under `Env->Isolate`. -/
def remountProc (w : World) (tr : Trace) : Ret :=
  let tmpProc : TMount := { Source := "proc", Target := "/proc", Type_ := "proc", Options := [] }
  let failed := (w.terr tr (Call.MountDir tmpProc none)).isError
  let tr := tr ++ [Call.MountDir tmpProc none]
  if failed then
    (some { kind := EError.Unknown, errno := w.errno tr, msg := "remount procfs" }, tr)
  else
    (some TError.Success, tr)

/-- `TTask::ChildCallback` (lines 653-723). -/
def ChildCallback (w : World) (env : TTaskEnv) (lastCap : Int) (tr : Trace) : Ret :=
  andThen (readGo w tr) fun tr =>
  let tr := tr ++ [Call.close Fd.Rfd]
  let tr := tr ++ [Call.ResetAllSignalHandlers]
  andThen (ChildApplyLimits w env tr) fun tr =>
  andThen (sysCall w Call.setsid "setsid()" tr) fun tr =>
  let tr := tr ++ [Call.umask 0]
  let tr := if env.NewMountNs then (ChildRemountSlave w tr).2 else tr
  andThen (if env.Isolate then remountProc w tr else (some TError.Success, tr)) fun tr =>
  andThen (if env.Isolate then ChildPrepareLoop w env tr else (some TError.Success, tr)) fun tr =>
  andThen (if !env.NetCfg.Share then EnableNet w env tr else (some TError.Success, tr)) fun tr =>
  andThen (if env.ParentNs.Valid then
             andThen (call w Call.ParentNsChroot tr) fun tr =>
             andThen (call w (Call.Chdir env.Cwd) tr) fun tr =>
             (some TError.Success, tr)
           else
             andThen (ChildIsolateFs w env tr) fun tr =>
             andThen (call w (Call.Chdir env.Cwd) tr) fun tr =>
             andThen (ChildSetHostname w env tr) fun tr =>
             (some TError.Success, tr)) fun tr =>
  andThen (ChildApplyCapabilities w env lastCap tr) fun tr =>
  andThen (ChildDropPriveleges w env tr) fun tr =>
  ChildExec w env tr

/-! ## Outcomes and sample worlds -/

/-- The function returned and what it returned is not an error. -/
def succeeded (r : Ret) : Bool :=
  match r.1 with
  | some e => !e.isError
  | none => false

/-- The function returned an error. -/
def failed (r : Ret) : Bool :=
  match r.1 with
  | some e => e.isError
  | none => false

/-- A world in which every call succeeds, nothing exists yet, and `execvpe` replaces the
process image. -/
def okWorld : World where
  terr := fun _ _ => TError.Success
  sys := fun _ c => if c = Call.readSync then 4 else 0
  errno := fun _ => 0
  execReturns := fun _ _ => false
  wordv := fun _ cmd => [cmd]
  pathExists := fun _ _ => false
  isDirectory := fun _ _ => true
  realPath := fun _ path => path
  items := fun _ _ => []
  findLink := fun _ => []
  hasQueue := fun _ _ => false
  hostName := fun _ => "host"
  tid := fun _ => 1

/-- A sample environment: `/bin/true` run by root in the root `/tmp/rfs`, no isolation. -/
def sampleEnv : TTaskEnv where
  Command := "/bin/true"
  Cwd := "/"
  CreateCwd := false
  Root := "/tmp/rfs"
  RootRdOnly := false
  User := "root"
  Environ := []
  Isolate := false
  Hostname := ""
  BindDns := false
  Rlimit := []
  Cred := { Uid := 0, Gid := 0, IsRoot := true }
  ParentNs := { Valid := false }
  ClientNs := { Valid := false }
  BindMap := []
  NetCfg := { Share := true, Host := [], MacVlan := [], IpVlan := [], Veth := [] }
  Loop := ""
  LoopDev := -1
  Caps := 0x400
  IpMap := []
  DefaultGw := ""
  NewMountNs := false

/-- The sample environment run by an unprivileged user, requesting no capability. -/
def userEnv : TTaskEnv :=
  { sampleEnv with
    User := "user"
    Cred := { Uid := 1000, Gid := 1000, IsRoot := false }
    Caps := 0 }

/-- The sample world over a file system in which `/tmp/rfs2` is a sibling of the root
`/tmp/rfs` and `/tmp/rfs/data` is the only directory beneath the root; paths that leave the
root resolve to where they lead. -/
def siblingWorld : World :=
  { okWorld with
    realPath := fun _ path =>
      if path = "/tmp/rfs/../rfs2/etc" then "/tmp/rfs2/etc"
      else if path = "/tmp/rfs/data" then "/tmp/rfs/data"
      else "/tmp/outside" }

/-- The sample environment with one bind mount whose destination is in the sibling
directory `/tmp/rfs2` of the root `/tmp/rfs`. -/
def siblingEnv : TTaskEnv :=
  { sampleEnv with BindMap := [{ Source := "/etc", Dest := "/../rfs2/etc", Rdonly := true }] }

/-- The sample environment with three bind mounts, the second of which leaves the root. -/
def traversalEnv : TTaskEnv :=
  { sampleEnv with
    BindMap := [{ Source := "/srv/data", Dest := "/data", Rdonly := false },
                { Source := "/etc", Dest := "../../outside", Rdonly := true },
                { Source := "/srv/data", Dest := "/data", Rdonly := true }] }

/-- The mount record built by `ChildBindDirectores` for an entry when the root is not `/`. -/
def bindMountOf (env : TTaskEnv) (bindMap : TBindMap) : TMount :=
  { Source := bindMap.Source, Target := env.Root ++ bindMap.Dest, Type_ := "none", Options := [] }

/-- The call `c` is the bind mount of the entry `bindMap`, as a directory or as a file. -/
def isBindOf (env : TTaskEnv) (bindMap : TBindMap) (c : Call) : Prop :=
  c = Call.BindDir (bindMountOf env bindMap) bindMap.Rdonly none
    ∨ c = Call.BindFile (bindMountOf env bindMap) bindMap.Rdonly

/-- The string `s` contains the string `part`. -/
def containsStr (s part : String) : Prop :=
  part.data <:+: s.data

/-- The hexadecimal digit of a value below sixteen, in lower case. -/
def hexDigitChar (d : Nat) : Char :=
  if d < 10 then Char.ofNat (48 + d) else Char.ofNat (87 + d)

/-- The notation of a byte the specification asks for: two hexadecimal digits in lower case,
the high one first. -/
def octet (b : Nat) : String :=
  String.mk [hexDigitChar (b / 16), hexDigitChar (b % 16)]

/-- The byte of index `k` of a value, byte 0 being the least significant. -/
def byteOf (v k : Nat) : Nat :=
  v / 256 ^ k % 256

/-- The sample environment of a container named `box` with its own network namespace, one
macvlan and one veth, both without a configured hardware address. -/
def macvlanEnv : TTaskEnv :=
  { sampleEnv with
    Hostname := "box"
    NetCfg := { Share := false, Host := [], IpVlan := [],
                MacVlan := [{ Master := "eth0", Name := "mv0", Type_ := "bridge", Hw := "",
                              Mtu := 1500 }],
                Veth := [{ Bridge := "br0", Name := "eth0", Hw := "", Peer := "vpA",
                           Mtu := 1400 }] } }

/-! ## Vocabulary for statements about traces -/

/-- The call is an `execvpe`. -/
def isExec : Call → Bool
  | Call.execvpe _ _ _ => true
  | _ => false

/-- The call drops a capability from the bounding set. -/
def isDrop : Call → Bool
  | Call.DropBoundedCap _ => true
  | _ => false

/-- The call belongs to `ChildDropPriveleges` or to `ChildExec`. -/
def isCredOrExec : Call → Bool
  | Call.setgid _ => true
  | Call.initgroups _ _ => true
  | Call.setuid _ => true
  | Call.clearenv => true
  | Call.putenv _ => true
  | Call.wordexp _ => true
  | Call.execvpe _ _ _ => true
  | _ => false

/-- The outcome `r` extends the trace `tr` by calls that all satisfy `P`. -/
def Ext (P : Call → Prop) (tr : Trace) (r : Ret) : Prop :=
  ∃ d, r.2 = tr ++ d ∧ ∀ c ∈ d, P c

/-- The call belongs neither to `ChildDropPriveleges` nor to `ChildExec`. -/
def early (c : Call) : Prop :=
  isCredOrExec c = false

/-- The sample world in which remounting the mounts as slaves fails with `EPERM`. -/
def remountFailWorld : World :=
  { okWorld with
    terr := fun _ c =>
      match c with
      | Call.RemountSlave => { kind := EError.Unknown, errno := 1, msg := "mount()" }
      | _ => TError.Success }

/-- The sample environment of an unprivileged task with a new mount namespace in root `/`. -/
def remountEnv : TTaskEnv :=
  { userEnv with Root := "/", NewMountNs := true }

/-- The part of `ChildCallback` that follows `EnableNet` (lines 692-722), as a function of the
trace reached there. -/
def childCallbackFromFs (w : World) (env : TTaskEnv) (lastCap : Int) (tr : Trace) : Ret :=
  andThen (if env.ParentNs.Valid then
             andThen (call w Call.ParentNsChroot tr) fun tr =>
             andThen (call w (Call.Chdir env.Cwd) tr) fun tr =>
             (some TError.Success, tr)
           else
             andThen (ChildIsolateFs w env tr) fun tr =>
             andThen (call w (Call.Chdir env.Cwd) tr) fun tr =>
             andThen (ChildSetHostname w env tr) fun tr =>
             (some TError.Success, tr)) fun tr =>
  andThen (ChildApplyCapabilities w env lastCap tr) fun tr =>
  andThen (ChildDropPriveleges w env tr) fun tr =>
  ChildExec w env tr

/-- The calls of a successful `ChildDropPriveleges`. -/
def dropPrivelegesCalls (env : TTaskEnv) : Trace :=
  [Call.setgid env.Cred.Gid, Call.initgroups env.User env.Cred.Gid, Call.setuid env.Cred.Uid]

/-! ## The task and its launch (`TTask::Start`) -/

def SIGKILL : Int := 9
def ENOMEM : Int := 12
def EXIT_SUCCESS : Int := 0
def EXIT_FAILURE : Int := 1
def O_RDONLY : Nat := 0
def O_WRONLY : Nat := 1
def O_CREAT : Nat := 0o100
def O_APPEND : Nat := 0o2000

/-- The states of a task (`TTask::ETaskState`). -/
inductive ETaskState where
  | Initial
  | Started
  | Stopped
deriving DecidableEq

/-- The fields of `TTask` written by the launcher and the state machine.  `LeafCgroups` maps
the name of a subsystem to the relative path of the leaf cgroup (`none`: a null pointer);
`Cwd` is the folder handle made by `CreateCwd`, with its cleanup flag. -/
structure TTask where
  Pid : Int
  ExitStatus : Int
  State : ETaskState
  LeafCgroups : List (String × Option String)
  Cwd : Option (String × Bool) := none
deriving DecidableEq

/-- The values of `config()` read by the launcher. -/
structure Config where
  networkEnabled : Bool
  tmpDir : String

/-- What the daemon reads back after the fork, on top of the answers of `World`. -/
structure DaemonWorld extends World where
  /-- The value stored in `Pid` by `read(Rfd, &Pid, sizeof(Pid))`. -/
  pidRead : Trace → Int
  /-- The error filled in by `TError::Deserialize(Rfd, error)`; success when nothing came. -/
  deserialized : Trace → TError
  /-- The status stored by a successful `waitpid`. -/
  waitStatus : Trace → Int

/-- What `TTask::Start` yields: what it returned (`none`: this process never returns from it),
the task, and the trace. -/
abbrev StartRet := Option TError × TTask × Trace

/-- `TTask::ReportPid` (lines 90-94): the write of the pid on the outer pipe. -/
def ReportPid (pid : Int) (tr : Trace) : Trace :=
  tr ++ [Call.launch (LaunchCall.ReportPid pid)]

/-- `TTask::Abort` (lines 96-101): serialise the error on the outer pipe and exit. -/
def Abort (error : TError) (tr : Trace) : Trace :=
  tr ++ [Call.launch (LaunchCall.Serialize error), Call.launch (LaunchCall.exit EXIT_FAILURE)]

/-- The idiom `if (error) { ReportPid(-1); Abort(error); }` of the intermediate process,
followed by the rest of its script. -/
def orReportAbort (r : Ret) (k : Trace → Trace) : Trace :=
  match r with
  | (some error, tr) => if error.isError then Abort error (ReportPid (-1) tr) else k tr
  | (none, tr) => tr

/-- The idiom `if (error) Abort(error);` of the intermediate process after the clone. -/
def orAbort (r : Ret) (k : Trace → Trace) : Trace :=
  match r with
  | (some error, tr) => if error.isError then Abort error tr else k tr
  | (none, tr) => tr

/-- `TTask::ChildOpenStdFile` (lines 112-132). -/
def ChildOpenStdFile (w : World) (env : TTaskEnv) (path : String) (expected : Int)
    (tr : Trace) : Ret :=
  let opened := Call.launch (LaunchCall.openFile path (O_CREAT ||| O_WRONLY ||| O_APPEND) 0o660)
  let ret := w.sys tr opened
  let tr := tr ++ [opened]
  if ret < 0 then
    (some { kind := EError.InvalidValue, errno := w.errno tr,
            msg := "open(" ++ path ++ ") -> " ++ toString expected }, tr)
  else if ret ≠ expected then
    (some { kind := EError.Unknown, errno := EINVAL,
            msg := "open(" ++ path ++ ") -> " ++ toString expected ++ ": unexpected fd "
                   ++ toString ret }, tr)
  else
    andThen (sysCall w (Call.launch (LaunchCall.fchown ret env.Cred.Uid env.Cred.Gid))
                     ("fchown(" ++ path ++ ") -> " ++ toString expected) tr) fun tr =>
    (some TError.Success, tr)

/-- `TTask::ChildReopenStdio` (lines 134-152). -/
def ChildReopenStdio (w : World) (env : TTaskEnv) (tr : Trace) : Ret :=
  let tr := tr ++ [Call.launch (LaunchCall.CloseFds 3)]
  let opened := Call.launch (LaunchCall.openFile env.StdinPath (O_CREAT ||| O_RDONLY) 0o660)
  let ret := w.sys tr opened
  let tr := tr ++ [opened]
  if ret < 0 then
    (some { kind := EError.Unknown, errno := w.errno tr,
            msg := "open(" ++ env.StdinPath ++ ") -> 0" }, tr)
  else if ret ≠ 0 then
    (some { kind := EError.Unknown, errno := EINVAL, msg := "open(0): unexpected fd" }, tr)
  else
    andThen (ChildOpenStdFile w env env.StdoutPath 1 tr) fun tr =>
    andThen (ChildOpenStdFile w env env.StderrPath 2 tr) fun tr =>
    (some TError.Success, tr)

/-- The creation of the inner pipe in the intermediate process (lines 841-847). -/
def pipe2Sync (w : World) (tr : Trace) : Ret :=
  let ret := w.sys tr (Call.launch LaunchCall.pipe2Syncfd)
  let tr := tr ++ [Call.launch LaunchCall.pipe2Syncfd]
  if ret ≠ 0 then
    (some { kind := EError.Unknown, errno := w.errno tr, msg := "pipe2(pdf)" }, tr)
  else
    (some TError.Success, tr)

/-- The branch `forkPid == 0` of `TTask::Start` (lines 779-880): the script of the
intermediate process, which never returns.  The attach and chroot of the client namespace
share the same reaction to an error and are sequenced with `andThen`. -/
def startIntermediate (Crc32 : String → Nat) (w : World) (cfg : Config) (env : TTaskEnv)
    (task : TTask) (tr : Trace) : Trace :=
  let tr := tr ++ [Call.setsid]
  orReportAbort (forEach (fun (cg : String × Option String) tr =>
      call w (Call.launch (LaunchCall.CgroupAttach cg.1 cg.2)) tr) task.LeafCgroups tr) fun tr =>
  orReportAbort (if env.ClientNs.Valid then
                   andThen (call w (Call.launch LaunchCall.ClientNsAttach) tr) fun tr =>
                   call w (Call.launch LaunchCall.ClientNsChroot) tr
                 else (some TError.Success, tr)) fun tr =>
  orReportAbort (ChildReopenStdio w env tr) fun tr =>
  orReportAbort (call w (Call.launch LaunchCall.ParentNsAttach) tr) fun tr =>
  let cloneFlags := cloneFlags env
  orReportAbort (pipe2Sync w tr) fun tr =>
  let clonePid := w.sys tr (Call.launch (LaunchCall.clone cloneFlags))
  let tr := tr ++ [Call.launch (LaunchCall.clone cloneFlags)]
  let tr := tr ++ [Call.close Fd.WaitParentRfd]
  let tr := ReportPid clonePid tr
  if clonePid < 0 then
    Abort { kind := if w.errno tr = ENOMEM then EError.ResourceNotAvailable else EError.Unknown,
            errno := w.errno tr, msg := "clone()" } tr
  else
    orAbort (if cfg.networkEnabled then IsolateNet Crc32 w env clonePid tr
             else (some TError.Success, tr)) fun tr =>
    let result : Int := 0
    let ret := w.sys tr (Call.launch LaunchCall.writeGo)
    let tr := tr ++ [Call.launch LaunchCall.writeGo]
    if ret ≠ 4 then
      Abort { kind := EError.Unknown, errno := 0,
              msg := "Partial write to child sync pipe (" ++ toString ret ++ " != "
                     ++ toString result ++ ")" } tr
    else
      tr ++ [Call.launch (LaunchCall.exit EXIT_SUCCESS)]

/-- `TTask::CreateCwd` (lines 725-739); the second component is the task with its folder
handle. -/
def CreateCwd (w : World) (cfg : Config) (env : TTaskEnv) (task : TTask) (tr : Trace) :
    Ret × TTask :=
  let cleanup := StringStartsWith env.Cwd cfg.tmpDir
  let task := { task with Cwd := some (env.Cwd, cleanup) }
  if !w.pathExists tr env.Cwd then
    (andThen (call w (Call.FolderCreate env.Cwd (some (0o755, true))) tr) fun tr =>
     andThen (call w (Call.launch (LaunchCall.Chown env.Cwd env.Cred.Uid env.Cred.Gid)) tr)
       fun tr =>
     (some TError.Success, tr), task)
  else
    ((some TError.Success, tr), task)

/-- The daemon's side of `TTask::Start` after a successful fork (lines 881-912). -/
def startParent (dw : DaemonWorld) (task : TTask) (forkPid : Int) (tr : Trace) : StartRet :=
  let tr := tr ++ [Call.close Fd.Wfd]
  let forkResult := dw.sys tr (Call.launch (LaunchCall.waitpid forkPid))
  let status : Int := if forkResult < 0 then 0 else dw.waitStatus tr
  let tr := tr ++ [Call.launch (LaunchCall.waitpid forkPid)]
  let tr := if forkResult < 0 then tr ++ [Call.launch (LaunchCall.kill forkPid SIGKILL)] else tr
  let n := dw.sys tr (Call.launch LaunchCall.readPid)
  let task := if 0 < n then { task with Pid := dw.pidRead tr } else task
  let tr := tr ++ [Call.launch LaunchCall.readPid]
  if n ≤ 0 then
    let tr := tr ++ [Call.close Fd.Rfd]
    (some { kind := EError.InvalidValue, errno := dw.errno tr,
            msg := "Container couldn't start due to resource limits" }, task, tr)
  else
    let error := dw.deserialized tr
    let tr := tr ++ [Call.launch LaunchCall.Deserialize]
    let tr := tr ++ [Call.close Fd.Rfd]
    if error.isError || status != 0 then
      let tr := if 0 < task.Pid then tr ++ [Call.launch (LaunchCall.kill task.Pid SIGKILL)]
                else tr
      let task := { task with Pid := 0, ExitStatus := -1 }
      let error := if !error.isError then
          { kind := EError.InvalidValue, errno := dw.errno tr,
            msg := "Container couldn't start due to resource limits (child terminated with "
                   ++ toString status ++ ")" }
        else error
      (some error, task, tr)
    else
      (some TError.Success, { task with State := ETaskState.Started }, tr)

/-- `TTask::Start` from `ExitStatus = 0` on (lines 756-912). -/
def startAfterCwd (Crc32 : String → Nat) (dw : DaemonWorld) (cfg : Config) (env : TTaskEnv)
    (task : TTask) (tr : Trace) : StartRet :=
  let task := { task with ExitStatus := 0 }
  let ret := dw.sys tr (Call.launch LaunchCall.pipe2Pfd)
  let tr := tr ++ [Call.launch LaunchCall.pipe2Pfd]
  if ret ≠ 0 then
    (some { kind := EError.Unknown, errno := dw.errno tr, msg := "pipe2(pdf)" }, task, tr)
  else
    let forkPid := dw.sys tr (Call.launch LaunchCall.fork)
    let tr := tr ++ [Call.launch LaunchCall.fork]
    if forkPid < 0 then
      (some { kind := EError.Unknown, errno := dw.errno tr, msg := "fork()" }, task,
       tr ++ [Call.close Fd.Rfd, Call.close Fd.Wfd])
    else if forkPid = 0 then
      (none, task, startIntermediate Crc32 dw.toWorld cfg env task tr)
    else
      startParent dw task forkPid tr

/-- `TTask::Start` (lines 741-912). -/
def Start (Crc32 : String → Nat) (dw : DaemonWorld) (cfg : Config) (env : TTaskEnv)
    (task : TTask) (tr : Trace) : StartRet :=
  let task := { task with Pid := 0 }
  if env.CreateCwd then
    let created := CreateCwd dw.toWorld cfg env task tr
    if failed created.1 then
      (created.1.1, created.2, created.1.2)
    else
      startAfterCwd Crc32 dw cfg env created.2 created.1.2
  else
    startAfterCwd Crc32 dw cfg env task tr

/-- The script of the intermediate process from the clone on (lines 852-879). -/
def intermediateFromClone (Crc32 : String → Nat) (w : World) (cfg : Config) (env : TTaskEnv)
    (tr : Trace) : Trace :=
  let clonePid := w.sys tr (Call.launch (LaunchCall.clone (cloneFlags env)))
  let tr := tr ++ [Call.launch (LaunchCall.clone (cloneFlags env))]
  let tr := tr ++ [Call.close Fd.WaitParentRfd]
  let tr := ReportPid clonePid tr
  if clonePid < 0 then
    Abort { kind := if w.errno tr = ENOMEM then EError.ResourceNotAvailable else EError.Unknown,
            errno := w.errno tr, msg := "clone()" } tr
  else
    orAbort (if cfg.networkEnabled then IsolateNet Crc32 w env clonePid tr
             else (some TError.Success, tr)) fun tr =>
    let result : Int := 0
    let ret := w.sys tr (Call.launch LaunchCall.writeGo)
    let tr := tr ++ [Call.launch LaunchCall.writeGo]
    if ret ≠ 4 then
      Abort { kind := EError.Unknown, errno := 0,
              msg := "Partial write to child sync pipe (" ++ toString ret ++ " != "
                     ++ toString result ++ ")" } tr
    else
      tr ++ [Call.launch (LaunchCall.exit EXIT_SUCCESS)]

/-- The call writes a pid on the outer pipe. -/
def isReport : Call → Bool
  | Call.launch (LaunchCall.ReportPid _) => true
  | _ => false

/-- The call writes a serialised error on the outer pipe. -/
def isSerialize : Call → Bool
  | Call.launch (LaunchCall.Serialize _) => true
  | _ => false

/-- The call is the `clone` of the grandchild. -/
def isClone : Call → Bool
  | Call.launch (LaunchCall.clone _) => true
  | _ => false

/-- The call writes the go on the inner pipe. -/
def isGo : Call → Bool
  | Call.launch LaunchCall.writeGo => true
  | _ => false

/-- The call attaches the process to a cgroup. -/
def isAttach : Call → Bool
  | Call.launch (LaunchCall.CgroupAttach _ _) => true
  | _ => false

/-- The call is one of the launcher's own (`Call.launch`). -/
def isLaunch : Call → Bool
  | Call.launch _ => true
  | _ => false

/-- The call is none of: a pid report, a serialised error, the clone, the go. -/
def quiet (c : Call) : Prop :=
  isReport c = false ∧ isSerialize c = false ∧ isClone c = false ∧ isGo c = false

/-- The call is quiet and is not a cgroup attach. -/
def calm (c : Call) : Prop :=
  quiet c ∧ isAttach c = false

/-- The attach call of the intermediate process for one entry of `LeafCgroups`. -/
def attachCall (cg : String × Option String) : Call :=
  Call.launch (LaunchCall.CgroupAttach cg.1 cg.2)

/-- The shape of every run of the intermediate process, relative to the trace `tr0` it starts
from: either a step before the clone failed, and the run ends with the report of pid -1, the
serialised error and the exit; or the clone was called, its result was reported next, and no
other pid was reported before or after. -/
def ReportsOnce (w : World) (env : TTaskEnv) (tr0 out : Trace) : Prop :=
  (∃ b e, out = tr0 ++ b ++ [Call.launch (LaunchCall.ReportPid (-1)),
        Call.launch (LaunchCall.Serialize e), Call.launch (LaunchCall.exit EXIT_FAILURE)]
      ∧ e.isError = true
      ∧ ∀ c ∈ b, isReport c = false ∧ isSerialize c = false ∧ isClone c = false)
  ∨ (∃ b after, out = tr0 ++ b ++ [Call.launch (LaunchCall.clone (cloneFlags env)),
        Call.close Fd.WaitParentRfd,
        Call.launch (LaunchCall.ReportPid
          (w.sys (tr0 ++ b) (Call.launch (LaunchCall.clone (cloneFlags env)))))] ++ after
      ∧ (∀ c ∈ b, isReport c = false ∧ isSerialize c = false ∧ isClone c = false)
      ∧ (∀ c ∈ after, isReport c = false)
      ∧ (w.sys (tr0 ++ b) (Call.launch (LaunchCall.clone (cloneFlags env))) < 0 →
          ∃ e, e.isError = true ∧ after = [Call.launch (LaunchCall.Serialize e),
            Call.launch (LaunchCall.exit EXIT_FAILURE)]))

/-- The call is not one of the launcher's own: it belongs to a helper of the launcher. -/
def foreign (c : Call) : Prop :=
  isLaunch c = false

/-- The network step of the intermediate process after the clone (lines 863-869). -/
def isolateNetStep (Crc32 : String → Nat) (w : World) (cfg : Config) (env : TTaskEnv)
    (clonePid : Int) (tr : Trace) : Ret :=
  if cfg.networkEnabled then IsolateNet Crc32 w env clonePid tr else (some TError.Success, tr)

/-- The pid returned by the clone called at the trace `tr`. -/
def clonePidAt (w : World) (env : TTaskEnv) (tr : Trace) : Int :=
  w.sys tr (Call.launch (LaunchCall.clone (cloneFlags env)))

/-- The trace of the intermediate process once the result of the clone has been reported. -/
def reportedTrace (w : World) (env : TTaskEnv) (tr : Trace) : Trace :=
  tr ++ [Call.launch (LaunchCall.clone (cloneFlags env)), Call.close Fd.WaitParentRfd,
         Call.launch (LaunchCall.ReportPid (clonePidAt w env tr))]

/-- A world in which every call succeeds, the fork returns pid 4241 to the daemon, the clone
returns pid 4242 and the pipes carry whole messages. -/
def launchWorld : World :=
  { okWorld with
    sys := fun _ c =>
      match c with
      | Call.readSync => 4
      | Call.launch LaunchCall.fork => 4241
      | Call.launch (LaunchCall.clone _) => 4242
      | Call.launch LaunchCall.writeGo => 4
      | Call.launch LaunchCall.readPid => 4
      | Call.launch (LaunchCall.waitpid pid) => pid
      | Call.launch (LaunchCall.openFile path _ _) =>
        if path = "/tmp/stdout" then 1 else if path = "/tmp/stderr" then 2 else 0
      | _ => 0 }

/-- The daemon's view of `launchWorld`: the pid 4242 arrives, no error is serialised and the
intermediate process exits with status 0. -/
def okDaemonWorld : DaemonWorld :=
  { launchWorld with
    pidRead := fun _ => 4242
    deserialized := fun _ => TError.Success
    waitStatus := fun _ => 0 }

/-- A fresh task with two leaf cgroups. -/
def sampleTask : TTask :=
  { Pid := 0, ExitStatus := 0, State := ETaskState.Initial,
    LeafCgroups := [("freezer", some "/porto/a"), ("memory", some "/porto/a")] }

/-- A configuration with networking enabled. -/
def sampleConfig : Config :=
  { networkEnabled := true, tmpDir := "/place/porto" }

/-! ## Observation points of the daemon's side of `TTask::Start` -/

/-- `Start` returned and what it returned is not an error. -/
def startSucceeded (r : StartRet) : Bool :=
  match r.1 with
  | some e => !e.isError
  | none => false

/-- The call sends a signal. -/
def isKill : Call → Bool
  | Call.launch (LaunchCall.kill _ _) => true
  | _ => false

/-- The trace at which `Start` creates the outer pipe. -/
def pipeTrace (dw : DaemonWorld) (cfg : Config) (env : TTaskEnv) (task : TTask) (tr : Trace) :
    Trace :=
  if env.CreateCwd then (CreateCwd dw.toWorld cfg env { task with Pid := 0 } tr).1.2 else tr

/-- The task when `Start` forks. -/
def forkedTask (dw : DaemonWorld) (cfg : Config) (env : TTaskEnv) (task : TTask) (tr : Trace) :
    TTask :=
  { (if env.CreateCwd then (CreateCwd dw.toWorld cfg env { task with Pid := 0 } tr).2
     else { task with Pid := 0 }) with ExitStatus := 0 }

/-- What `fork` returns to `Start`. -/
def forkPidOf (dw : DaemonWorld) (cfg : Config) (env : TTaskEnv) (task : TTask) (tr : Trace) :
    Int :=
  dw.sys (pipeTrace dw cfg env task tr ++ [Call.launch LaunchCall.pipe2Pfd])
    (Call.launch LaunchCall.fork)

/-- The trace of `Start` once it has forked. -/
def forkedTrace (dw : DaemonWorld) (cfg : Config) (env : TTaskEnv) (task : TTask)
    (tr : Trace) : Trace :=
  pipeTrace dw cfg env task tr ++ [Call.launch LaunchCall.pipe2Pfd, Call.launch LaunchCall.fork]

/-- `Start` gets to the daemon's side after the fork: the cwd was created if asked for, the
outer pipe was created, and the fork returned the pid of the intermediate process. -/
def reachesParent (dw : DaemonWorld) (cfg : Config) (env : TTaskEnv) (task : TTask)
    (tr : Trace) : Bool :=
  (if env.CreateCwd then !failed (CreateCwd dw.toWorld cfg env { task with Pid := 0 } tr).1
   else true)
  && dw.sys (pipeTrace dw cfg env task tr) (Call.launch LaunchCall.pipe2Pfd) == 0
  && decide (0 < forkPidOf dw cfg env task tr)

/-- What `waitpid` returns to the daemon after the fork made at the trace `tr`. -/
def forkResultAt (dw : DaemonWorld) (forkPid : Int) (tr : Trace) : Int :=
  dw.sys (tr ++ [Call.close Fd.Wfd]) (Call.launch (LaunchCall.waitpid forkPid))

/-- The value of `status` after the `waitpid`. -/
def statusAt (dw : DaemonWorld) (forkPid : Int) (tr : Trace) : Int :=
  if forkResultAt dw forkPid tr < 0 then 0 else dw.waitStatus (tr ++ [Call.close Fd.Wfd])

/-- The trace at which the daemon reads the pid from the outer pipe. -/
def readTrace (dw : DaemonWorld) (forkPid : Int) (tr : Trace) : Trace :=
  tr ++ [Call.close Fd.Wfd, Call.launch (LaunchCall.waitpid forkPid)]
    ++ (if forkResultAt dw forkPid tr < 0 then [Call.launch (LaunchCall.kill forkPid SIGKILL)]
        else [])

/-- The number of bytes of the pid read by the daemon. -/
def bytesRead (dw : DaemonWorld) (forkPid : Int) (tr : Trace) : Int :=
  dw.sys (readTrace dw forkPid tr) (Call.launch LaunchCall.readPid)

/-- The error deserialised by the daemon after it has read the pid. -/
def errorRead (dw : DaemonWorld) (forkPid : Int) (tr : Trace) : TError :=
  dw.deserialized (readTrace dw forkPid tr ++ [Call.launch LaunchCall.readPid])

/-- The trace of the daemon once it has closed the outer pipe after the two reads. -/
def closedTrace (dw : DaemonWorld) (forkPid : Int) (tr : Trace) : Trace :=
  readTrace dw forkPid tr ++ [Call.launch LaunchCall.readPid,
    Call.launch LaunchCall.Deserialize, Call.close Fd.Rfd]

/-- The daemon's view of a launch whose intermediate process died before it wrote anything:
the read of the pid returns no data. -/
def emptyPipeWorld : DaemonWorld :=
  { okDaemonWorld with
    sys := fun tr c =>
      match c with
      | Call.launch LaunchCall.readPid => 0
      | _ => launchWorld.sys tr c }

/-! ## The state machine of the task (lines 914-1006, 1055-1070) -/

/-- What the restore checks read from `/proc` and from the process itself.  `statusLines pid`
is `TFile("/proc/<pid>/status").AsLines`, `taskCgroups pid` is `GetTaskCgroups(pid, _)`
(`util/unix.hpp`) and `StringToInt` is the helper of `util/string.hpp`; the two helpers are
not among the sources, and an error of any of the three is an `Except.error`. -/
structure ProcWorld where
  statusLines : Int → Except TError (List String)
  taskCgroups : Int → Except TError (List (String × String))
  StringToInt : String → Except TError Int
  getppid : Int

/-- `TTask::GetPid`. -/
def GetPid (task : TTask) : Int :=
  task.Pid

/-- `TTask::IsRunning`. -/
def IsRunning (task : TTask) : Bool :=
  task.State == ETaskState.Started

/-- `TTask::DeliverExitStatus` (lines 926-930). -/
def DeliverExitStatus (task : TTask) (status : Int) : TTask :=
  { task with LeafCgroups := [], ExitStatus := status, State := ETaskState.Stopped }

/-- `TTask::Restore` (lines 1002-1006). -/
def Restore (task : TTask) (pid_ : Int) : TTask :=
  { task with ExitStatus := 0, Pid := pid_, State := ETaskState.Started }

/-- `TTask::Kill` (lines 932-943); `none` is the `throw` for a task without a pid. -/
def Kill (w : World) (task : TTask) (signal : Int) (tr : Trace) : Ret :=
  if task.Pid = 0 then
    (none, tr)
  else
    let ret := w.sys tr (Call.launch (LaunchCall.kill task.Pid signal))
    let tr := tr ++ [Call.launch (LaunchCall.kill task.Pid signal)]
    if ret ≠ 0 then
      (some { kind := EError.Unknown, errno := w.errno tr,
              msg := "kill(" ++ toString task.Pid ++ ")" }, tr)
    else
      (some TError.Success, tr)

/-- The test `l.compare(0, n, start) == 0` for a `start` of `n` characters: the first `n`
characters of `l` are those of `start`. -/
def lineStartsWith (l start : String) : Bool :=
  l.data.take start.length == start.data

/-- `TTask::IsZombie` (lines 945-958). -/
def IsZombie (pw : ProcWorld) (task : TTask) : Bool :=
  match pw.statusLines task.Pid with
  | Except.error _ => false
  | Except.ok lines =>
    match lines.find? (fun l => lineStartsWith l "State:\t") with
    | some l => (l.data.drop 7).take 1 == ['Z']
    | none => false

/-- `TTask::GetPPid` (lines 1055-1070). -/
def GetPPid (pw : ProcWorld) (task : TTask) : Except TError Int :=
  match pw.statusLines task.Pid with
  | Except.error err => Except.error err
  | Except.ok lines =>
    match lines.find? (fun l => lineStartsWith l "PPid:\t") with
    | some l => pw.StringToInt (String.mk (l.data.drop 6))
    | none => Except.error { kind := EError.Unknown, errno := 0,
                             msg := "Can't parse /proc/pid/status" }

/-- `TTask::HasCorrectParent` (lines 960-974): the verdict and the task afterwards. -/
def HasCorrectParent (pw : ProcWorld) (task : TTask) : Bool × TTask :=
  match GetPPid pw task with
  | Except.error _ => (false, task)
  | Except.ok ppid =>
    if ppid ≠ pw.getppid then (false, task)
    else (true, task)

/-- `TTask::HasCorrectFreezer` (lines 976-1000): the verdict and the task afterwards; `none`
is the exception of `LeafCgroups.at` for a task without a freezer entry.  `cgmap["freezer"]`
is the empty string when the map has no such key. -/
def HasCorrectFreezer (pw : ProcWorld) (task : TTask) : Option (Bool × TTask) :=
  match pw.taskCgroups task.Pid with
  | Except.error _ => some (false, task)
  | Except.ok cgmap =>
    match task.LeafCgroups.lookup "freezer" with
    | none => none
    | some cg =>
      match cg with
      | some relpath =>
        if relpath ≠ (cgmap.lookup "freezer").getD "" then
          if IsZombie pw task then some (true, task)
          else some (false, { task with Pid := 0, State := ETaskState.Stopped })
        else some (true, task)
      | none => some (true, task)

/-- A sample `/proc`: pid 4242 sleeps, its parent is pid 1 while the daemon's parent is pid
777, and its freezer cgroup is `/porto/b`. -/
def strayProc : ProcWorld where
  statusLines := fun pid =>
    if pid = 4242 then Except.ok ["Name:\tsleep", "State:\tS (sleeping)", "PPid:\t1"]
    else Except.error { kind := EError.Unknown, errno := 2, msg := "Cannot open" }
  taskCgroups := fun pid =>
    if pid = 4242 then Except.ok [("freezer", "/porto/b"), ("memory", "/porto/a")]
    else Except.error { kind := EError.Unknown, errno := 2, msg := "Cannot open" }
  StringToInt := fun s =>
    if s = "1" then Except.ok 1
    else Except.error { kind := EError.InvalidValue, errno := 0, msg := "Bad integer value" }
  getppid := 777

/-- The sample `/proc` when the cgroups of pid 4242 cannot be read. -/
def unreadableProc : ProcWorld :=
  { strayProc with
    taskCgroups := fun _ =>
      Except.error { kind := EError.Unknown, errno := 2, msg := "Cannot open" } }

/-! ## `TFile` (file.cpp) -/

/-- The open modes of `std::ofstream` passed in file.cpp, and `app` for comparison. -/
inductive OpenMode where
  | out
  | trunc
  | app
deriving DecidableEq

/-- The content of a file right after `std::ofstream` has opened it (C++ standard, table of
`basic_filebuf::open`): `ofstream` always adds `out`; `out` alone and `out | trunc` open like
`fopen(path, "w")` and empty the file, `out | app` opens like `"a"` and keeps it.  A file that
did not exist is created empty. -/
def ofstreamOpen (mode : OpenMode) (content : Option String) : String :=
  match mode with
  | OpenMode.out => ""
  | OpenMode.trunc => ""
  | OpenMode.app => content.getD ""

namespace TFile

/-- `TFile::WriteStringNoAppend` (file.cpp, lines 93-103) on a file with the content `content`
(`none`: no such file): the error returned and the content afterwards.  `opens` tells whether
`out.is_open()` holds; the calls of the logger are left out. -/
def WriteStringNoAppend (opens : Bool) (errno : Int) (content : Option String) (str : String) :
    TError × Option String :=
  if opens then
    (TError.Success, some (ofstreamOpen OpenMode.trunc content ++ str))
  else
    ({ kind := EError.Unknown, errno := errno, msg := "" }, content)

/-- `TFile::AppendString` (file.cpp, lines 105-115), in the same way. -/
def AppendString (opens : Bool) (errno : Int) (content : Option String) (str : String) :
    TError × Option String :=
  if opens then
    (TError.Success, some (ofstreamOpen OpenMode.out content ++ str))
  else
    ({ kind := EError.Unknown, errno := errno, msg := "" }, content)

end TFile

/-! ## The steps of `ChildMountRun` and `ChildIsolateFs`, as the specification lists them -/

/-- The tmpfs mounted on `root/run`. -/
def runTmpfs (env : TTaskEnv) : Call :=
  Call.MountDir { Source := "tmpfs", Target := env.Root ++ "/run", Type_ := "tmpfs",
                  Options := ["mode=755", "size=32m"] } (some (MS_NOSUID ||| MS_STRICTATIME))

/-- The calls of a complete `ChildMountRun` started at the trace `tr`: when `root/run` exists,
the listing of its directories, the mount, and one creation for each name listed before the
mount, in the order of the listing; when it does not, its creation and the mount. -/
def mountRunCalls (w : World) (env : TTaskEnv) (tr : Trace) : List Call :=
  if w.pathExists tr (env.Root ++ "/run") then
    [Call.FolderItems (env.Root ++ "/run"), runTmpfs env]
      ++ (w.items tr (env.Root ++ "/run")).map
          (fun name => Call.FolderCreate (env.Root ++ "/run" ++ "/" ++ name) none)
  else
    [Call.FolderCreate (env.Root ++ "/run") none, runTmpfs env]


/-- A list of steps run in order: the first error of a step is returned and the later steps
are not run; when no step fails, what the last step returned is returned. -/
def runSteps : List (Trace → Ret) → Trace → Ret
  | [], tr => (some TError.Success, tr)
  | [step], tr => step tr
  | step :: rest, tr => andThen (step tr) (runSteps rest)

/-- The step `pivot_root(root)`: its failure is not returned but replaced by `chroot(root)`,
whose outcome is the outcome of the step. -/
def pivotRootStep (w : World) (env : TTaskEnv) (tr : Trace) : Ret :=
  if failed (call w (Call.PivotRoot env.Root) tr) then
    call w (Call.Chroot env.Root) (call w (Call.PivotRoot env.Root) tr).2
  else
    call w (Call.PivotRoot env.Root) tr

/-- The steps of `ChildIsolateFs` for a root different from `/`, in the order in which the
specification lists them. -/
def isolateFsSteps (w : World) (env : TTaskEnv) : List (Trace → Ret) :=
  [ fun tr =>
      if w.pathExists tr env.Loop then
        call w (Call.LoopMount env.Loop env.Root "ext4" env.LoopDev) tr
      else
        call w (Call.BindDir { Source := env.Root, Target := env.Root, Type_ := "none",
                               Options := [] } false (some MS_SHARED)) tr,
    fun tr =>
      call w (Call.MountDir { Source := "sysfs", Target := env.Root ++ "/sys", Type_ := "sysfs",
                              Options := [] }
                            (some (MS_NOEXEC ||| MS_NOSUID ||| MS_NODEV ||| MS_RDONLY))) tr,
    fun tr =>
      call w (Call.MountDir { Source := "proc", Target := env.Root ++ "/proc", Type_ := "proc",
                              Options := [] }
                            (some (MS_NOEXEC ||| MS_NOSUID ||| MS_NODEV))) tr,
    fun tr => ChildRestrictProc w env (!env.Cred.IsRoot) tr,
    fun tr => ChildMountDev w env tr,
    fun tr =>
      if w.pathExists tr env.Loop then ChildMountRun w env tr else (some TError.Success, tr),
    fun tr =>
      call w (Call.MountDir { Source := "shm", Target := env.Root ++ "/dev/shm",
                              Type_ := "tmpfs", Options := ["mode=1777", "size=65536k"] }
                            (some (MS_NOEXEC ||| MS_NOSUID ||| MS_NODEV))) tr,
    fun tr => if env.BindDns then ChildBindDns w env tr else (some TError.Success, tr),
    fun tr => ChildBindDirectores w env tr,
    fun tr =>
      if env.RootRdOnly then
        call w (Call.Mount { Source := env.Root, Target := env.Root, Type_ := "none",
                             Options := [] }
                           (if w.pathExists tr env.Loop then MS_REMOUNT ||| MS_RDONLY
                            else MS_REMOUNT ||| MS_RDONLY ||| MS_BIND)) tr
      else (some TError.Success, tr),
    fun tr => call w (Call.Chdir env.Root) tr,
    fun tr => pivotRootStep w env tr,
    fun tr => call w (Call.Chdir "/") tr ]

/-! ## The calls of a successful `EnableNet`, as the specification describes them -/

/-- The calls made for one link: it is loaded and brought up, and its address is set when
`IpMap` has an entry for its name whose address is not empty. -/
def linkCalls (env : TTaskEnv) (dev : String) : List Call :=
  [Call.LinkLoad dev, Call.LinkUp dev]
    ++ (match env.IpMap.lookup dev with
        | some ip => if ip.Addr != "" then [Call.LinkSetIpAddr dev ip.Addr ip.PrefixLen] else []
        | none => [])

/-- The calls made for a list of links, in the order of the list. -/
def linksCalls (env : TTaskEnv) (devices : List String) : List Call :=
  (devices.map (linkCalls env)).flatten

/-- The first link of the list for which `HasQueue` is true when the link has just been set
up; `tr` is the trace before the first link of the list. -/
def firstWithQueue (w : World) (env : TTaskEnv) : List String → Trace → Option String
  | [], _ => none
  | dev :: devices, tr =>
    if w.hasQueue (tr ++ linkCalls env dev) dev then some dev
    else firstWithQueue w env devices (tr ++ linkCalls env dev)

/-- A world with the links `lo`, `eth0` and `eth1`, of which the last two have a queue, and
in which every call succeeds. -/
def linksWorld : World :=
  { okWorld with
    findLink := fun _ => ["lo", "eth0", "eth1"]
    hasQueue := fun _ dev => dev != "lo" }

/-- The sample environment with an address for `eth0`, an empty address for `lo` and a
default gateway. -/
def gatewayEnv : TTaskEnv :=
  { sampleEnv with
    IpMap := [("eth0", { Addr := "10.0.0.2", PrefixLen := 24 }),
              ("lo", { Addr := "", PrefixLen := 0 })]
    DefaultGw := "10.0.0.1" }

/-! ## The entries of `IsolateNet`, as the specification orders them -/

/-- The entries of the network configuration as the steps of `IsolateNet`, in the order host
devices, ipvlans, macvlans, veths. -/
def netSteps (Crc32 : String → Nat) (w : World) (env : TTaskEnv) (childPid : Int) :
    List (Trace → Ret) :=
  env.NetCfg.Host.map (isolateHost w childPid)
    ++ env.NetCfg.IpVlan.map (isolateIpVlan w childPid)
    ++ env.NetCfg.MacVlan.map (isolateMacVlan Crc32 w env childPid)
    ++ env.NetCfg.Veth.map (isolateVeth Crc32 w env childPid)

/-- The connection to netlink followed by the given steps, stopped at the first error: the
run of `IsolateNet` up to an entry, when the steps are the entries before it. -/
def isolateNetUpTo (w : World) (steps : List (Trace → Ret)) (tr : Trace) : Ret :=
  andThen (call w Call.NlConnect tr) (forEach (fun step tr => step tr) steps)

/-- The sample environment with a host device, two ipvlans and a macvlan. -/
def vlanEnv : TTaskEnv :=
  { sampleEnv with
    NetCfg := { Share := false,
                Host := [{ Dev := "eth9" }],
                IpVlan := [{ Master := "eth0", Name := "iv0", Mode := "l2", Mtu := 1500 },
                           { Master := "eth0", Name := "iv1", Mode := "l2", Mtu := 1500 }],
                MacVlan := [{ Master := "eth0", Name := "mv0", Type_ := "bridge", Hw := "",
                              Mtu := 1500 }],
                Veth := [] } }

/-- A world in which the move of the transient ipvlan link into the namespace of pid 42 under
the name `iv1` fails and every other call succeeds. -/
def moveFailWorld : World :=
  { okWorld with
    terr := fun _ c =>
      if c = Call.LinkChangeNs "piv1" "iv1" 42 then
        { kind := EError.Unknown, errno := 16, msg := "Can't change link namespace" }
      else TError.Success }

/-- A world in which the move of the transient macvlan link into the namespace of pid 42
under the name `mv0` fails and every other call succeeds. -/
def macMoveFailWorld : World :=
  { okWorld with
    terr := fun _ c =>
      if c = Call.LinkChangeNs "pmv1" "mv0" 42 then
        { kind := EError.Unknown, errno := 16, msg := "Can't change link namespace" }
      else TError.Success }

/-! ## The steps of the intermediate process before the clone -/

/-- The steps of the intermediate process between `setsid` and the clone, in the order of the
script: one attach for each leaf cgroup, the attach and the chroot of the client namespace
when it is valid, the reopening of the standard streams, the attach of the parent namespace
and the creation of the inner pipe. -/
def preCloneSteps (w : World) (env : TTaskEnv) (task : TTask) : List (Trace → Ret) :=
  task.LeafCgroups.map (fun cg tr => call w (attachCall cg) tr)
    ++ (if env.ClientNs.Valid then
          [fun tr => call w (Call.launch LaunchCall.ClientNsAttach) tr,
           fun tr => call w (Call.launch LaunchCall.ClientNsChroot) tr]
        else [])
    ++ [fun tr => ChildReopenStdio w env tr,
        fun tr => call w (Call.launch LaunchCall.ParentNsAttach) tr,
        fun tr => pipe2Sync w tr]

/-- The sample world in which the intermediate process cannot open its standard input. -/
def reopenFailWorld : World :=
  { launchWorld with
    sys := fun tr c =>
      match c with
      | Call.launch (LaunchCall.openFile path _ _) =>
        if path = "/dev/null" then -1 else launchWorld.sys tr c
      | _ => launchWorld.sys tr c
    errno := fun _ => 24 }

end Porto

/-! # Theorems -/

namespace Porto

/-! ## Clone flags -/

/-- C1: the clone flags computed in `TTask::Start` are `SIGCHLD`, or-ed with
`CLONE_NEWPID|CLONE_NEWIPC` exactly when `Isolate` holds, with `CLONE_NEWNS` exactly when
`NewMountNs` holds, with `CLONE_NEWUTS` exactly when `Hostname` is not empty and with
`CLONE_NEWNET` exactly when `NetCfg.Share` is false; the low byte is `SIGCHLD` and no bit
outside `SIGCHLD` and the five namespace flags is ever set. -/
theorem cloneFlags_exact (env : TTaskEnv) :
    cloneFlags env =
        SIGCHLD ||| (if env.Isolate = true then CLONE_NEWPID ||| CLONE_NEWIPC else 0)
          ||| (if env.NewMountNs = true then CLONE_NEWNS else 0)
          ||| (if env.Hostname ≠ "" then CLONE_NEWUTS else 0)
          ||| (if env.NetCfg.Share = false then CLONE_NEWNET else 0)
      ∧ (cloneFlags env &&& CLONE_NEWPID = CLONE_NEWPID ↔ env.Isolate = true)
      ∧ (cloneFlags env &&& CLONE_NEWIPC = CLONE_NEWIPC ↔ env.Isolate = true)
      ∧ (cloneFlags env &&& CLONE_NEWNS = CLONE_NEWNS ↔ env.NewMountNs = true)
      ∧ (cloneFlags env &&& CLONE_NEWUTS = CLONE_NEWUTS ↔ env.Hostname ≠ "")
      ∧ (cloneFlags env &&& CLONE_NEWNET = CLONE_NEWNET ↔ env.NetCfg.Share = false)
      ∧ cloneFlags env &&& 0xFF = SIGCHLD
      ∧ cloneFlags env &&&
          (SIGCHLD ||| CLONE_NEWPID ||| CLONE_NEWIPC ||| CLONE_NEWNS ||| CLONE_NEWUTS
            ||| CLONE_NEWNET) = cloneFlags env := by
  unfold cloneFlags
  cases env.Isolate <;> cases env.NewMountNs <;> cases env.NetCfg.Share <;>
    by_cases hh : env.Hostname = "" <;> simp [hh] <;> decide

/-! ## The sequencing idioms -/

theorem andThen_of_succeeded {r : Ret} (k : Trace → Ret) (h : succeeded r = true) :
    andThen r k = k r.2 := by
  obtain ⟨o, tr⟩ := r
  cases o with
  | none => simp [succeeded] at h
  | some e =>
    have he : e.isError = false := by simpa [succeeded] using h
    simp [andThen, he]

theorem andThen_of_not_succeeded {r : Ret} (k : Trace → Ret) (h : succeeded r = false) :
    andThen r k = r := by
  obtain ⟨o, tr⟩ := r
  cases o with
  | none => simp [andThen]
  | some e =>
    have he : e.isError = true := by simpa [succeeded] using h
    simp [andThen, he]

theorem succeeded_of_andThen {r : Ret} {k : Trace → Ret}
    (h : succeeded (andThen r k) = true) : succeeded r = true := by
  by_contra hr
  have hr' : succeeded r = false := by simpa using hr
  rw [andThen_of_not_succeeded k hr'] at h
  exact hr h

theorem succeeded_call (w : World) (c : Call) (tr : Trace) :
    succeeded (call w c tr) = !(w.terr tr c).isError := rfl

theorem call_snd (w : World) (c : Call) (tr : Trace) : (call w c tr).2 = tr ++ [c] := rfl

theorem sysCall_snd (w : World) (c : Call) (msg : String) (tr : Trace) :
    (sysCall w c msg tr).2 = tr ++ [c] := by
  unfold sysCall
  split <;> rfl

theorem succeeded_success (tr : Trace) : succeeded (some TError.Success, tr) = true := rfl

/-! ## Capabilities -/

theorem capRequested_eq_testBit (caps i : Nat) (hi : i < 64) :
    capRequested caps i = caps.testBit i := by
  have hpow : (1 <<< (i % 64)) % 2 ^ 64 = 2 ^ i := by
    rw [Nat.mod_eq_of_lt hi, Nat.one_shiftLeft]
    exact Nat.mod_eq_of_lt (Nat.pow_lt_pow_right (by decide) hi)
  unfold capRequested
  rw [hpow]
  cases hb : caps.testBit i
  · have hz : caps &&& 2 ^ i = 0 := by
      apply Nat.eq_of_testBit_eq
      intro j
      rw [Nat.testBit_and, Nat.testBit_two_pow, Nat.zero_testBit]
      by_cases hij : i = j
      · subst hij; simp [hb]
      · simp [hij]
    simp [hz]
  · have hnz : caps &&& 2 ^ i ≠ 0 := by
      intro hz
      have := congrArg (fun n => Nat.testBit n i) hz
      simp [Nat.testBit_and, Nat.testBit_two_pow, hb] at this
    simpa using hnz

theorem dropUnlessRequested_snd (w : World) (env : TTaskEnv) (i : Nat) (tr : Trace) :
    (dropUnlessRequested w env i tr).2 =
      tr ++ (if (!capRequested env.Caps i && i != CAP_SETPCAP) = true
             then [Call.DropBoundedCap i] else []) := by
  unfold dropUnlessRequested
  split <;> simp [call]

theorem forEach_drop_snd (w : World) (env : TTaskEnv) (xs : List Nat) (tr : Trace)
    (h : succeeded (forEach (dropUnlessRequested w env) xs tr) = true) :
    (forEach (dropUnlessRequested w env) xs tr).2 =
      tr ++ (xs.filter fun i => !capRequested env.Caps i && i != CAP_SETPCAP).map
        Call.DropBoundedCap := by
  induction xs generalizing tr with
  | nil => simp [forEach]
  | cons x xs ih =>
    simp only [forEach] at h ⊢
    have hx := succeeded_of_andThen h
    rw [andThen_of_succeeded _ hx] at h ⊢
    rw [ih _ h, dropUnlessRequested_snd]
    by_cases hc : (!capRequested env.Caps x && x != CAP_SETPCAP) = true
    · simp [List.filter_cons, hc]
    · simp [List.filter_cons, hc]

theorem ChildApplyCapabilities_root_snd (w : World) (env : TTaskEnv) (lastCap : Int) (tr : Trace)
    (hroot : env.Cred.IsRoot = true)
    (hok : succeeded (ChildApplyCapabilities w env lastCap tr) = true) :
    (ChildApplyCapabilities w env lastCap tr).2 =
      tr ++ [Call.SetCap (2 ^ 64 - 1) (2 ^ 64 - 1) env.Caps]
        ++ ((List.range (lastCap + 1).toNat).filter fun i =>
              !capRequested env.Caps i && i != CAP_SETPCAP).map Call.DropBoundedCap
        ++ (if capRequested env.Caps CAP_SETPCAP = true then []
            else [Call.DropBoundedCap CAP_SETPCAP]) := by
  unfold ChildApplyCapabilities at hok ⊢
  simp only [hroot, Bool.not_true, Bool.false_eq_true, if_false] at hok ⊢
  by_cases h0 : lastCap = 0
  · simp [h0, succeeded] at hok
  · simp only [h0, if_false] at hok ⊢
    have h1 := succeeded_of_andThen hok
    rw [andThen_of_succeeded _ h1] at hok ⊢
    have h2 := succeeded_of_andThen hok
    rw [andThen_of_succeeded _ h2] at hok ⊢
    have h3 := succeeded_of_andThen hok
    rw [andThen_of_succeeded _ h3]
    rw [forEach_drop_snd w env _ _ h2, call_snd]
    by_cases hc : capRequested env.Caps CAP_SETPCAP = true
    · simp [hc]
    · simp [hc, call_snd]

/-- C2: for a root credential and `lastCap` in 1..63, a fully successful
`ChildApplyCapabilities` sets the inheritable set to `caps` and then drops from the bounding
set, in this order, every index of 0..lastCap (ascending) whose bit is clear in `caps` and
that is not `CAP_SETPCAP`, followed by `CAP_SETPCAP` exactly when its bit is clear in `caps`;
no capability whose bit is set in `caps` is dropped. -/
theorem ChildApplyCapabilities_drop_sequence (w : World) (env : TTaskEnv) (lastCap : Nat)
    (tr : Trace) (hroot : env.Cred.IsRoot = true) (hlo : 1 ≤ lastCap) (hhi : lastCap ≤ 63)
    (hok : succeeded (ChildApplyCapabilities w env lastCap tr) = true) :
    (ChildApplyCapabilities w env lastCap tr).2 =
        tr ++ [Call.SetCap (2 ^ 64 - 1) (2 ^ 64 - 1) env.Caps]
          ++ ((List.range (lastCap + 1)).filter fun i =>
                !env.Caps.testBit i && i != CAP_SETPCAP).map Call.DropBoundedCap
          ++ (if env.Caps.testBit CAP_SETPCAP = true then []
              else [Call.DropBoundedCap CAP_SETPCAP])
      ∧ ∀ i, env.Caps.testBit i = true →
          Call.DropBoundedCap i ∉ (ChildApplyCapabilities w env lastCap tr).2.drop tr.length := by
  have hlast : ((lastCap : Int) + 1).toNat = lastCap + 1 := by omega
  have hfilter :
      ((List.range (lastCap + 1)).filter fun i =>
          !capRequested env.Caps i && i != CAP_SETPCAP) =
        (List.range (lastCap + 1)).filter fun i => !env.Caps.testBit i && i != CAP_SETPCAP := by
    apply List.filter_congr
    intro i hi
    have hi64 : i < 64 := by
      have := List.mem_range.mp hi
      omega
    rw [capRequested_eq_testBit _ _ hi64]
  have hsetp : capRequested env.Caps CAP_SETPCAP = env.Caps.testBit CAP_SETPCAP :=
    capRequested_eq_testBit _ _ (by decide)
  have hsnd := ChildApplyCapabilities_root_snd w env lastCap tr hroot hok
  rw [hlast, hfilter, hsetp] at hsnd
  refine ⟨hsnd, ?_⟩
  intro i hi hmem
  rw [hsnd] at hmem
  simp only [List.append_assoc, List.drop_left, List.mem_append, List.mem_cons,
    List.mem_map, List.mem_filter, List.mem_range] at hmem
  rcases hmem with h | h | h
  · rcases h with h | h
    · cases h
    · cases h
  · obtain ⟨j, ⟨_, hj⟩, hji⟩ := h
    cases hji
    simp [hi] at hj
  · by_cases hc : env.Caps.testBit CAP_SETPCAP = true
    · simp [hc] at h
    · simp [hc] at h
      exact hc (h ▸ hi)

/-- Witness of C2: root, `caps` holding only bit 10, `lastCap = 36`, every call succeeding. -/
theorem ChildApplyCapabilities_drop_sequence_witness :
    (ChildApplyCapabilities okWorld sampleEnv (36 : Nat) []).2 =
        [] ++ [Call.SetCap (2 ^ 64 - 1) (2 ^ 64 - 1) sampleEnv.Caps]
          ++ ((List.range (36 + 1)).filter fun i =>
                !sampleEnv.Caps.testBit i && i != CAP_SETPCAP).map Call.DropBoundedCap
          ++ (if sampleEnv.Caps.testBit CAP_SETPCAP = true then []
              else [Call.DropBoundedCap CAP_SETPCAP])
      ∧ ∀ i, sampleEnv.Caps.testBit i = true →
          Call.DropBoundedCap i ∉
            (ChildApplyCapabilities okWorld sampleEnv (36 : Nat) []).2.drop ([] : Trace).length :=
  ChildApplyCapabilities_drop_sequence okWorld sampleEnv 36 [] rfl (by decide) (by decide)
    (by decide)

/-- C3 as stated fails: for an unprivileged credential `ChildApplyCapabilities` returns
success without a single call, so capability 0, whose bit is clear in `caps`, is not
dropped. -/
theorem ChildApplyCapabilities_nonroot_keeps_bounding_set :
    userEnv.Cred.IsRoot = false
      ∧ userEnv.Caps.testBit 0 = false
      ∧ succeeded (ChildApplyCapabilities okWorld userEnv 36 []) = true
      ∧ (ChildApplyCapabilities okWorld userEnv 36 []).2 = []
      ∧ Call.DropBoundedCap 0 ∉ (ChildApplyCapabilities okWorld userEnv 36 []).2 := by
  decide

/-- C3, amended: for a root credential and `lastCap` at most 63 (the indices of the 64-bit
mask), after `ChildApplyCapabilities` returns success every capability index `b` in
0..lastCap whose bit is not set in `caps` has been dropped from the bounding set. -/
theorem ChildApplyCapabilities_containment_root (w : World) (env : TTaskEnv) (lastCap : Nat)
    (tr : Trace) (b : Nat) (hroot : env.Cred.IsRoot = true) (hhi : lastCap ≤ 63)
    (hb : b ≤ lastCap) (hclear : env.Caps.testBit b = false)
    (hok : succeeded (ChildApplyCapabilities w env lastCap tr) = true) :
    Call.DropBoundedCap b ∈ (ChildApplyCapabilities w env lastCap tr).2.drop tr.length := by
  have hlast : ((lastCap : Int) + 1).toNat = lastCap + 1 := by omega
  have hreq : capRequested env.Caps b = false := by
    rw [capRequested_eq_testBit _ _ (by omega), hclear]
  rw [ChildApplyCapabilities_root_snd w env lastCap tr hroot hok, hlast]
  simp only [List.append_assoc, List.drop_left, List.mem_append, List.mem_cons,
    List.mem_map, List.mem_filter, List.mem_range]
  by_cases hset : b = CAP_SETPCAP
  · right; right
    subst hset
    simp [hreq]
  · right; left
    exact ⟨b, ⟨by omega, by simp [hreq, hset]⟩, rfl⟩

/-- Witness of the amended C3: root, `caps` holding only bit 10, `lastCap = 36`, `b = 0`. -/
theorem ChildApplyCapabilities_containment_root_witness :
    Call.DropBoundedCap 0 ∈
      (ChildApplyCapabilities okWorld sampleEnv (36 : Nat) []).2.drop ([] : Trace).length :=
  ChildApplyCapabilities_containment_root okWorld sampleEnv 36 [] 0 rfl (by decide) (by decide)
    (by decide) (by decide)

/-! ## Bind mounts -/

/-- C4 fails on the code: with root `/tmp/rfs`, a destination whose real path is
`/tmp/rfs2/etc` is neither the root nor beneath it, yet `StringStartsWith` accepts it and
`ChildBindDirectores` mounts it and returns success. -/
theorem ChildBindDirectores_accepts_sibling :
    siblingEnv.Root = "/tmp/rfs"
      ∧ siblingWorld.realPath [] (siblingEnv.Root ++ "/../rfs2/etc") = "/tmp/rfs2/etc"
      ∧ "/tmp/rfs2/etc" ≠ siblingEnv.Root
      ∧ StringStartsWith "/tmp/rfs2/etc" (siblingEnv.Root ++ "/") = false
      ∧ ChildBindDirectores siblingWorld siblingEnv [] =
          (some TError.Success,
           [Call.BindDir { Source := "/etc", Target := "/tmp/rfs/../rfs2/etc", Type_ := "none",
                           Options := [] } true none]) := by
  decide

theorem forEach_append {α : Type} (body : α → Trace → Ret) (xs ys : List α) (tr : Trace) :
    forEach body (xs ++ ys) tr = andThen (forEach body xs tr) (forEach body ys) := by
  induction xs generalizing tr with
  | nil => simp [forEach, andThen, TError.Success, TError.isError]
  | cons x xs ih =>
    simp only [List.cons_append, forEach]
    by_cases hx : succeeded (body x tr) = true
    · rw [andThen_of_succeeded _ hx, andThen_of_succeeded _ hx]
      exact ih _
    · have hx' : succeeded (body x tr) = false := by simpa using hx
      simp only [andThen_of_not_succeeded _ hx']

theorem bindDirectory_succeeded_snd (w : World) (env : TTaskEnv) (hroot : env.Root ≠ "/")
    (m : TBindMap) (tr : Trace) (h : succeeded (bindDirectory w env m tr) = true) :
    ∃ c, isBindOf env m c ∧ (bindDirectory w env m tr).2 = tr ++ [c] := by
  unfold bindDirectory at h ⊢
  simp only [hroot, if_false] at h ⊢
  by_cases hs : StringStartsWith (w.realPath tr (env.Root ++ m.Dest)) env.Root = true
  · simp only [hs, Bool.not_true, Bool.false_eq_true, if_false] at h ⊢
    unfold bindMount
    by_cases hd : w.isDirectory tr m.Source = true
    · exact ⟨_, Or.inl rfl, by simp [hd, call, bindMountOf]⟩
    · exact ⟨_, Or.inr rfl, by simp [hd, call, bindMountOf]⟩
  · simp [hs, succeeded, TError.isError] at h

theorem forEach_bindDirectory_snd (w : World) (env : TTaskEnv) (hroot : env.Root ≠ "/")
    (pre : List TBindMap) (tr : Trace)
    (h : succeeded (forEach (bindDirectory w env) pre tr) = true) :
    ∃ calls, List.Forall₂ (isBindOf env) pre calls
      ∧ (forEach (bindDirectory w env) pre tr).2 = tr ++ calls := by
  induction pre generalizing tr with
  | nil => exact ⟨[], List.Forall₂.nil, by simp [forEach]⟩
  | cons m pre ih =>
    simp only [forEach] at h ⊢
    have hm := succeeded_of_andThen h
    rw [andThen_of_succeeded _ hm] at h ⊢
    obtain ⟨c, hc, hsnd⟩ := bindDirectory_succeeded_snd w env hroot m tr hm
    obtain ⟨calls, hcalls, hrest⟩ := ih _ h
    refine ⟨c :: calls, List.Forall₂.cons hc hcalls, ?_⟩
    rw [hrest, hsnd]
    simp

theorem containsStr_resolvesToRootMsg (source realDest root : String) :
    containsStr (resolvesToRootMsg source realDest root) "resolves to root" := by
  refine ⟨("Container bind mount " ++ source ++ " ").data,
    (" " ++ realDest ++ " (" ++ root ++ ")").data, ?_⟩
  simp [resolvesToRootMsg, String.data_append]

/-- C5: with a root other than `/`, when the loop of `ChildBindDirectores` has got through
the entries `pre` and meets an entry `bad` whose destination real path does not start with
the root, the function returns an error of kind `InvalidValue` whose message contains
"resolves to root"; the calls it has made are exactly one bind mount for each entry of
`pre`, in list order, and none for `bad` or for the entries after it. -/
theorem ChildBindDirectores_rejects_outside (w : World) (env : TTaskEnv) (tr : Trace)
    (pre post : List TBindMap) (bad : TBindMap)
    (hroot : env.Root ≠ "/")
    (hmap : env.BindMap = pre ++ bad :: post)
    (hpre : succeeded (forEach (bindDirectory w env) pre tr) = true)
    (hbad : StringStartsWith
        (w.realPath (forEach (bindDirectory w env) pre tr).2 (env.Root ++ bad.Dest))
        env.Root = false) :
    ∃ error calls,
      ChildBindDirectores w env tr = (some error, tr ++ calls)
        ∧ error.kind = EError.InvalidValue
        ∧ containsStr error.msg "resolves to root"
        ∧ List.Forall₂ (isBindOf env) pre calls := by
  obtain ⟨calls, hcalls, hsnd⟩ := forEach_bindDirectory_snd w env hroot pre tr hpre
  refine ⟨{ kind := EError.InvalidValue, errno := 0,
            msg := resolvesToRootMsg bad.Source
              (w.realPath (tr ++ calls) (env.Root ++ bad.Dest)) env.Root }, calls, ?_, rfl,
          containsStr_resolvesToRootMsg _ _ _, hcalls⟩
  rw [hsnd] at hbad
  have hstep : bindDirectory w env bad (tr ++ calls) =
      (some { kind := EError.InvalidValue, errno := 0,
              msg := resolvesToRootMsg bad.Source
                (w.realPath (tr ++ calls) (env.Root ++ bad.Dest)) env.Root }, tr ++ calls) := by
    unfold bindDirectory
    simp [hroot, hbad]
  unfold ChildBindDirectores
  rw [hmap, forEach_append, andThen_of_succeeded _ hpre, hsnd]
  simp only [forEach]
  rw [hstep]
  simp [andThen, TError.isError]

/-- Witness of C5: root `/tmp/rfs`, a first entry beneath the root, a second entry with the
destination `../../outside`, and a third entry that is never reached. -/
theorem ChildBindDirectores_rejects_outside_witness :
    ∃ error calls,
      ChildBindDirectores siblingWorld traversalEnv [] = (some error, [] ++ calls)
        ∧ error.kind = EError.InvalidValue
        ∧ containsStr error.msg "resolves to root"
        ∧ List.Forall₂ (isBindOf traversalEnv)
            [{ Source := "/srv/data", Dest := "/data", Rdonly := false }] calls :=
  ChildBindDirectores_rejects_outside siblingWorld traversalEnv []
    [{ Source := "/srv/data", Dest := "/data", Rdonly := false }]
    [{ Source := "/srv/data", Dest := "/data", Rdonly := true }]
    { Source := "/etc", Dest := "../../outside", Rdonly := true }
    (by decide) rfl (by decide) (by decide)

/-! ## The generated hardware address -/

set_option maxRecDepth 100000 in
theorem fmt02x_eq_octet (b : Nat) (hb : b < 256) : fmt02x b = octet b := by
  revert b
  decide

theorem and_shiftRight (a b i : Nat) : (a &&& b) >>> i = a >>> i &&& b >>> i := by
  apply Nat.eq_of_testBit_eq
  intro j
  simp [Nat.testBit_shiftRight, Nat.testBit_and]

theorem mask_shift_eq_byteOf (h : Nat) :
    (h &&& 0x000000FF) >>> 0 = byteOf h 0
      ∧ (h &&& 0x0000FF00) >>> 8 = byteOf h 1
      ∧ (h &&& 0x00FF0000) >>> 16 = byteOf h 2
      ∧ (h &&& 0xFF000000) >>> 24 = byteOf h 3 := by
  have hmask : ∀ x : Nat, x &&& 255 = x % 256 := fun x =>
    Nat.and_pow_two_sub_one_eq_mod x 8
  refine ⟨?_, ?_, ?_, ?_⟩
  · simp [byteOf, hmask]
  · rw [and_shiftRight, Nat.shiftRight_eq_div_pow]
    exact hmask _
  · rw [and_shiftRight, Nat.shiftRight_eq_div_pow]
    exact hmask _
  · rw [and_shiftRight, Nat.shiftRight_eq_div_pow]
    exact hmask _

theorem byteOf_lt (v k : Nat) : byteOf v k < 256 :=
  Nat.mod_lt _ (by decide)

theorem octet_length (b : Nat) : (octet b).length = 2 := rfl

theorem GenerateHw_eq_octets (Crc32 : String → Nat) (host name : String) :
    GenerateHw Crc32 host name =
        "02:" ++ octet (byteOf (Crc32 name % 2 ^ 32) 0)
          ++ ":" ++ octet (byteOf (Crc32 host % 2 ^ 32) 3)
          ++ ":" ++ octet (byteOf (Crc32 host % 2 ^ 32) 2)
          ++ ":" ++ octet (byteOf (Crc32 host % 2 ^ 32) 1)
          ++ ":" ++ octet (byteOf (Crc32 host % 2 ^ 32) 0) := by
  have hn := mask_shift_eq_byteOf (Crc32 name % 2 ^ 32)
  have hh := mask_shift_eq_byteOf (Crc32 host % 2 ^ 32)
  unfold GenerateHw
  simp only []
  rw [hn.1, hh.1, hh.2.1, hh.2.2.1, hh.2.2.2]
  rw [fmt02x_eq_octet _ (byteOf_lt _ _), fmt02x_eq_octet _ (byteOf_lt _ _),
    fmt02x_eq_octet _ (byteOf_lt _ _), fmt02x_eq_octet _ (byteOf_lt _ _),
    fmt02x_eq_octet _ (byteOf_lt _ _)]

/-- C6: `GenerateHw(host, name)` depends on nothing but its two arguments (and the checksum
function) and is the 17-character string made of `02:` and five two-digit lowercase
hexadecimal octets separated by colons: the least significant byte of `Crc32(name)`, then
the four bytes of `Crc32(host)` from the most significant to the least significant. -/
theorem GenerateHw_format (Crc32 : String → Nat) (host name : String) :
    GenerateHw Crc32 host name =
        "02:" ++ octet (byteOf (Crc32 name % 2 ^ 32) 0)
          ++ ":" ++ octet (byteOf (Crc32 host % 2 ^ 32) 3)
          ++ ":" ++ octet (byteOf (Crc32 host % 2 ^ 32) 2)
          ++ ":" ++ octet (byteOf (Crc32 host % 2 ^ 32) 1)
          ++ ":" ++ octet (byteOf (Crc32 host % 2 ^ 32) 0)
      ∧ (GenerateHw Crc32 host name).length = 17
      ∧ (GenerateHw Crc32 host name).data.take 3 = ['0', '2', ':'] := by
  have heq := GenerateHw_eq_octets Crc32 host name
  refine ⟨heq, ?_, ?_⟩
  · rw [heq]
    simp only [String.length_append, octet_length]
    rfl
  · rw [heq]
    simp [String.data_append]

theorem hexDigitChar_injective :
    ∀ a < 16, ∀ b < 16, hexDigitChar a = hexDigitChar b → a = b := by
  decide

theorem byte_eq_of_digits (a b : Nat) (ha : a < 256) (hb : b < 256)
    (hhi : hexDigitChar (a / 16) = hexDigitChar (b / 16))
    (hlo : hexDigitChar (a % 16) = hexDigitChar (b % 16)) : a = b := by
  have h1 := hexDigitChar_injective (a / 16) (by omega) (b / 16) (by omega) hhi
  have h2 := hexDigitChar_injective (a % 16) (Nat.mod_lt _ (by decide)) (b % 16)
    (Nat.mod_lt _ (by decide)) hlo
  omega

theorem GenerateHw_host_injective (Crc32 : String → Nat) (host host' name : String)
    (h : GenerateHw Crc32 host name = GenerateHw Crc32 host' name) :
    Crc32 host % 2 ^ 32 = Crc32 host' % 2 ^ 32 := by
  rw [GenerateHw_eq_octets Crc32 host name, GenerateHw_eq_octets Crc32 host' name] at h
  have hd := congrArg String.data h
  simp only [String.data_append, octet, List.append_assoc, List.cons_append, List.nil_append,
    List.cons.injEq, List.append_cancel_left_eq, true_and, and_true] at hd
  obtain ⟨h3a, h3b, h2a, h2b, h1a, h1b, h0a, h0b⟩ := hd
  have b3 := byte_eq_of_digits _ _ (byteOf_lt _ _) (byteOf_lt _ _) h3a h3b
  have b2 := byte_eq_of_digits _ _ (byteOf_lt _ _) (byteOf_lt _ _) h2a h2b
  have b1 := byte_eq_of_digits _ _ (byteOf_lt _ _) (byteOf_lt _ _) h1a h1b
  have b0 := byte_eq_of_digits _ _ (byteOf_lt _ _) (byteOf_lt _ _) h0a h0b
  have hlt : Crc32 host % 2 ^ 32 < 2 ^ 32 := Nat.mod_lt _ (by decide)
  have hlt' : Crc32 host' % 2 ^ 32 < 2 ^ 32 := Nat.mod_lt _ (by decide)
  simp only [byteOf] at b3 b2 b1 b0
  norm_num at b3 b2 b1 b0 hlt hlt' ⊢
  omega

/-! ## Network isolation -/

/-- C7 fails on the code: the host is named `host` and the container `box`; for a macvlan and
a veth without a configured address, `IsolateNet` passes to `AddMacVlan` and `AddVeth` the
address generated from the hostname of the container (`Env->Hostname`), not from the value
of `GetHostName()`, and the two addresses differ as soon as the checksums of the two names
differ. -/
theorem IsolateNet_generates_from_container_hostname :
    okWorld.hostName [Call.NlConnect] = "host"
      ∧ macvlanEnv.Hostname = "box"
      ∧ (∀ Crc32 : String → Nat,
          IsolateNet Crc32 okWorld macvlanEnv 42 [] =
            (some TError.Success,
             [Call.NlConnect,
              Call.LinkRemove "pmv1",
              Call.LinkAddMacVlan "pmv1" "eth0" "bridge"
                (GenerateHw Crc32 "box" ("eth0" ++ "mv0")) 1500,
              Call.LinkChangeNs "pmv1" "mv0" 42,
              Call.LinkLoad "br0",
              Call.LinkAddVeth "br0" "eth0" "vpA"
                (GenerateHw Crc32 "box" ("eth0" ++ "vpA")) 1400 42]))
      ∧ (∀ Crc32 : String → Nat, Crc32 "box" % 2 ^ 32 ≠ Crc32 "host" % 2 ^ 32 →
          GenerateHw Crc32 "box" ("eth0" ++ "mv0") ≠ GenerateHw Crc32 "host" ("eth0" ++ "mv0")
            ∧ GenerateHw Crc32 "box" ("eth0" ++ "vpA")
                ≠ GenerateHw Crc32 "host" ("eth0" ++ "vpA")) := by
  refine ⟨rfl, rfl, fun Crc32 => rfl, fun Crc32 hne => ⟨?_, ?_⟩⟩
  · exact fun h => hne (GenerateHw_host_injective Crc32 _ _ _ h)
  · exact fun h => hne (GenerateHw_host_injective Crc32 _ _ _ h)

/-! ## Functions only append to the trace -/

theorem Ext.refl (P : Call → Prop) (o : Option TError) (tr : Trace) : Ext P tr (o, tr) :=
  ⟨[], by simp, by simp⟩

theorem Ext.trans {P : Call → Prop} {tr : Trace} {r r' : Ret} (h : Ext P tr r)
    (h' : Ext P r.2 r') : Ext P tr r' := by
  obtain ⟨d, hd, hP⟩ := h
  obtain ⟨d', hd', hP'⟩ := h'
  refine ⟨d ++ d', by rw [hd', hd, List.append_assoc], ?_⟩
  intro c hc
  rcases List.mem_append.mp hc with h | h
  · exact hP c h
  · exact hP' c h

theorem Ext.step {P : Call → Prop} (c : Call) (hc : P c) (o : Option TError) (tr : Trace) :
    Ext P tr (o, tr ++ [c]) :=
  ⟨[c], rfl, by simpa using hc⟩

theorem Ext.after {P : Call → Prop} {tr : Trace} {r : Ret} (c : Call) (hc : P c)
    (h : Ext P (tr ++ [c]) r) : Ext P tr r :=
  Ext.trans (Ext.step c hc none tr) h

theorem Ext.call {P : Call → Prop} (w : World) (c : Call) (hc : P c) (tr : Trace) :
    Ext P tr (call w c tr) :=
  Ext.step c hc _ tr

theorem Ext.sysCall {P : Call → Prop} (w : World) (c : Call) (msg : String) (hc : P c)
    (tr : Trace) : Ext P tr (sysCall w c msg tr) := by
  unfold Porto.sysCall
  split
  · exact Ext.step c hc _ tr
  · exact Ext.step c hc _ tr

theorem Ext.andThen {P : Call → Prop} {tr : Trace} {r : Ret} {k : Trace → Ret}
    (hr : Ext P tr r) (hk : ∀ tr', Ext P tr' (k tr')) : Ext P tr (andThen r k) := by
  by_cases hs : succeeded r = true
  · rw [andThen_of_succeeded k hs]
    exact Ext.trans hr (hk r.2)
  · have hs' : succeeded r = false := by simpa using hs
    rw [andThen_of_not_succeeded k hs']
    exact hr

theorem Ext.forEach {P : Call → Prop} {α : Type} {body : α → Trace → Ret}
    (hbody : ∀ x tr, Ext P tr (body x tr)) (xs : List α) (tr : Trace) :
    Ext P tr (forEach body xs tr) := by
  induction xs generalizing tr with
  | nil => exact Ext.refl P _ tr
  | cons x xs ih => exact Ext.andThen (hbody x tr) ih

theorem Ext.mono {P Q : Call → Prop} {tr : Trace} {r : Ret} (hPQ : ∀ c, P c → Q c)
    (h : Ext P tr r) : Ext Q tr r := by
  obtain ⟨d, hd, hP⟩ := h
  exact ⟨d, hd, fun c hc => hPQ c (hP c hc)⟩

theorem early_step (c : Call) (hc : isCredOrExec c = false) (o : Option TError) (tr : Trace) :
    Ext early tr (o, tr ++ [c]) :=
  Ext.step c hc o tr

theorem early_after {tr : Trace} {r : Ret} (c : Call) (hc : isCredOrExec c = false)
    (h : Ext early (tr ++ [c]) r) : Ext early tr r :=
  Ext.after c hc h

theorem early_call (w : World) (c : Call) (hc : isCredOrExec c = false) (tr : Trace) :
    Ext early tr (call w c tr) :=
  Ext.call w c hc tr

theorem early_sysCall (w : World) (c : Call) (msg : String) (hc : isCredOrExec c = false)
    (tr : Trace) : Ext early tr (sysCall w c msg tr) :=
  Ext.sysCall w c msg hc tr

theorem readGo_ext (w : World) (tr : Trace) : Ext early tr (readGo w tr) := by
  unfold readGo
  apply early_after (Call.close Fd.WaitParentWfd) (by rfl)
  simp only []
  split
  · exact early_step Call.readSync (by rfl) _ _
  · exact early_step Call.readSync (by rfl) _ _

theorem ChildApplyLimits_ext (w : World) (env : TTaskEnv) (tr : Trace) :
    Ext early tr (ChildApplyLimits w env tr) := by
  unfold ChildApplyLimits
  refine Ext.andThen (Ext.forEach (fun pair tr => early_sysCall w _ _ (by rfl) tr) _ tr) ?_
  intro tr
  exact Ext.refl _ _ _

theorem remountProc_ext (w : World) (tr : Trace) : Ext early tr (remountProc w tr) := by
  unfold remountProc
  simp only []
  split
  · exact early_step _ (by rfl) _ _
  · exact early_step _ (by rfl) _ _

theorem ChildPrepareLoop_ext (w : World) (env : TTaskEnv) (tr : Trace) :
    Ext early tr (ChildPrepareLoop w env tr) := by
  unfold ChildPrepareLoop
  refine Ext.andThen ?_ (fun tr => Ext.refl _ _ _)
  split
  · split
    · exact early_call w _ (by rfl) tr
    · exact Ext.refl _ _ _
  · exact Ext.refl _ _ _

theorem enableLink_ext (w : World) (env : TTaskEnv) (dev : String) (tr : Trace) :
    Ext early tr (enableLink w env dev tr) := by
  unfold enableLink
  refine Ext.andThen (early_call w _ (by rfl) tr) (fun tr => ?_)
  refine Ext.andThen (early_call w _ (by rfl) tr) (fun tr => ?_)
  split
  · split
    · exact early_call w _ (by rfl) tr
    · exact Ext.refl _ _ _
  · exact Ext.refl _ _ _

theorem enableLinks_ext (w : World) (env : TTaskEnv) (devices : List String)
    (gw : Option String) (tr : Trace) :
    Ext early tr (enableLinks w env devices gw tr).1 := by
  induction devices generalizing gw tr with
  | nil => exact Ext.refl _ _ _
  | cons dev devices ih =>
    have hlink := enableLink_ext w env dev tr
    unfold enableLinks
    split
    · rename_i error tr' heq
      rw [heq] at hlink
      split
      · exact hlink
      · exact Ext.trans hlink (ih _ _)
    · rename_i tr' heq
      rw [heq] at hlink
      exact hlink

theorem EnableNet_ext (w : World) (env : TTaskEnv) (tr : Trace) :
    Ext early tr (EnableNet w env tr) := by
  unfold EnableNet
  refine Ext.andThen (early_call w _ (by rfl) tr) (fun tr => ?_)
  refine Ext.andThen (enableLinks_ext w env _ _ tr) (fun tr' => ?_)
  refine Ext.andThen ?_ (fun tr => Ext.refl _ _ _)
  split
  · split
    · exact early_call w _ (by rfl) _
    · exact Ext.refl _ _ _
  · exact Ext.refl _ _ _

theorem ChildBindDns_ext (w : World) (env : TTaskEnv) (tr : Trace) :
    Ext early tr (ChildBindDns w env tr) := by
  unfold ChildBindDns
  exact Ext.andThen (Ext.forEach (fun file tr => early_call w _ (by rfl) tr) _ tr)
    (fun tr => Ext.refl _ _ _)

theorem bindMount_ext (w : World) (bindMap : TBindMap) (dest : String) (tr : Trace) :
    Ext early tr (bindMount w bindMap dest tr) := by
  unfold bindMount
  simp only []
  split
  · exact early_call w _ (by rfl) tr
  · exact early_call w _ (by rfl) tr

theorem bindDirectory_ext (w : World) (env : TTaskEnv) (bindMap : TBindMap) (tr : Trace) :
    Ext early tr (bindDirectory w env bindMap tr) := by
  unfold bindDirectory
  simp only []
  split
  · exact bindMount_ext w _ _ tr
  · split
    · exact Ext.refl _ _ _
    · exact bindMount_ext w _ _ tr

theorem ChildBindDirectores_ext (w : World) (env : TTaskEnv) (tr : Trace) :
    Ext early tr (ChildBindDirectores w env tr) := by
  unfold ChildBindDirectores
  exact Ext.andThen (Ext.forEach (bindDirectory_ext w env) _ tr) (fun tr => Ext.refl _ _ _)

theorem CreateNode_ext (w : World) (path : String) (mode dev : Nat) (tr : Trace) :
    Ext early tr (CreateNode w path mode dev tr) :=
  early_sysCall w _ _ (by rfl) tr

theorem ChildRestrictProc_ext (w : World) (env : TTaskEnv) (restrictProcSys : Bool)
    (tr : Trace) : Ext early tr (ChildRestrictProc w env restrictProcSys tr) := by
  unfold ChildRestrictProc
  refine Ext.andThen (Ext.forEach (fun path tr => early_call w _ (by rfl) tr) _ tr)
    (fun tr => ?_)
  exact Ext.andThen (early_call w _ (by rfl) tr) (fun tr => Ext.refl _ _ _)

theorem ChildMountRun_ext (w : World) (env : TTaskEnv) (tr : Trace) :
    Ext early tr (ChildMountRun w env tr) := by
  unfold ChildMountRun
  simp only []
  refine Ext.andThen ?_ (fun tr' => ?_)
  · split
    · exact early_call w _ (by rfl) tr
    · exact early_call w _ (by rfl) tr
  · refine Ext.andThen (early_call w _ (by rfl) tr') (fun tr' => ?_)
    exact Ext.andThen (Ext.forEach (fun name tr => early_call w _ (by rfl) tr) _ tr')
      (fun tr => Ext.refl _ _ _)

theorem ChildMountDev_ext (w : World) (env : TTaskEnv) (tr : Trace) :
    Ext early tr (ChildMountDev w env tr) := by
  unfold ChildMountDev
  refine Ext.andThen (early_call w _ (by rfl) tr) (fun tr => ?_)
  refine Ext.andThen (early_call w _ (by rfl) tr) (fun tr => ?_)
  refine Ext.andThen (Ext.forEach (fun node tr => CreateNode_ext w _ _ _ tr) _ tr)
    (fun tr => ?_)
  refine Ext.andThen (early_sysCall w _ _ (by rfl) tr) (fun tr => ?_)
  refine Ext.andThen (early_sysCall w _ _ (by rfl) tr) (fun tr => ?_)
  exact early_step _ (by rfl) _ tr

theorem pivotOrChroot_ext (w : World) (env : TTaskEnv) (tr : Trace) :
    Ext early tr (pivotOrChroot w env tr) := by
  unfold pivotOrChroot
  simp only [call]
  refine Ext.andThen ?_ (fun tr => early_step _ (by rfl) _ tr)
  split
  · exact Ext.trans (early_step (Call.PivotRoot env.Root) (by rfl) none tr)
      (early_step _ (by rfl) _ _)
  · exact early_step _ (by rfl) _ tr

theorem ChildIsolateFs_ext (w : World) (env : TTaskEnv) (tr : Trace) :
    Ext early tr (ChildIsolateFs w env tr) := by
  unfold ChildIsolateFs
  split
  · exact ChildBindDirectores_ext w env tr
  · simp only []
    refine Ext.andThen ?_ (fun tr => ?_)
    · split
      · exact early_call w _ (by rfl) tr
      · exact early_call w _ (by rfl) tr
    refine Ext.andThen (early_call w _ (by rfl) tr) (fun tr => ?_)
    refine Ext.andThen (early_call w _ (by rfl) tr) (fun tr => ?_)
    refine Ext.andThen (ChildRestrictProc_ext w env _ tr) (fun tr => ?_)
    refine Ext.andThen (ChildMountDev_ext w env tr) (fun tr => ?_)
    refine Ext.andThen ?_ (fun tr => ?_)
    · split
      · exact ChildMountRun_ext w env tr
      · exact Ext.refl _ _ _
    refine Ext.andThen (early_call w _ (by rfl) tr) (fun tr => ?_)
    refine Ext.andThen ?_ (fun tr => ?_)
    · split
      · exact ChildBindDns_ext w env tr
      · exact Ext.refl _ _ _
    refine Ext.andThen (ChildBindDirectores_ext w env tr) (fun tr => ?_)
    refine Ext.andThen ?_ (fun tr => ?_)
    · split
      · exact early_call w _ (by rfl) tr
      · exact Ext.refl _ _ _
    refine Ext.andThen (early_call w _ (by rfl) tr) (fun tr => ?_)
    exact pivotOrChroot_ext w env tr

theorem ChildSetHostname_ext (w : World) (env : TTaskEnv) (tr : Trace) :
    Ext early tr (ChildSetHostname w env tr) := by
  unfold ChildSetHostname
  split
  · exact Ext.refl _ _ _
  · refine Ext.andThen ?_ (fun tr => ?_)
    · split
      · simp only []
        split
        · exact early_step _ (by rfl) _ tr
        · exact early_step _ (by rfl) _ tr
      · exact Ext.refl _ _ _
    exact Ext.andThen (early_sysCall w _ _ (by rfl) tr) (fun tr => Ext.refl _ _ _)

theorem dropUnlessRequested_ext (w : World) (env : TTaskEnv) (i : Nat) (tr : Trace) :
    Ext early tr (dropUnlessRequested w env i tr) := by
  unfold dropUnlessRequested
  split
  · exact early_call w _ (by rfl) tr
  · exact Ext.refl _ _ _

theorem ChildApplyCapabilities_ext (w : World) (env : TTaskEnv) (lastCap : Int) (tr : Trace) :
    Ext early tr (ChildApplyCapabilities w env lastCap tr) := by
  unfold ChildApplyCapabilities
  split
  · exact Ext.refl _ _ _
  · split
    · exact Ext.refl _ _ _
    · refine Ext.andThen (early_call w _ (by rfl) tr) (fun tr => ?_)
      refine Ext.andThen (Ext.forEach (dropUnlessRequested_ext w env) _ tr) (fun tr => ?_)
      refine Ext.andThen ?_ (fun tr => Ext.refl _ _ _)
      split
      · exact early_call w _ (by rfl) tr
      · exact Ext.refl _ _ _

/-! ## Exec never returns success -/

theorem succeeded_andThen_eq_false (r : Ret) (k : Trace → Ret)
    (hk : ∀ tr, succeeded (k tr) = false) : succeeded (andThen r k) = false := by
  by_cases hs : succeeded r = true
  · rw [andThen_of_succeeded k hs]
    exact hk _
  · have hs' : succeeded r = false := by simpa using hs
    rw [andThen_of_not_succeeded k hs']
    exact hs'

theorem wordexpError_spec (ret : Int) :
    if ret = 0 then wordexpError ret = none
    else ∃ error, wordexpError ret = some error ∧ error.kind = EError.Unknown
      ∧ error.errno = EINVAL := by
  unfold wordexpError
  by_cases h0 : ret = 0
  · subst h0
    simp [WRDE_BADCHAR, WRDE_BADVAL, WRDE_CMDSUB, WRDE_SYNTAX]
  · simp only [h0, if_false]
    split
    · exact ⟨_, rfl, rfl, rfl⟩
    · split
      · exact ⟨_, rfl, rfl, rfl⟩
      · split
        · exact ⟨_, rfl, rfl, rfl⟩
        · split
          · exact ⟨_, rfl, rfl, rfl⟩
          · exact ⟨_, rfl, rfl, rfl⟩

theorem ChildExec_cases (w : World) (env : TTaskEnv) (tr : Trace) :
    let tr1 := tr ++ [Call.clearenv] ++ env.Environ.map Call.putenv
    let ret := w.sys tr1 (Call.wordexp env.Command)
    let tr2 := tr1 ++ [Call.wordexp env.Command]
    let we_wordv := w.wordv tr1 env.Command
    let exec := Call.execvpe we_wordv.head? we_wordv env.Environ
    if ret ≠ 0 then
      ∃ error, ChildExec w env tr = (some error, tr2) ∧ error.kind = EError.Unknown
        ∧ error.errno = EINVAL
    else if w.execReturns tr2 exec = true then
      ∃ error, ChildExec w env tr = (some error, tr2 ++ [exec])
        ∧ error.kind = EError.InvalidValue ∧ error.errno = w.errno (tr2 ++ [exec])
    else
      ChildExec w env tr = (none, tr2 ++ [exec]) := by
  intro tr1 ret tr2 we_wordv exec
  have hspec := wordexpError_spec ret
  have hdef : ChildExec w env tr =
      match wordexpError ret with
      | some error => (some error, tr2)
      | none =>
        if w.execReturns tr2 exec then
          (some { kind := EError.InvalidValue, errno := w.errno (tr2 ++ [exec]),
                  msg := "execvpe(" ++ we_wordv.head?.getD "" ++ ", " ++ toString we_wordv.length
                         ++ ", " ++ toString env.Environ.length ++ ")" },
           tr2 ++ [exec])
        else
          (none, tr2 ++ [exec]) := rfl
  rw [hdef]
  by_cases h0 : ret = 0
  · rw [if_pos h0] at hspec
    rw [hspec, if_neg (by simpa using h0)]
    by_cases hr : w.execReturns tr2 exec = true
    · rw [if_pos hr]
      simp only [hr, if_true]
      refine ⟨_, rfl, ?_, ?_⟩ <;> rfl
    · rw [if_neg hr, if_neg hr]
  · rw [if_neg h0] at hspec
    rw [if_pos h0]
    obtain ⟨error, herr, hkind, hno⟩ := hspec
    rw [herr]
    exact ⟨error, rfl, hkind, hno⟩

theorem ChildExec_not_succeeded (w : World) (env : TTaskEnv) (tr : Trace) :
    succeeded (ChildExec w env tr) = false := by
  have h := ChildExec_cases w env tr
  simp only [] at h
  split at h
  · obtain ⟨error, heq, hkind, _⟩ := h
    simp [heq, succeeded, TError.isError, hkind]
  · split at h
    · obtain ⟨error, heq, hkind, _⟩ := h
      simp [heq, succeeded, TError.isError, hkind]
    · simp [h, succeeded]

theorem ChildCallback_not_succeeded (w : World) (env : TTaskEnv) (lastCap : Int) (tr : Trace) :
    succeeded (ChildCallback w env lastCap tr) = false := by
  unfold ChildCallback
  refine succeeded_andThen_eq_false _ _ (fun tr => ?_)
  refine succeeded_andThen_eq_false _ _ (fun tr => ?_)
  refine succeeded_andThen_eq_false _ _ (fun tr => ?_)
  refine succeeded_andThen_eq_false _ _ (fun tr => ?_)
  refine succeeded_andThen_eq_false _ _ (fun tr => ?_)
  refine succeeded_andThen_eq_false _ _ (fun tr => ?_)
  refine succeeded_andThen_eq_false _ _ (fun tr => ?_)
  refine succeeded_andThen_eq_false _ _ (fun tr => ?_)
  refine succeeded_andThen_eq_false _ _ (fun tr => ?_)
  exact ChildExec_not_succeeded w env tr

/-- C10: `ChildExec` never returns success.  For every non-zero result of `wordexp` it
returns an error of kind `Unknown` and has called `clearenv`, `putenv` and `wordexp` only;
when `wordexp` returns 0 it calls `execvpe` on the first word and, if `execvpe` comes back,
returns an error (of kind `InvalidValue`) that carries `errno`, and otherwise does not
return.  Consequently `ChildCallback` never returns success. -/
theorem ChildExec_never_returns_success (w : World) (env : TTaskEnv) (lastCap : Int)
    (tr : Trace) :
    let tr1 := tr ++ [Call.clearenv] ++ env.Environ.map Call.putenv
    let ret := w.sys tr1 (Call.wordexp env.Command)
    let tr2 := tr1 ++ [Call.wordexp env.Command]
    let we_wordv := w.wordv tr1 env.Command
    let exec := Call.execvpe we_wordv.head? we_wordv env.Environ
    succeeded (ChildExec w env tr) = false
      ∧ (if ret ≠ 0 then
          (∃ error, ChildExec w env tr = (some error, tr2) ∧ error.kind = EError.Unknown)
            ∧ (tr2.drop tr.length).all (fun c => !isExec c) = true
        else
          (ChildExec w env tr).2 = tr2 ++ [exec]
            ∧ (if w.execReturns tr2 exec = true then
                ∃ error, (ChildExec w env tr).1 = some error ∧ error.isError = true
                  ∧ error.errno = w.errno (tr2 ++ [exec])
              else (ChildExec w env tr).1 = none))
      ∧ succeeded (ChildCallback w env lastCap tr) = false := by
  intro tr1 ret tr2 we_wordv exec
  refine ⟨ChildExec_not_succeeded w env tr, ?_, ChildCallback_not_succeeded w env lastCap tr⟩
  have h := ChildExec_cases w env tr
  simp only [] at h
  by_cases h0 : ret ≠ 0
  · rw [if_pos h0] at h
    rw [if_pos h0]
    obtain ⟨error, heq, hkind, _⟩ := h
    refine ⟨⟨error, heq, hkind⟩, ?_⟩
    simp [tr2, tr1, isExec]
  · rw [if_neg h0] at h
    rw [if_neg h0]
    by_cases hr : w.execReturns tr2 exec = true
    · rw [if_pos hr] at h
      rw [if_pos hr]
      obtain ⟨error, heq, hkind, herrno⟩ := h
      exact ⟨by rw [heq], error, by rw [heq], by simp [TError.isError, hkind], herrno⟩
    · rw [if_neg hr] at h
      rw [if_neg hr]
      exact ⟨by rw [h], by rw [h]⟩

/-! ## The steps of `ChildCallback` -/

/-- C8 fails on the code for the remount step: with `NewMountNs` set and `RemountSlave`
failing, `ChildRemountSlave` returns an error, yet `ChildCallback` drops it, runs every later
step and ends in `execvpe`, which replaces the process image. -/
theorem ChildCallback_ignores_remount_failure :
    remountEnv.NewMountNs = true
      ∧ failed (ChildRemountSlave remountFailWorld
          [Call.close Fd.WaitParentWfd, Call.readSync, Call.close Fd.Rfd,
           Call.ResetAllSignalHandlers, Call.setsid, Call.umask 0]) = true
      ∧ ChildCallback remountFailWorld remountEnv 36 [] =
          (none,
           [Call.close Fd.WaitParentWfd, Call.readSync, Call.close Fd.Rfd,
            Call.ResetAllSignalHandlers, Call.setsid, Call.umask 0,
            Call.RemountSlave,
            Call.Chdir "/",
            Call.setgid 1000, Call.initgroups "user" 1000, Call.setuid 1000,
            Call.clearenv, Call.wordexp "/bin/true",
            Call.execvpe (some "/bin/true") ["/bin/true"] []]) := by
  decide

theorem Ext.all {P : Call → Prop} {tr : Trace} {r : Ret} (h : Ext P tr r)
    (htr : ∀ c ∈ tr, P c) : ∀ c ∈ r.2, P c := by
  obtain ⟨d, hd, hP⟩ := h
  intro c hc
  rw [hd] at hc
  rcases List.mem_append.mp hc with h | h
  · exact htr c h
  · exact hP c h

theorem isExec_eq_false_of_early (c : Call) (h : early c) : isExec c = false := by
  cases c <;> first | rfl | simp [early, isCredOrExec] at h

theorem any_isExec_eq_false (tr : Trace) (h : ∀ c ∈ tr, early c) :
    tr.any isExec = false := by
  rw [List.any_eq_false]
  intro c hc
  simp [isExec_eq_false_of_early c (h c hc)]

theorem peel_early {tr : Trace} {r : Ret} {k : Trace → Ret} (hr : Ext early tr r)
    (htr : ∀ c ∈ tr, early c) (hexec : (andThen r k).2.any isExec = true) :
    succeeded r = true ∧ ∀ c ∈ r.2, early c := by
  have hall := Ext.all hr htr
  refine ⟨?_, hall⟩
  by_contra hs
  have hs' : succeeded r = false := by simpa using hs
  rw [andThen_of_not_succeeded k hs', any_isExec_eq_false _ hall] at hexec
  exact Bool.false_ne_true hexec

theorem ChildCallback_eq_fromFs (w : World) (env : TTaskEnv) (lastCap : Int) (tr : Trace) :
    ChildCallback w env lastCap tr =
      andThen (readGo w tr) fun tr =>
      andThen (ChildApplyLimits w env (tr ++ [Call.close Fd.Rfd] ++ [Call.ResetAllSignalHandlers]))
        fun tr =>
      andThen (sysCall w Call.setsid "setsid()" tr) fun tr =>
      andThen (if env.Isolate then
                 remountProc w (if env.NewMountNs then (ChildRemountSlave w (tr ++ [Call.umask 0])).2
                                else tr ++ [Call.umask 0])
               else (some TError.Success,
                     if env.NewMountNs then (ChildRemountSlave w (tr ++ [Call.umask 0])).2
                     else tr ++ [Call.umask 0])) fun tr =>
      andThen (if env.Isolate then ChildPrepareLoop w env tr else (some TError.Success, tr))
        fun tr =>
      andThen (if !env.NetCfg.Share then EnableNet w env tr else (some TError.Success, tr))
        (childCallbackFromFs w env lastCap) := rfl

theorem ChildCallback_reaches_fs (w : World) (env : TTaskEnv) (lastCap : Int)
    (hexec : (ChildCallback w env lastCap []).2.any isExec = true) :
    ∃ pre : Trace, (∀ c ∈ pre, early c)
      ∧ ChildCallback w env lastCap [] = childCallbackFromFs w env lastCap pre := by
  rw [ChildCallback_eq_fromFs] at hexec ⊢
  obtain ⟨h1, e1⟩ := peel_early (readGo_ext w []) (by simp) hexec
  rw [andThen_of_succeeded _ h1] at hexec ⊢
  generalize (readGo w []).2 = t1 at hexec e1 ⊢
  have e1' : ∀ c ∈ t1 ++ [Call.close Fd.Rfd] ++ [Call.ResetAllSignalHandlers], early c :=
    Ext.all (r := (none, _)) (Ext.trans (early_step (Call.close Fd.Rfd) (by rfl) none t1)
      (early_step Call.ResetAllSignalHandlers (by rfl) none _)) e1
  obtain ⟨h2, e2⟩ := peel_early (ChildApplyLimits_ext w env _) e1' hexec
  rw [andThen_of_succeeded _ h2] at hexec ⊢
  generalize (ChildApplyLimits w env _).2 = t2 at hexec e2 ⊢
  obtain ⟨h3, e3⟩ := peel_early (early_sysCall w _ _ (by rfl) t2) e2 hexec
  rw [andThen_of_succeeded _ h3] at hexec ⊢
  generalize (sysCall w Call.setsid "setsid()" t2).2 = t3 at hexec e3 ⊢
  have e3' : ∀ c ∈ (if env.NewMountNs = true then (ChildRemountSlave w (t3 ++ [Call.umask 0])).2
      else t3 ++ [Call.umask 0]), early c := by
    split
    · exact Ext.all (r := (none, _)) (Ext.trans (early_step (Call.umask 0) (by rfl) none t3)
        (early_step Call.RemountSlave (by rfl) none _)) e3
    · exact Ext.all (r := (none, _)) (early_step (Call.umask 0) (by rfl) none t3) e3
  generalize (if env.NewMountNs = true then (ChildRemountSlave w (t3 ++ [Call.umask 0])).2
      else t3 ++ [Call.umask 0]) = t4 at hexec e3' ⊢
  have x4 : Ext early t4 (if env.Isolate = true then remountProc w t4
      else (some TError.Success, t4)) := by
    split
    · exact remountProc_ext w t4
    · exact Ext.refl _ _ _
  obtain ⟨h4, e4⟩ := peel_early x4 e3' hexec
  rw [andThen_of_succeeded _ h4] at hexec ⊢
  generalize (if env.Isolate = true then remountProc w t4 else (some TError.Success, t4)).2 = t5
    at hexec e4 ⊢
  have x5 : Ext early t5 (if env.Isolate = true then ChildPrepareLoop w env t5
      else (some TError.Success, t5)) := by
    split
    · exact ChildPrepareLoop_ext w env t5
    · exact Ext.refl _ _ _
  obtain ⟨h5, e5⟩ := peel_early x5 e4 hexec
  rw [andThen_of_succeeded _ h5] at hexec ⊢
  generalize (if env.Isolate = true then ChildPrepareLoop w env t5
    else (some TError.Success, t5)).2 = t6 at hexec e5 ⊢
  have x6 : Ext early t6 (if (!env.NetCfg.Share) = true then EnableNet w env t6
      else (some TError.Success, t6)) := by
    split
    · exact EnableNet_ext w env t6
    · exact Ext.refl _ _ _
  obtain ⟨h6, e6⟩ := peel_early x6 e5 hexec
  rw [andThen_of_succeeded _ h6]
  exact ⟨_, e6, rfl⟩

theorem enterFs_snd (w : World) (env : TTaskEnv) (pre : Trace)
    (hs : succeeded (if env.ParentNs.Valid then
             andThen (call w Call.ParentNsChroot pre) fun tr =>
             andThen (call w (Call.Chdir env.Cwd) tr) fun tr =>
             (some TError.Success, tr)
           else
             andThen (ChildIsolateFs w env pre) fun tr =>
             andThen (call w (Call.Chdir env.Cwd) tr) fun tr =>
             andThen (ChildSetHostname w env tr) fun tr =>
             (some TError.Success, tr)) = true) :
    ∃ fs host : Trace,
      (if env.ParentNs.Valid then
             andThen (call w Call.ParentNsChroot pre) fun tr =>
             andThen (call w (Call.Chdir env.Cwd) tr) fun tr =>
             (some TError.Success, tr)
           else
             andThen (ChildIsolateFs w env pre) fun tr =>
             andThen (call w (Call.Chdir env.Cwd) tr) fun tr =>
             andThen (ChildSetHostname w env tr) fun tr =>
             (some TError.Success, tr)).2 = pre ++ fs ++ [Call.Chdir env.Cwd] ++ host
      ∧ (if env.ParentNs.Valid = true then fs = [Call.ParentNsChroot] ∧ host = []
         else (ChildIsolateFs w env pre).2 = pre ++ fs
           ∧ (ChildSetHostname w env (pre ++ fs ++ [Call.Chdir env.Cwd])).2
               = pre ++ fs ++ [Call.Chdir env.Cwd] ++ host)
      ∧ (∀ c ∈ fs ++ [Call.Chdir env.Cwd] ++ host, early c) := by
  by_cases hv : env.ParentNs.Valid = true
  · simp only [hv, if_true] at hs ⊢
    have h1 := succeeded_of_andThen hs
    rw [andThen_of_succeeded _ h1] at hs ⊢
    have h2 := succeeded_of_andThen hs
    rw [andThen_of_succeeded _ h2]
    refine ⟨[Call.ParentNsChroot], [], ?_, ⟨rfl, rfl⟩, ?_⟩
    · simp [call]
    · intro c hc
      simp only [List.append_nil, List.cons_append, List.nil_append, List.mem_cons,
        List.mem_singleton, List.not_mem_nil, or_false] at hc
      rcases hc with h | h <;> subst h <;> rfl
  · simp only [hv, if_false, Bool.false_eq_true] at hs ⊢
    have h1 := succeeded_of_andThen hs
    rw [andThen_of_succeeded _ h1] at hs ⊢
    have h2 := succeeded_of_andThen hs
    rw [andThen_of_succeeded _ h2] at hs ⊢
    have h3 := succeeded_of_andThen hs
    rw [andThen_of_succeeded _ h3]
    obtain ⟨fs, hfs, efs⟩ := ChildIsolateFs_ext w env pre
    have hchdir : (call w (Call.Chdir env.Cwd) (ChildIsolateFs w env pre).2).2
        = pre ++ fs ++ [Call.Chdir env.Cwd] := by
      rw [call_snd, hfs]
    obtain ⟨host, hhost, ehost⟩ := ChildSetHostname_ext w env (pre ++ fs ++ [Call.Chdir env.Cwd])
    refine ⟨fs, host, ?_, ⟨hfs, hhost⟩, ?_⟩
    · rw [hchdir, hhost]
    · intro c hc
      simp only [List.mem_append, List.mem_singleton] at hc
      rcases hc with (h | h) | h
      · exact efs c h
      · subst h; rfl
      · exact ehost c h

theorem ChildDropPriveleges_snd (w : World) (env : TTaskEnv) (tr : Trace)
    (hs : succeeded (ChildDropPriveleges w env tr) = true) :
    (ChildDropPriveleges w env tr).2 = tr ++ dropPrivelegesCalls env := by
  unfold ChildDropPriveleges at hs ⊢
  have h1 := succeeded_of_andThen hs
  rw [andThen_of_succeeded _ h1] at hs ⊢
  have h2 := succeeded_of_andThen hs
  rw [andThen_of_succeeded _ h2] at hs ⊢
  have h3 := succeeded_of_andThen hs
  rw [andThen_of_succeeded _ h3]
  simp [sysCall_snd, dropPrivelegesCalls]

theorem ChildDropPriveleges_ext (w : World) (env : TTaskEnv) (tr : Trace) :
    Ext (fun c => isExec c = false) tr (ChildDropPriveleges w env tr) := by
  unfold ChildDropPriveleges
  refine Ext.andThen (Ext.sysCall w _ _ (by rfl) tr) (fun tr => ?_)
  refine Ext.andThen (Ext.sysCall w _ _ (by rfl) tr) (fun tr => ?_)
  exact Ext.andThen (Ext.sysCall w _ _ (by rfl) tr) (fun tr => Ext.refl _ _ _)

theorem enterFs_ext (w : World) (env : TTaskEnv) (pre : Trace) :
    Ext early pre (if env.ParentNs.Valid then
             andThen (call w Call.ParentNsChroot pre) fun tr =>
             andThen (call w (Call.Chdir env.Cwd) tr) fun tr =>
             (some TError.Success, tr)
           else
             andThen (ChildIsolateFs w env pre) fun tr =>
             andThen (call w (Call.Chdir env.Cwd) tr) fun tr =>
             andThen (ChildSetHostname w env tr) fun tr =>
             (some TError.Success, tr)) := by
  split
  · refine Ext.andThen (early_call w _ (by rfl) pre) (fun tr => ?_)
    exact Ext.andThen (early_call w _ (by rfl) tr) (fun tr => Ext.refl _ _ _)
  · refine Ext.andThen (ChildIsolateFs_ext w env pre) (fun tr => ?_)
    refine Ext.andThen (early_call w _ (by rfl) tr) (fun tr => ?_)
    exact Ext.andThen (ChildSetHostname_ext w env tr) (fun tr => Ext.refl _ _ _)

theorem any_isExec_append_eq_false (tr d : Trace) (htr : ∀ c ∈ tr, early c)
    (hd : ∀ c ∈ d, isExec c = false) : (tr ++ d).any isExec = false := by
  rw [List.any_append, any_isExec_eq_false tr htr, Bool.false_or, List.any_eq_false]
  intro c hc
  simp [hd c hc]

theorem ChildExec_snd_of_exec (w : World) (env : TTaskEnv) (tr : Trace)
    (htr : tr.any isExec = false) (hexec : (ChildExec w env tr).2.any isExec = true) :
    ∃ file argv,
      (ChildExec w env tr).2 =
        tr ++ ([Call.clearenv] ++ env.Environ.map Call.putenv
          ++ [Call.wordexp env.Command, Call.execvpe file argv env.Environ]) := by
  have hx := ChildExec_cases w env tr
  simp only [] at hx
  refine ⟨(w.wordv (tr ++ [Call.clearenv] ++ env.Environ.map Call.putenv) env.Command).head?,
    w.wordv (tr ++ [Call.clearenv] ++ env.Environ.map Call.putenv) env.Command, ?_⟩
  split at hx
  · obtain ⟨error, hce, -, -⟩ := hx
    rw [hce] at hexec
    simp [List.any_append, htr, isExec] at hexec
  · split at hx
    · obtain ⟨error, hce, -, -⟩ := hx
      rw [hce]
      simp
    · rw [hx]
      simp

/-- C9: in every run of `ChildCallback` that reaches `execvpe`, the calls are, in this order:
what came before (`pre`), the calls of `ChildIsolateFs` or the chroot into the parent
namespace (`fs`), the chdir to `Cwd`, the calls of `ChildSetHostname` (none on the parent
namespace branch), the calls of `ChildApplyCapabilities` (`caps`), then `setgid`,
`initgroups(user, gid)` and `setuid`, and last the calls of `ChildExec`, which end with
`execvpe`.  No credential or exec call occurs before `setgid`, and no bounding-set drop occurs
after `setuid`. -/
theorem ChildCallback_order (w : World) (env : TTaskEnv) (lastCap : Int)
    (hexec : (ChildCallback w env lastCap []).2.any isExec = true) :
    ∃ pre fs host caps exec : Trace,
      (ChildCallback w env lastCap []).2 =
          pre ++ fs ++ [Call.Chdir env.Cwd] ++ host ++ caps
            ++ [Call.setgid env.Cred.Gid, Call.initgroups env.User env.Cred.Gid,
                Call.setuid env.Cred.Uid]
            ++ exec
        ∧ (if env.ParentNs.Valid = true then fs = [Call.ParentNsChroot] ∧ host = []
           else (ChildIsolateFs w env pre).2 = pre ++ fs
             ∧ (ChildSetHostname w env (pre ++ fs ++ [Call.Chdir env.Cwd])).2
                 = pre ++ fs ++ [Call.Chdir env.Cwd] ++ host)
        ∧ (ChildApplyCapabilities w env lastCap (pre ++ fs ++ [Call.Chdir env.Cwd] ++ host)).2
            = pre ++ fs ++ [Call.Chdir env.Cwd] ++ host ++ caps
        ∧ (∃ file argv, exec = [Call.clearenv] ++ env.Environ.map Call.putenv
            ++ [Call.wordexp env.Command, Call.execvpe file argv env.Environ])
        ∧ (∀ c ∈ pre ++ fs ++ [Call.Chdir env.Cwd] ++ host ++ caps, isCredOrExec c = false)
        ∧ (∀ c ∈ exec, isDrop c = false) := by
  obtain ⟨pre, epre, heq⟩ := ChildCallback_reaches_fs w env lastCap hexec
  rw [heq] at hexec ⊢
  unfold childCallbackFromFs at hexec ⊢
  obtain ⟨hb, eb⟩ := peel_early (enterFs_ext w env pre) epre hexec
  rw [andThen_of_succeeded _ hb] at hexec ⊢
  obtain ⟨fs, host, hsnd, hshape, -⟩ := enterFs_snd w env pre hb
  rw [hsnd] at hexec eb ⊢
  obtain ⟨hc, ec⟩ := peel_early (ChildApplyCapabilities_ext w env lastCap _) eb hexec
  rw [andThen_of_succeeded _ hc] at hexec ⊢
  obtain ⟨caps, hcaps, -⟩ :=
    ChildApplyCapabilities_ext w env lastCap (pre ++ fs ++ [Call.Chdir env.Cwd] ++ host)
  rw [hcaps] at hexec ec ⊢
  have hd : succeeded (ChildDropPriveleges w env
      (pre ++ fs ++ [Call.Chdir env.Cwd] ++ host ++ caps)) = true := by
    by_contra hs
    have hs' : succeeded (ChildDropPriveleges w env
        (pre ++ fs ++ [Call.Chdir env.Cwd] ++ host ++ caps)) = false := by simpa using hs
    rw [andThen_of_not_succeeded _ hs'] at hexec
    obtain ⟨d, hd, hP⟩ := ChildDropPriveleges_ext w env
      (pre ++ fs ++ [Call.Chdir env.Cwd] ++ host ++ caps)
    rw [hd, any_isExec_append_eq_false _ _ ec hP] at hexec
    exact Bool.false_ne_true hexec
  rw [andThen_of_succeeded _ hd, ChildDropPriveleges_snd _ _ _ hd] at hexec ⊢
  have hpre : (pre ++ fs ++ [Call.Chdir env.Cwd] ++ host ++ caps
      ++ dropPrivelegesCalls env).any isExec = false :=
    any_isExec_append_eq_false _ _ ec (by
      intro c hc
      simp only [dropPrivelegesCalls, List.mem_cons, List.mem_singleton, List.not_mem_nil,
        or_false] at hc
      rcases hc with h | h | h <;> subst h <;> rfl)
  have htail := ChildExec_snd_of_exec w env _ hpre hexec
  obtain ⟨file, argv, hfinal⟩ := htail
  refine ⟨pre, fs, host, caps, _, hfinal, hshape, hcaps, ⟨file, argv, rfl⟩, ec, ?_⟩
  intro c hc
  simp only [List.mem_append, List.mem_cons, List.mem_singleton, List.not_mem_nil, or_false,
    List.mem_map] at hc
  rcases hc with (h | ⟨s, -, h⟩) | h | h <;> subst h <;> rfl

/-- Witness of C9: the sample task of root in `/tmp/rfs`, every call succeeding. -/
theorem ChildCallback_order_witness :
    ∃ pre fs host caps exec : Trace,
      (ChildCallback okWorld sampleEnv 36 []).2 =
          pre ++ fs ++ [Call.Chdir sampleEnv.Cwd] ++ host ++ caps
            ++ [Call.setgid sampleEnv.Cred.Gid,
                Call.initgroups sampleEnv.User sampleEnv.Cred.Gid,
                Call.setuid sampleEnv.Cred.Uid]
            ++ exec
        ∧ (if sampleEnv.ParentNs.Valid = true then fs = [Call.ParentNsChroot] ∧ host = []
           else (ChildIsolateFs okWorld sampleEnv pre).2 = pre ++ fs
             ∧ (ChildSetHostname okWorld sampleEnv (pre ++ fs ++ [Call.Chdir sampleEnv.Cwd])).2
                 = pre ++ fs ++ [Call.Chdir sampleEnv.Cwd] ++ host)
        ∧ (ChildApplyCapabilities okWorld sampleEnv 36
              (pre ++ fs ++ [Call.Chdir sampleEnv.Cwd] ++ host)).2
            = pre ++ fs ++ [Call.Chdir sampleEnv.Cwd] ++ host ++ caps
        ∧ (∃ file argv, exec = [Call.clearenv] ++ sampleEnv.Environ.map Call.putenv
            ++ [Call.wordexp sampleEnv.Command, Call.execvpe file argv sampleEnv.Environ])
        ∧ (∀ c ∈ pre ++ fs ++ [Call.Chdir sampleEnv.Cwd] ++ host ++ caps,
            isCredOrExec c = false)
        ∧ (∀ c ∈ exec, isDrop c = false) :=
  ChildCallback_order okWorld sampleEnv 36 (by decide)

/-! ## The intermediate process -/

theorem startIntermediate_eq_fromClone (Crc32 : String → Nat) (w : World) (cfg : Config)
    (env : TTaskEnv) (task : TTask) (tr : Trace) :
    startIntermediate Crc32 w cfg env task tr =
      orReportAbort (forEach (fun (cg : String × Option String) tr =>
          call w (attachCall cg) tr) task.LeafCgroups (tr ++ [Call.setsid])) fun tr =>
      orReportAbort (if env.ClientNs.Valid then
                       andThen (call w (Call.launch LaunchCall.ClientNsAttach) tr) fun tr =>
                       call w (Call.launch LaunchCall.ClientNsChroot) tr
                     else (some TError.Success, tr)) fun tr =>
      orReportAbort (ChildReopenStdio w env tr) fun tr =>
      orReportAbort (call w (Call.launch LaunchCall.ParentNsAttach) tr) fun tr =>
      orReportAbort (pipe2Sync w tr) (intermediateFromClone Crc32 w cfg env) := rfl

theorem forEach_call_snd {α : Type} (w : World) (f : α → Call) (xs : List α) (tr : Trace)
    (h : succeeded (forEach (fun x tr => call w (f x) tr) xs tr) = true) :
    (forEach (fun x tr => call w (f x) tr) xs tr).2 = tr ++ xs.map f := by
  induction xs generalizing tr with
  | nil => simp [forEach]
  | cons x xs ih =>
    simp only [forEach] at h ⊢
    have hx := succeeded_of_andThen h
    rw [andThen_of_succeeded _ hx] at h ⊢
    rw [ih _ h, call_snd]
    simp

theorem succeeded_or_failed (r : Ret) (hr : r.1 ≠ none) :
    succeeded r = true ∨ failed r = true := by
  obtain ⟨o, tr⟩ := r
  cases o with
  | none => exact absurd rfl hr
  | some e => cases he : e.isError <;> simp [succeeded, failed, he]

theorem orReportAbort_of_succeeded {r : Ret} (k : Trace → Trace) (h : succeeded r = true) :
    orReportAbort r k = k r.2 := by
  obtain ⟨o, tr⟩ := r
  cases o with
  | none => simp [succeeded] at h
  | some e =>
    have he : e.isError = false := by simpa [succeeded] using h
    simp [orReportAbort, he]

theorem orReportAbort_of_failed {r : Ret} (k : Trace → Trace) (h : failed r = true) :
    ∃ e, e.isError = true ∧ r.1 = some e ∧
      orReportAbort r k = r.2 ++ [Call.launch (LaunchCall.ReportPid (-1)),
        Call.launch (LaunchCall.Serialize e), Call.launch (LaunchCall.exit EXIT_FAILURE)] := by
  obtain ⟨o, tr⟩ := r
  cases o with
  | none => simp [failed] at h
  | some e =>
    have he : e.isError = true := by simpa [failed] using h
    exact ⟨e, he, rfl, by simp [orReportAbort, he, Abort, ReportPid]⟩

theorem orAbort_of_succeeded {r : Ret} (k : Trace → Trace) (h : succeeded r = true) :
    orAbort r k = k r.2 := by
  obtain ⟨o, tr⟩ := r
  cases o with
  | none => simp [succeeded] at h
  | some e =>
    have he : e.isError = false := by simpa [succeeded] using h
    simp [orAbort, he]

theorem orAbort_of_failed {r : Ret} (k : Trace → Trace) (h : failed r = true) :
    ∃ e, e.isError = true ∧ r.1 = some e ∧
      orAbort r k = r.2 ++ [Call.launch (LaunchCall.Serialize e),
        Call.launch (LaunchCall.exit EXIT_FAILURE)] := by
  obtain ⟨o, tr⟩ := r
  cases o with
  | none => simp [failed] at h
  | some e =>
    have he : e.isError = true := by simpa [failed] using h
    exact ⟨e, he, rfl, by simp [orAbort, he, Abort]⟩

theorem call_fst_ne_none (w : World) (c : Call) (tr : Trace) : (call w c tr).1 ≠ none := by
  simp [call]

theorem sysCall_fst_ne_none (w : World) (c : Call) (msg : String) (tr : Trace) :
    (sysCall w c msg tr).1 ≠ none := by
  unfold sysCall
  split <;> simp

theorem andThen_fst_ne_none {r : Ret} {k : Trace → Ret} (hr : r.1 ≠ none)
    (hk : ∀ tr, (k tr).1 ≠ none) : (andThen r k).1 ≠ none := by
  rcases succeeded_or_failed r hr with h | h
  · rw [andThen_of_succeeded k h]
    exact hk _
  · have hs : succeeded r = false := by
      obtain ⟨o, tr⟩ := r
      cases o with
      | none => rfl
      | some e =>
        have he : e.isError = true := by simpa [failed] using h
        simp [succeeded, he]
    rw [andThen_of_not_succeeded k hs]
    exact hr

theorem forEach_fst_ne_none {α : Type} {body : α → Trace → Ret}
    (hbody : ∀ x tr, (body x tr).1 ≠ none) (xs : List α) (tr : Trace) :
    (forEach body xs tr).1 ≠ none := by
  induction xs generalizing tr with
  | nil => simp [forEach]
  | cons x xs ih => exact andThen_fst_ne_none (hbody x tr) ih

theorem quiet_step (c : Call) (hc : quiet c) (o : Option TError) (tr : Trace) :
    Ext quiet tr (o, tr ++ [c]) :=
  Ext.step c hc o tr

theorem quiet_call (w : World) (c : Call) (hc : quiet c) (tr : Trace) :
    Ext quiet tr (call w c tr) :=
  Ext.call w c hc tr

theorem quiet_sysCall (w : World) (c : Call) (msg : String) (hc : quiet c) (tr : Trace) :
    Ext quiet tr (sysCall w c msg tr) :=
  Ext.sysCall w c msg hc tr

theorem calm_step (c : Call) (hc : calm c) (o : Option TError) (tr : Trace) :
    Ext calm tr (o, tr ++ [c]) :=
  Ext.step c hc o tr

theorem calm_call (w : World) (c : Call) (hc : calm c) (tr : Trace) :
    Ext calm tr (call w c tr) :=
  Ext.call w c hc tr

theorem calm_sysCall (w : World) (c : Call) (msg : String) (hc : calm c) (tr : Trace) :
    Ext calm tr (sysCall w c msg tr) :=
  Ext.sysCall w c msg hc tr

theorem quiet_of_calm (c : Call) (h : calm c) : quiet c := h.1

theorem ChildOpenStdFile_calm (w : World) (env : TTaskEnv) (path : String) (expected : Int)
    (tr : Trace) :
    Ext calm tr (ChildOpenStdFile w env path expected tr)
      ∧ (ChildOpenStdFile w env path expected tr).1 ≠ none := by
  unfold ChildOpenStdFile
  simp only []
  split
  · exact ⟨calm_step _ (by exact ⟨⟨rfl, rfl, rfl, rfl⟩, rfl⟩) _ tr, by simp⟩
  · split
    · exact ⟨calm_step _ (by exact ⟨⟨rfl, rfl, rfl, rfl⟩, rfl⟩) _ tr, by simp⟩
    · refine ⟨Ext.trans (calm_step (Call.launch (LaunchCall.openFile path
          (O_CREAT ||| O_WRONLY ||| O_APPEND) 0o660)) ⟨⟨rfl, rfl, rfl, rfl⟩, rfl⟩ none tr) ?_, ?_⟩
      · exact Ext.andThen (calm_sysCall w _ _ (by exact ⟨⟨rfl, rfl, rfl, rfl⟩, rfl⟩) _)
          (fun tr => Ext.refl _ _ _)
      · exact andThen_fst_ne_none (sysCall_fst_ne_none w _ _ _) (fun tr => by simp)

theorem ChildReopenStdio_calm (w : World) (env : TTaskEnv) (tr : Trace) :
    Ext calm tr (ChildReopenStdio w env tr) ∧ (ChildReopenStdio w env tr).1 ≠ none := by
  unfold ChildReopenStdio
  simp only []
  have h2 : Ext calm tr (none, tr ++ [Call.launch (LaunchCall.CloseFds 3)]
      ++ [Call.launch (LaunchCall.openFile env.StdinPath (O_CREAT ||| O_RDONLY) 0o660)]) :=
    Ext.trans (calm_step (Call.launch (LaunchCall.CloseFds 3)) ⟨⟨rfl, rfl, rfl, rfl⟩, rfl⟩ none tr)
      (calm_step (Call.launch (LaunchCall.openFile env.StdinPath (O_CREAT ||| O_RDONLY) 0o660))
        ⟨⟨rfl, rfl, rfl, rfl⟩, rfl⟩ none _)
  split
  · exact ⟨Ext.trans h2 (Ext.refl _ _ _), by simp⟩
  · split
    · exact ⟨Ext.trans h2 (Ext.refl _ _ _), by simp⟩
    · refine ⟨Ext.trans h2 ?_, ?_⟩
      · refine Ext.andThen (ChildOpenStdFile_calm w env _ _ _).1 (fun tr => ?_)
        exact Ext.andThen (ChildOpenStdFile_calm w env _ _ _).1 (fun tr => Ext.refl _ _ _)
      · refine andThen_fst_ne_none (ChildOpenStdFile_calm w env _ _ _).2 (fun tr => ?_)
        exact andThen_fst_ne_none (ChildOpenStdFile_calm w env _ _ _).2 (fun tr => by simp)

theorem pipe2Sync_calm (w : World) (tr : Trace) :
    Ext calm tr (pipe2Sync w tr) ∧ (pipe2Sync w tr).1 ≠ none := by
  unfold pipe2Sync
  simp only []
  split
  · exact ⟨calm_step _ (by exact ⟨⟨rfl, rfl, rfl, rfl⟩, rfl⟩) _ tr, by simp⟩
  · exact ⟨calm_step _ (by exact ⟨⟨rfl, rfl, rfl, rfl⟩, rfl⟩) _ tr, by simp⟩

theorem clientNs_calm (w : World) (env : TTaskEnv) (tr : Trace) :
    Ext calm tr (if env.ClientNs.Valid then
        andThen (call w (Call.launch LaunchCall.ClientNsAttach) tr) fun tr =>
        call w (Call.launch LaunchCall.ClientNsChroot) tr
      else (some TError.Success, tr))
    ∧ (if env.ClientNs.Valid then
        andThen (call w (Call.launch LaunchCall.ClientNsAttach) tr) fun tr =>
        call w (Call.launch LaunchCall.ClientNsChroot) tr
      else (some TError.Success, tr)).1 ≠ none := by
  split
  · exact ⟨Ext.andThen (calm_call w _ (by exact ⟨⟨rfl, rfl, rfl, rfl⟩, rfl⟩) tr)
        (fun tr => calm_call w _ (by exact ⟨⟨rfl, rfl, rfl, rfl⟩, rfl⟩) tr),
      andThen_fst_ne_none (call_fst_ne_none w _ _) (fun tr => call_fst_ne_none w _ _)⟩
  · exact ⟨Ext.refl _ _ _, by simp⟩

theorem attach_quiet (w : World) (cgs : List (String × Option String)) (tr : Trace) :
    Ext quiet tr (forEach (fun (cg : String × Option String) tr =>
        call w (attachCall cg) tr) cgs tr)
    ∧ (forEach (fun (cg : String × Option String) tr =>
        call w (attachCall cg) tr) cgs tr).1 ≠ none :=
  ⟨Ext.forEach (fun cg tr => quiet_call w _ (by exact ⟨rfl, rfl, rfl, rfl⟩) tr) cgs tr,
   forEach_fst_ne_none (fun cg tr => call_fst_ne_none w _ _) cgs tr⟩

theorem foreign_step (c : Call) (hc : isLaunch c = false) (o : Option TError) (tr : Trace) :
    Ext foreign tr (o, tr ++ [c]) :=
  Ext.step c hc o tr

theorem foreign_call (w : World) (c : Call) (hc : isLaunch c = false) (tr : Trace) :
    Ext foreign tr (call w c tr) :=
  Ext.call w c hc tr

theorem isolateIpVlan_foreign (w : World) (childPid : Int) (ipvlan : TIpVlanNetCfg)
    (tr : Trace) :
    Ext foreign tr (isolateIpVlan w childPid ipvlan tr)
      ∧ (isolateIpVlan w childPid ipvlan tr).1 ≠ none := by
  unfold isolateIpVlan
  simp only []
  constructor
  · refine Ext.trans (foreign_step (Call.LinkRemove ("piv" ++ toString (w.tid tr))) rfl none tr) ?_
    refine Ext.andThen (foreign_call w _ (by rfl) _) (fun tr' => ?_)
    split
    · exact Ext.trans (foreign_step (Call.LinkChangeNs ("piv" ++ toString (w.tid tr))
        ipvlan.Name childPid) rfl none tr') (foreign_step _ (by rfl) _ _)
    · exact foreign_step _ (by rfl) _ _
  · refine andThen_fst_ne_none (call_fst_ne_none w _ _) (fun tr' => ?_)
    split <;> simp

theorem isolateMacVlan_foreign (Crc32 : String → Nat) (w : World) (env : TTaskEnv)
    (childPid : Int) (mvlan : TMacVlanNetCfg) (tr : Trace) :
    Ext foreign tr (isolateMacVlan Crc32 w env childPid mvlan tr)
      ∧ (isolateMacVlan Crc32 w env childPid mvlan tr).1 ≠ none := by
  unfold isolateMacVlan
  simp only []
  constructor
  · refine Ext.trans (foreign_step (Call.LinkRemove ("pmv" ++ toString (w.tid tr))) rfl none tr) ?_
    refine Ext.andThen (foreign_call w _ (by rfl) _) (fun tr' => ?_)
    split
    · exact Ext.trans (foreign_step (Call.LinkChangeNs ("pmv" ++ toString (w.tid tr))
        mvlan.Name childPid) rfl none tr') (foreign_step _ (by rfl) _ _)
    · exact foreign_step _ (by rfl) _ _
  · refine andThen_fst_ne_none (call_fst_ne_none w _ _) (fun tr' => ?_)
    split <;> simp

theorem isolateVeth_foreign (Crc32 : String → Nat) (w : World) (env : TTaskEnv)
    (childPid : Int) (veth : TVethNetCfg) (tr : Trace) :
    Ext foreign tr (isolateVeth Crc32 w env childPid veth tr)
      ∧ (isolateVeth Crc32 w env childPid veth tr).1 ≠ none := by
  unfold isolateVeth
  exact ⟨Ext.andThen (foreign_call w _ (by rfl) tr) (fun tr => foreign_call w _ (by rfl) tr),
    andThen_fst_ne_none (call_fst_ne_none w _ _) (fun tr => call_fst_ne_none w _ _)⟩

theorem IsolateNet_foreign (Crc32 : String → Nat) (w : World) (env : TTaskEnv)
    (childPid : Int) (tr : Trace) :
    Ext foreign tr (IsolateNet Crc32 w env childPid tr)
      ∧ (IsolateNet Crc32 w env childPid tr).1 ≠ none := by
  unfold IsolateNet
  constructor
  · refine Ext.andThen (foreign_call w _ (by rfl) tr) (fun tr => ?_)
    refine Ext.andThen (Ext.forEach (fun host tr => foreign_call w _ (by rfl) tr) _ tr)
      (fun tr => ?_)
    refine Ext.andThen (Ext.forEach (fun x tr => (isolateIpVlan_foreign w _ x tr).1) _ tr)
      (fun tr => ?_)
    refine Ext.andThen
      (Ext.forEach (fun x tr => (isolateMacVlan_foreign Crc32 w env _ x tr).1) _ tr)
      (fun tr => ?_)
    exact Ext.andThen
      (Ext.forEach (fun x tr => (isolateVeth_foreign Crc32 w env _ x tr).1) _ tr)
      (fun tr => Ext.refl _ _ _)
  · refine andThen_fst_ne_none (call_fst_ne_none w _ _) (fun tr => ?_)
    refine andThen_fst_ne_none
      (forEach_fst_ne_none (fun host tr => call_fst_ne_none w _ _) _ tr) (fun tr => ?_)
    refine andThen_fst_ne_none
      (forEach_fst_ne_none (fun x tr => (isolateIpVlan_foreign w _ x tr).2) _ tr) (fun tr => ?_)
    refine andThen_fst_ne_none
      (forEach_fst_ne_none (fun x tr => (isolateMacVlan_foreign Crc32 w env _ x tr).2) _ tr)
      (fun tr => ?_)
    exact andThen_fst_ne_none
      (forEach_fst_ne_none (fun x tr => (isolateVeth_foreign Crc32 w env _ x tr).2) _ tr)
      (fun tr => by simp)

theorem isolateNetStep_foreign (Crc32 : String → Nat) (w : World) (cfg : Config)
    (env : TTaskEnv) (clonePid : Int) (tr : Trace) :
    Ext foreign tr (isolateNetStep Crc32 w cfg env clonePid tr)
      ∧ (isolateNetStep Crc32 w cfg env clonePid tr).1 ≠ none := by
  unfold isolateNetStep
  split
  · exact IsolateNet_foreign Crc32 w env clonePid tr
  · exact ⟨Ext.refl _ _ _, by simp⟩

theorem intermediateFromClone_cases (Crc32 : String → Nat) (w : World) (cfg : Config)
    (env : TTaskEnv) (tr : Trace) :
    (clonePidAt w env tr < 0 ∧ ∃ e, e.isError = true ∧
        intermediateFromClone Crc32 w cfg env tr =
          reportedTrace w env tr ++ [Call.launch (LaunchCall.Serialize e),
            Call.launch (LaunchCall.exit EXIT_FAILURE)])
    ∨ (0 ≤ clonePidAt w env tr
        ∧ failed (isolateNetStep Crc32 w cfg env (clonePidAt w env tr)
            (reportedTrace w env tr)) = true
        ∧ ∃ e, e.isError = true ∧
          intermediateFromClone Crc32 w cfg env tr =
            (isolateNetStep Crc32 w cfg env (clonePidAt w env tr) (reportedTrace w env tr)).2
              ++ [Call.launch (LaunchCall.Serialize e),
                  Call.launch (LaunchCall.exit EXIT_FAILURE)])
    ∨ (0 ≤ clonePidAt w env tr
        ∧ succeeded (isolateNetStep Crc32 w cfg env (clonePidAt w env tr)
            (reportedTrace w env tr)) = true
        ∧ ∃ tail,
          intermediateFromClone Crc32 w cfg env tr =
            (isolateNetStep Crc32 w cfg env (clonePidAt w env tr) (reportedTrace w env tr)).2
              ++ [Call.launch LaunchCall.writeGo] ++ tail
          ∧ (tail = [Call.launch (LaunchCall.exit EXIT_SUCCESS)]
             ∨ ∃ e, tail = [Call.launch (LaunchCall.Serialize e),
                 Call.launch (LaunchCall.exit EXIT_FAILURE)])) := by
  have hdef : intermediateFromClone Crc32 w cfg env tr =
      if clonePidAt w env tr < 0 then
        Abort { kind := if w.errno (reportedTrace w env tr) = ENOMEM
                  then EError.ResourceNotAvailable else EError.Unknown,
                errno := w.errno (reportedTrace w env tr), msg := "clone()" }
          (reportedTrace w env tr)
      else
        orAbort (isolateNetStep Crc32 w cfg env (clonePidAt w env tr) (reportedTrace w env tr))
          fun tr =>
          if w.sys tr (Call.launch LaunchCall.writeGo) ≠ 4 then
            Abort { kind := EError.Unknown, errno := 0,
                    msg := "Partial write to child sync pipe ("
                      ++ toString (w.sys tr (Call.launch LaunchCall.writeGo)) ++ " != "
                      ++ toString (0 : Int) ++ ")" } (tr ++ [Call.launch LaunchCall.writeGo])
          else
            tr ++ [Call.launch LaunchCall.writeGo]
              ++ [Call.launch (LaunchCall.exit EXIT_SUCCESS)] := by
    simp [intermediateFromClone, clonePidAt, reportedTrace, isolateNetStep, ReportPid]
  rw [hdef]
  by_cases hp : clonePidAt w env tr < 0
  · left
    rw [if_pos hp]
    refine ⟨hp, _, ?_, rfl⟩
    split <;> rfl
  · right
    rw [if_neg hp]
    have hp' : 0 ≤ clonePidAt w env tr := not_lt.mp hp
    rcases succeeded_or_failed _ (isolateNetStep_foreign Crc32 w cfg env
      (clonePidAt w env tr) (reportedTrace w env tr)).2 with hs | hf
    · right
      rw [orAbort_of_succeeded _ hs]
      refine ⟨hp', hs, ?_⟩
      split
      · exact ⟨_, rfl, Or.inr ⟨_, rfl⟩⟩
      · exact ⟨_, rfl, Or.inl rfl⟩
    · left
      obtain ⟨e, he, -, heq⟩ := orAbort_of_failed _ hf
      exact ⟨hp', hf, e, he, heq⟩

theorem quiet_of_foreign (c : Call) (h : foreign c) : isReport c = false := by
  cases c <;> first | rfl | simp [foreign, isLaunch] at h

theorem reportsOnce_stage {w : World} {env : TTaskEnv} {tr0 b : Trace} {r : Ret}
    {k : Trace → Trace} (hb : ∀ c ∈ b, quiet c) (hr : Ext quiet (tr0 ++ b) r)
    (hne : r.1 ≠ none)
    (hk : ∀ b', (∀ c ∈ b', quiet c) → ReportsOnce w env tr0 (k (tr0 ++ b'))) :
    ReportsOnce w env tr0 (orReportAbort r k) := by
  obtain ⟨d, hd, hq⟩ := hr
  have hbd : ∀ c ∈ b ++ d, quiet c := by
    intro c hc
    rcases List.mem_append.mp hc with h | h
    · exact hb c h
    · exact hq c h
  rcases succeeded_or_failed r hne with hs | hf
  · rw [orReportAbort_of_succeeded k hs, hd, List.append_assoc]
    exact hk _ hbd
  · obtain ⟨e, he, -, heq⟩ := orReportAbort_of_failed k hf
    left
    refine ⟨b ++ d, e, ?_, he, fun c hc => ⟨(hbd c hc).1, (hbd c hc).2.1, (hbd c hc).2.2.1⟩⟩
    rw [heq, hd]
    simp only [List.append_assoc]

theorem reportsOnce_fromClone (Crc32 : String → Nat) (w : World) (cfg : Config)
    (env : TTaskEnv) (tr0 b : Trace) (hb : ∀ c ∈ b, quiet c) :
    ReportsOnce w env tr0 (intermediateFromClone Crc32 w cfg env (tr0 ++ b)) := by
  right
  have hq : ∀ c ∈ b, isReport c = false ∧ isSerialize c = false ∧ isClone c = false :=
    fun c hc => ⟨(hb c hc).1, (hb c hc).2.1, (hb c hc).2.2.1⟩
  obtain ⟨d, hd, hforeign⟩ := (isolateNetStep_foreign Crc32 w cfg env
    (clonePidAt w env (tr0 ++ b)) (reportedTrace w env (tr0 ++ b))).1
  have hnet : ∀ c ∈ d, isReport c = false := fun c hc => quiet_of_foreign c (hforeign c hc)
  rcases intermediateFromClone_cases Crc32 w cfg env (tr0 ++ b) with
    ⟨hp, e, he, heq⟩ | ⟨hp, -, e, he, heq⟩ | ⟨hp, -, tail, heq, htail⟩
  · refine ⟨b, [Call.launch (LaunchCall.Serialize e),
        Call.launch (LaunchCall.exit EXIT_FAILURE)], ?_, hq, ?_, fun _ => ⟨e, he, rfl⟩⟩
    · rw [heq]
      simp [reportedTrace, clonePidAt]
    · intro c hc
      simp only [List.mem_cons, List.mem_singleton, List.not_mem_nil, or_false] at hc
      rcases hc with h | h <;> subst h <;> rfl
  · refine ⟨b, d ++ [Call.launch (LaunchCall.Serialize e),
        Call.launch (LaunchCall.exit EXIT_FAILURE)], ?_, hq, ?_, ?_⟩
    · rw [heq, hd]
      simp [reportedTrace, clonePidAt]
    · intro c hc
      simp only [List.mem_append, List.mem_cons, List.mem_singleton, List.not_mem_nil,
        or_false] at hc
      rcases hc with h | h | h
      · exact hnet c h
      · subst h; rfl
      · subst h; rfl
    · intro hneg
      exact absurd hneg (not_lt.mpr hp)
  · refine ⟨b, d ++ [Call.launch LaunchCall.writeGo] ++ tail, ?_, hq, ?_, ?_⟩
    · rw [heq, hd]
      simp [reportedTrace, clonePidAt]
    · intro c hc
      simp only [List.mem_append, List.mem_singleton] at hc
      rcases hc with (h | h) | h
      · exact hnet c h
      · subst h; rfl
      · rcases htail with ht | ⟨e, ht⟩
        · subst ht
          simp only [List.mem_singleton] at h
          subst h; rfl
        · subst ht
          simp only [List.mem_cons, List.mem_singleton, List.not_mem_nil, or_false] at h
          rcases h with h | h <;> subst h <;> rfl
    · intro hneg
      exact absurd hneg (not_lt.mpr hp)

theorem startIntermediate_reportsOnce (Crc32 : String → Nat) (w : World) (cfg : Config)
    (env : TTaskEnv) (task : TTask) (tr0 : Trace) :
    ReportsOnce w env tr0 (startIntermediate Crc32 w cfg env task tr0) := by
  rw [startIntermediate_eq_fromClone]
  have h0 : ∀ c ∈ [Call.setsid], quiet c := by
    intro c hc
    simp only [List.mem_singleton] at hc
    subst hc
    exact ⟨rfl, rfl, rfl, rfl⟩
  refine reportsOnce_stage h0 (attach_quiet w _ _).1 (attach_quiet w _ _).2 (fun b1 hb1 => ?_)
  refine reportsOnce_stage hb1 (Ext.mono quiet_of_calm (clientNs_calm w env _).1)
    (clientNs_calm w env _).2 (fun b2 hb2 => ?_)
  refine reportsOnce_stage hb2 (Ext.mono quiet_of_calm (ChildReopenStdio_calm w env _).1)
    (ChildReopenStdio_calm w env _).2 (fun b3 hb3 => ?_)
  refine reportsOnce_stage hb3
    (quiet_call w (Call.launch LaunchCall.ParentNsAttach) ⟨rfl, rfl, rfl, rfl⟩ _)
    (call_fst_ne_none w _ _)
    (fun b4 hb4 => ?_)
  refine reportsOnce_stage hb4 (Ext.mono quiet_of_calm (pipe2Sync_calm w _).1)
    (pipe2Sync_calm w _).2 (fun b5 hb5 => ?_)
  exact reportsOnce_fromClone Crc32 w cfg env tr0 b5 hb5

theorem countP_isReport_eq_zero (l : Trace) (h : ∀ c ∈ l, isReport c = false) :
    l.countP isReport = 0 := by
  rw [List.countP_eq_zero]
  intro c hc
  simp [h c hc]

theorem forEach_call_each_ok {α : Type} (w : World) (f : α → Call) (xs : List α) (tr : Trace)
    (h : succeeded (forEach (fun x tr => call w (f x) tr) xs tr) = true)
    (pre : List α) (x : α) (post : List α) (hx : xs = pre ++ x :: post) :
    (w.terr (tr ++ pre.map f) (f x)).isError = false := by
  subst hx
  rw [forEach_append] at h
  have hpre := succeeded_of_andThen h
  rw [andThen_of_succeeded _ hpre, forEach_call_snd w f pre tr hpre] at h
  simp only [forEach] at h
  have hcall := succeeded_of_andThen h
  simpa [succeeded, call] using hcall

theorem any_isGo_eq_false (l : Trace) (h : ∀ c ∈ l, isGo c = false) : l.any isGo = false := by
  rw [List.any_eq_false]
  intro c hc
  simp [h c hc]

theorem go_stage {P : Call → Prop} (hP : ∀ c, P c → isGo c = false) {tr0 b : Trace} {r : Ret}
    {k : Trace → Trace} (hb : ∀ c ∈ b, isGo c = false) (hr : Ext P (tr0 ++ b) r)
    (hne : r.1 ≠ none)
    (hgo : ((orReportAbort r k).drop tr0.length).any isGo = true) :
    succeeded r = true ∧ ∃ d, r.2 = tr0 ++ (b ++ d) ∧ ∀ c ∈ d, P c := by
  obtain ⟨d, hd, hq⟩ := hr
  refine ⟨?_, d, by rw [hd, List.append_assoc], hq⟩
  rcases succeeded_or_failed r hne with hs | hf
  · exact hs
  · exfalso
    obtain ⟨e, -, -, heq⟩ := orReportAbort_of_failed k hf
    rw [heq, hd] at hgo
    simp only [List.append_assoc, List.drop_left] at hgo
    rw [any_isGo_eq_false] at hgo
    · exact Bool.false_ne_true hgo
    · intro c hc
      simp only [List.mem_append, List.mem_cons, List.mem_singleton, List.not_mem_nil,
        or_false] at hc
      rcases hc with h | h | h | h | h
      · exact hb c h
      · exact hP c (hq c h)
      · subst h; rfl
      · subst h; rfl
      · subst h; rfl

theorem isGo_eq_false_of_calm (c : Call) (h : calm c) : isGo c = false := h.1.2.2.2

theorem isGo_eq_false_of_quiet (c : Call) (h : quiet c) : isGo c = false := h.2.2.2

theorem isGo_eq_false_of_foreign (c : Call) (h : foreign c) : isGo c = false := by
  cases c <;> first | rfl | simp [foreign, isLaunch] at h

theorem isAttach_eq_false_of_foreign (c : Call) (h : foreign c) : isAttach c = false := by
  cases c <;> first | rfl | simp [foreign, isLaunch] at h

theorem startIntermediate_of_go (Crc32 : String → Nat) (w : World) (cfg : Config)
    (env : TTaskEnv) (task : TTask) (tr0 : Trace)
    (hgo : ((startIntermediate Crc32 w cfg env task tr0).drop tr0.length).any isGo = true) :
    ∃ mid net tail,
      startIntermediate Crc32 w cfg env task tr0 =
          reportedTrace w env (tr0 ++ ([Call.setsid] ++ task.LeafCgroups.map attachCall ++ mid))
            ++ net ++ [Call.launch LaunchCall.writeGo] ++ tail
      ∧ succeeded (forEach (fun (cg : String × Option String) tr =>
          call w (attachCall cg) tr) task.LeafCgroups (tr0 ++ [Call.setsid])) = true
      ∧ (∀ c ∈ mid, calm c)
      ∧ 0 ≤ clonePidAt w env
          (tr0 ++ ([Call.setsid] ++ task.LeafCgroups.map attachCall ++ mid))
      ∧ succeeded (isolateNetStep Crc32 w cfg env
          (clonePidAt w env (tr0 ++ ([Call.setsid] ++ task.LeafCgroups.map attachCall ++ mid)))
          (reportedTrace w env
            (tr0 ++ ([Call.setsid] ++ task.LeafCgroups.map attachCall ++ mid)))) = true
      ∧ (isolateNetStep Crc32 w cfg env
          (clonePidAt w env (tr0 ++ ([Call.setsid] ++ task.LeafCgroups.map attachCall ++ mid)))
          (reportedTrace w env
            (tr0 ++ ([Call.setsid] ++ task.LeafCgroups.map attachCall ++ mid)))).2 =
          reportedTrace w env (tr0 ++ ([Call.setsid] ++ task.LeafCgroups.map attachCall ++ mid))
            ++ net
      ∧ (∀ c ∈ net, foreign c)
      ∧ (tail = [Call.launch (LaunchCall.exit EXIT_SUCCESS)]
         ∨ ∃ e, tail = [Call.launch (LaunchCall.Serialize e),
             Call.launch (LaunchCall.exit EXIT_FAILURE)]) := by
  rw [startIntermediate_eq_fromClone] at hgo ⊢
  have h0 : ∀ c ∈ [Call.setsid], isGo c = false := by
    intro c hc
    simp only [List.mem_singleton] at hc
    subst hc
    rfl
  obtain ⟨hs1, -, -, -⟩ := go_stage isGo_eq_false_of_quiet h0 (attach_quiet w _ _).1
    (attach_quiet w _ _).2 hgo
  have hsnd1 := forEach_call_snd w attachCall task.LeafCgroups _ hs1
  rw [orReportAbort_of_succeeded _ hs1, hsnd1, List.append_assoc] at hgo ⊢
  have hb1 : ∀ c ∈ [Call.setsid] ++ task.LeafCgroups.map attachCall, isGo c = false := by
    intro c hc
    simp only [List.mem_append, List.mem_singleton, List.mem_map] at hc
    rcases hc with h | ⟨cg, -, h⟩ <;> subst h <;> rfl
  obtain ⟨hs2, d2, hd2, hq2⟩ := go_stage isGo_eq_false_of_calm hb1 (clientNs_calm w env _).1
    (clientNs_calm w env _).2 hgo
  rw [orReportAbort_of_succeeded _ hs2, hd2] at hgo ⊢
  have hb2 : ∀ c ∈ [Call.setsid] ++ task.LeafCgroups.map attachCall ++ d2, isGo c = false := by
    intro c hc
    rcases List.mem_append.mp hc with h | h
    · exact hb1 c h
    · exact isGo_eq_false_of_calm c (hq2 c h)
  obtain ⟨hs3, d3, hd3, hq3⟩ := go_stage isGo_eq_false_of_calm hb2
    (ChildReopenStdio_calm w env _).1 (ChildReopenStdio_calm w env _).2 hgo
  rw [orReportAbort_of_succeeded _ hs3, hd3] at hgo ⊢
  have hb3 : ∀ c ∈ [Call.setsid] ++ task.LeafCgroups.map attachCall ++ d2 ++ d3,
      isGo c = false := by
    intro c hc
    rcases List.mem_append.mp hc with h | h
    · exact hb2 c h
    · exact isGo_eq_false_of_calm c (hq3 c h)
  obtain ⟨hs4, d4, hd4, hq4⟩ := go_stage isGo_eq_false_of_calm hb3
    (calm_call w (Call.launch LaunchCall.ParentNsAttach) ⟨⟨rfl, rfl, rfl, rfl⟩, rfl⟩ _)
    (call_fst_ne_none w _ _) hgo
  rw [orReportAbort_of_succeeded _ hs4, hd4] at hgo ⊢
  have hb4 : ∀ c ∈ [Call.setsid] ++ task.LeafCgroups.map attachCall ++ d2 ++ d3 ++ d4,
      isGo c = false := by
    intro c hc
    rcases List.mem_append.mp hc with h | h
    · exact hb3 c h
    · exact isGo_eq_false_of_calm c (hq4 c h)
  obtain ⟨hs5, d5, hd5, hq5⟩ := go_stage isGo_eq_false_of_calm hb4
    (pipe2Sync_calm w _).1 (pipe2Sync_calm w _).2 hgo
  rw [orReportAbort_of_succeeded _ hs5, hd5] at hgo ⊢
  have hb5 : ∀ c ∈ [Call.setsid] ++ task.LeafCgroups.map attachCall ++ d2 ++ d3 ++ d4 ++ d5,
      isGo c = false := by
    intro c hc
    rcases List.mem_append.mp hc with h | h
    · exact hb4 c h
    · exact isGo_eq_false_of_calm c (hq5 c h)
  have hmid : ∀ c ∈ d2 ++ d3 ++ d4 ++ d5, calm c := by
    intro c hc
    simp only [List.mem_append] at hc
    rcases hc with ((h | h) | h) | h
    · exact hq2 c h
    · exact hq3 c h
    · exact hq4 c h
    · exact hq5 c h
  have hB : [Call.setsid] ++ task.LeafCgroups.map attachCall ++ d2 ++ d3 ++ d4 ++ d5
      = [Call.setsid] ++ task.LeafCgroups.map attachCall ++ (d2 ++ d3 ++ d4 ++ d5) := by
    simp only [List.append_assoc]
  rw [hB] at hgo hb5 ⊢
  generalize d2 ++ d3 ++ d4 ++ d5 = mid at hgo hb5 hmid ⊢
  obtain ⟨d, hd, hforeign⟩ := (isolateNetStep_foreign Crc32 w cfg env
    (clonePidAt w env (tr0 ++ ([Call.setsid] ++ task.LeafCgroups.map attachCall ++ mid)))
    (reportedTrace w env
      (tr0 ++ ([Call.setsid] ++ task.LeafCgroups.map attachCall ++ mid)))).1
  have hrep : ∀ p, ∀ c ∈ [Call.launch (LaunchCall.clone (cloneFlags env)),
      Call.close Fd.WaitParentRfd, Call.launch (LaunchCall.ReportPid p)],
      isGo c = false := by
    intro p c hc
    simp only [List.mem_cons, List.mem_singleton, List.not_mem_nil, or_false] at hc
    rcases hc with h | h | h <;> subst h <;> rfl
  have habort : ∀ e, ∀ c ∈ [Call.launch (LaunchCall.Serialize e),
      Call.launch (LaunchCall.exit EXIT_FAILURE)], isGo c = false := by
    intro e c hc
    simp only [List.mem_cons, List.mem_singleton, List.not_mem_nil, or_false] at hc
    rcases hc with h | h <;> subst h <;> rfl
  rcases intermediateFromClone_cases Crc32 w cfg env
      (tr0 ++ ([Call.setsid] ++ task.LeafCgroups.map attachCall ++ mid)) with
    ⟨-, e, -, heq⟩ | ⟨-, -, e, -, heq⟩ | ⟨hp, hs, tail, heq, htail⟩
  · exfalso
    rw [heq, reportedTrace] at hgo
    simp only [List.append_assoc, List.drop_left] at hgo
    rw [any_isGo_eq_false] at hgo
    · exact Bool.false_ne_true hgo
    · intro c hc
      simp only [List.mem_append] at hc
      rcases hc with h | h | h | h
      · exact hb5 c (List.mem_append.mpr (Or.inl (List.mem_append.mpr (Or.inl h))))
      · exact hb5 c (List.mem_append.mpr (Or.inl (List.mem_append.mpr (Or.inr h))))
      · exact hb5 c (List.mem_append.mpr (Or.inr h))
      · rcases h with h | h
        · exact hrep _ c h
        · exact habort e c h
  · exfalso
    rw [heq, hd, reportedTrace] at hgo
    simp only [List.append_assoc, List.drop_left] at hgo
    rw [any_isGo_eq_false] at hgo
    · exact Bool.false_ne_true hgo
    · intro c hc
      simp only [List.mem_append] at hc
      rcases hc with h | h | h | h
      · exact hb5 c (List.mem_append.mpr (Or.inl (List.mem_append.mpr (Or.inl h))))
      · exact hb5 c (List.mem_append.mpr (Or.inl (List.mem_append.mpr (Or.inr h))))
      · exact hb5 c (List.mem_append.mpr (Or.inr h))
      · rcases h with h | h | h
        · exact hrep _ c h
        · exact isGo_eq_false_of_foreign c (hforeign c h)
        · exact habort e c h
  · refine ⟨mid, d, tail, ?_, hs1, hmid, hp, hs, hd, hforeign, htail⟩
    rw [heq, hd]

theorem isClone_eq_false_of_foreign (c : Call) (h : foreign c) : isClone c = false := by
  cases c <;> first | rfl | simp [foreign, isLaunch] at h

theorem Ext.toTrue {P : Call → Prop} {tr : Trace} {r : Ret} (h : Ext P tr r) :
    Ext (fun _ => True) tr r :=
  Ext.mono (fun _ _ => trivial) h

theorem Ext.ofPrefix {tr : Trace} {r : Ret} (h : tr <+: r.2) : Ext (fun _ => True) tr r := by
  obtain ⟨d, hd⟩ := h
  exact ⟨d, hd.symm, fun _ _ => trivial⟩

theorem ChildExec_extTrue (w : World) (env : TTaskEnv) (tr : Trace) :
    Ext (fun _ => True) tr (ChildExec w env tr) := by
  have h := ChildExec_cases w env tr
  simp only [] at h
  apply Ext.ofPrefix
  split at h
  · obtain ⟨error, heq, -, -⟩ := h
    rw [heq]
    simp only [List.append_assoc]
    exact List.prefix_append _ _
  · split at h
    · obtain ⟨error, heq, -, -⟩ := h
      rw [heq]
      simp only [List.append_assoc]
      exact List.prefix_append _ _
    · rw [h]
      simp only [List.append_assoc]
      exact List.prefix_append _ _

theorem childCallbackFromFs_extTrue (w : World) (env : TTaskEnv) (lastCap : Int) (tr : Trace) :
    Ext (fun _ => True) tr (childCallbackFromFs w env lastCap tr) := by
  unfold childCallbackFromFs
  refine Ext.andThen (enterFs_ext w env tr).toTrue (fun tr => ?_)
  refine Ext.andThen (ChildApplyCapabilities_ext w env lastCap tr).toTrue (fun tr => ?_)
  exact Ext.andThen (ChildDropPriveleges_ext w env tr).toTrue (ChildExec_extTrue w env)

theorem readGo_cases (w : World) (tr : Trace) :
    (readGo w tr).2 = tr ++ [Call.close Fd.WaitParentWfd, Call.readSync]
      ∧ (readGo w tr).1 ≠ none
      ∧ (w.sys (tr ++ [Call.close Fd.WaitParentWfd]) Call.readSync ≠ 4 →
          succeeded (readGo w tr) = false) := by
  unfold readGo
  simp only []
  split
  · exact ⟨by simp, by simp, fun _ => by simp [succeeded, TError.isError]⟩
  · rename_i h
    exact ⟨by simp, by simp, fun hne => absurd hne h⟩

theorem ChildCallback_after_go (w : World) (env : TTaskEnv) (lastCap : Int) (tr : Trace) :
    ∃ rest, (ChildCallback w env lastCap tr).2 =
        tr ++ [Call.close Fd.WaitParentWfd, Call.readSync] ++ rest
      ∧ (w.sys (tr ++ [Call.close Fd.WaitParentWfd]) Call.readSync ≠ 4 → rest = []) := by
  obtain ⟨hsnd, hne, hfail⟩ := readGo_cases w tr
  rw [ChildCallback_eq_fromFs]
  by_cases hs : succeeded (readGo w tr) = true
  · rw [andThen_of_succeeded _ hs, hsnd]
    have hext : Ext (fun _ => True) (tr ++ [Call.close Fd.WaitParentWfd, Call.readSync])
        (andThen (ChildApplyLimits w env (tr ++ [Call.close Fd.WaitParentWfd, Call.readSync]
            ++ [Call.close Fd.Rfd] ++ [Call.ResetAllSignalHandlers])) fun tr =>
          andThen (sysCall w Call.setsid "setsid()" tr) fun tr =>
          andThen (if env.Isolate then
                     remountProc w (if env.NewMountNs then
                         (ChildRemountSlave w (tr ++ [Call.umask 0])).2
                       else tr ++ [Call.umask 0])
                   else (some TError.Success,
                         if env.NewMountNs then (ChildRemountSlave w (tr ++ [Call.umask 0])).2
                         else tr ++ [Call.umask 0])) fun tr =>
          andThen (if env.Isolate then ChildPrepareLoop w env tr
                   else (some TError.Success, tr)) fun tr =>
          andThen (if !env.NetCfg.Share then EnableNet w env tr
                   else (some TError.Success, tr))
            (childCallbackFromFs w env lastCap)) := by
      refine Ext.trans (r := (none, _)) (Ext.trans (r := (none, _))
        (Ext.step (Call.close Fd.Rfd) trivial none _)
        (Ext.step Call.ResetAllSignalHandlers trivial none _)) ?_
      refine Ext.andThen (ChildApplyLimits_ext w env _).toTrue (fun tr => ?_)
      refine Ext.andThen (early_sysCall w _ _ (by rfl) tr).toTrue (fun tr => ?_)
      have hslave : Ext (fun _ => True) tr (none,
          if env.NewMountNs = true then (ChildRemountSlave w (tr ++ [Call.umask 0])).2
          else tr ++ [Call.umask 0]) := by
        split
        · exact Ext.trans (r := (none, _)) (Ext.step (Call.umask 0) trivial none tr)
            (Ext.step Call.RemountSlave trivial none _)
        · exact Ext.step (Call.umask 0) trivial none tr
      refine Ext.andThen ?_ (fun tr => ?_)
      · split
        · exact Ext.trans hslave (remountProc_ext w _).toTrue
        · exact Ext.trans hslave (Ext.refl _ _ _)
      refine Ext.andThen ?_ (fun tr => ?_)
      · split
        · exact (ChildPrepareLoop_ext w env tr).toTrue
        · exact Ext.refl _ _ _
      refine Ext.andThen ?_ (childCallbackFromFs_extTrue w env lastCap)
      split
      · exact (EnableNet_ext w env tr).toTrue
      · exact Ext.refl _ _ _
    obtain ⟨rest, hrest, -⟩ := hext
    refine ⟨rest, hrest, fun hne4 => ?_⟩
    rw [hfail hne4] at hs
    exact absurd hs Bool.false_ne_true
  · have hs' : succeeded (readGo w tr) = false := by simpa using hs
    rw [andThen_of_not_succeeded _ hs', hsnd]
    exact ⟨[], by simp, fun _ => rfl⟩

/-- C18: on every path of the intermediate process that writes the go on the inner pipe,
every leaf-cgroup attach was made and succeeded before the clone was called, no attach and no
second clone follows, and, when networking is enabled in the configuration, `IsolateNet` for
the pid returned by the clone returned success between the report of that pid and the write of
the go.  The grandchild makes no call but the close of its copy of the write end before it
reads the go, and makes none after a read that did not return the four bytes. -/
theorem intermediate_go_after_attach_and_net (Crc32 : String → Nat) (w : World) (cfg : Config)
    (env : TTaskEnv) (task : TTask) (tr0 : Trace) (wg : World) (lastCap : Int) (trg : Trace)
    (hgo : ((startIntermediate Crc32 w cfg env task tr0).drop tr0.length).any isGo = true) :
    (∃ mid net tail,
      startIntermediate Crc32 w cfg env task tr0 =
          tr0 ++ [Call.setsid] ++ task.LeafCgroups.map attachCall ++ mid
            ++ [Call.launch (LaunchCall.clone (cloneFlags env)), Call.close Fd.WaitParentRfd,
                Call.launch (LaunchCall.ReportPid
                  (w.sys (tr0 ++ [Call.setsid] ++ task.LeafCgroups.map attachCall ++ mid)
                    (Call.launch (LaunchCall.clone (cloneFlags env)))))]
            ++ net ++ [Call.launch LaunchCall.writeGo] ++ tail
      ∧ (∀ pre cg post, task.LeafCgroups = pre ++ cg :: post →
          (w.terr (tr0 ++ [Call.setsid] ++ pre.map attachCall) (attachCall cg)).isError = false)
      ∧ (∀ c ∈ mid, isAttach c = false ∧ isClone c = false)
      ∧ (∀ c ∈ net, isLaunch c = false)
      ∧ (tail = [Call.launch (LaunchCall.exit EXIT_SUCCESS)]
         ∨ ∃ e, tail = [Call.launch (LaunchCall.Serialize e),
             Call.launch (LaunchCall.exit EXIT_FAILURE)])
      ∧ 0 ≤ w.sys (tr0 ++ [Call.setsid] ++ task.LeafCgroups.map attachCall ++ mid)
          (Call.launch (LaunchCall.clone (cloneFlags env)))
      ∧ (if cfg.networkEnabled = true then
          succeeded (IsolateNet Crc32 w env
            (w.sys (tr0 ++ [Call.setsid] ++ task.LeafCgroups.map attachCall ++ mid)
              (Call.launch (LaunchCall.clone (cloneFlags env))))
            (reportedTrace w env
              (tr0 ++ [Call.setsid] ++ task.LeafCgroups.map attachCall ++ mid))) = true
          ∧ (IsolateNet Crc32 w env
            (w.sys (tr0 ++ [Call.setsid] ++ task.LeafCgroups.map attachCall ++ mid)
              (Call.launch (LaunchCall.clone (cloneFlags env))))
            (reportedTrace w env
              (tr0 ++ [Call.setsid] ++ task.LeafCgroups.map attachCall ++ mid))).2
            = reportedTrace w env
                (tr0 ++ [Call.setsid] ++ task.LeafCgroups.map attachCall ++ mid) ++ net
        else net = []))
    ∧ (∃ rest, (ChildCallback wg env lastCap trg).2 =
          trg ++ [Call.close Fd.WaitParentWfd, Call.readSync] ++ rest
        ∧ (wg.sys (trg ++ [Call.close Fd.WaitParentWfd]) Call.readSync ≠ 4 → rest = [])) := by
  refine ⟨?_, ChildCallback_after_go wg env lastCap trg⟩
  obtain ⟨mid, net, tail, heq, hattach, hmid, hp, hs, hnet, hforeign, htail⟩ :=
    startIntermediate_of_go Crc32 w cfg env task tr0 hgo
  have hassoc : tr0 ++ ([Call.setsid] ++ task.LeafCgroups.map attachCall ++ mid)
      = tr0 ++ [Call.setsid] ++ task.LeafCgroups.map attachCall ++ mid := by
    simp only [List.append_assoc]
  rw [hassoc] at heq hp hs hnet
  refine ⟨mid, net, tail, ?_, ?_, fun c hc => ⟨(hmid c hc).2, (hmid c hc).1.2.2.1⟩,
    hforeign, htail, hp, ?_⟩
  · rw [heq]
    simp only [reportedTrace, clonePidAt, List.append_assoc]
  · intro pre cg post hsplit
    have := forEach_call_each_ok w attachCall task.LeafCgroups _ hattach pre cg post hsplit
    simpa only [List.append_assoc] using this
  · unfold isolateNetStep at hs hnet
    by_cases hen : cfg.networkEnabled = true
    · rw [if_pos hen] at hs hnet ⊢
      exact ⟨hs, hnet⟩
    · rw [if_neg hen] at hnet ⊢
      simpa using hnet

/-- Witness of C18: the sample task with two leaf cgroups in a world where every call
succeeds and the write of the go is complete. -/
theorem intermediate_go_after_attach_and_net_witness :
    (∃ mid net tail,
      startIntermediate (fun _ => 0) launchWorld sampleConfig sampleEnv sampleTask [] =
          [] ++ [Call.setsid] ++ sampleTask.LeafCgroups.map attachCall ++ mid
            ++ [Call.launch (LaunchCall.clone (cloneFlags sampleEnv)),
                Call.close Fd.WaitParentRfd,
                Call.launch (LaunchCall.ReportPid
                  (launchWorld.sys
                    ([] ++ [Call.setsid] ++ sampleTask.LeafCgroups.map attachCall ++ mid)
                    (Call.launch (LaunchCall.clone (cloneFlags sampleEnv)))))]
            ++ net ++ [Call.launch LaunchCall.writeGo] ++ tail
      ∧ (∀ pre cg post, sampleTask.LeafCgroups = pre ++ cg :: post →
          (launchWorld.terr ([] ++ [Call.setsid] ++ pre.map attachCall)
            (attachCall cg)).isError = false)
      ∧ (∀ c ∈ mid, isAttach c = false ∧ isClone c = false)
      ∧ (∀ c ∈ net, isLaunch c = false)
      ∧ (tail = [Call.launch (LaunchCall.exit EXIT_SUCCESS)]
         ∨ ∃ e, tail = [Call.launch (LaunchCall.Serialize e),
             Call.launch (LaunchCall.exit EXIT_FAILURE)])
      ∧ 0 ≤ launchWorld.sys
          ([] ++ [Call.setsid] ++ sampleTask.LeafCgroups.map attachCall ++ mid)
          (Call.launch (LaunchCall.clone (cloneFlags sampleEnv)))
      ∧ (if sampleConfig.networkEnabled = true then
          succeeded (IsolateNet (fun _ => 0) launchWorld sampleEnv
            (launchWorld.sys
              ([] ++ [Call.setsid] ++ sampleTask.LeafCgroups.map attachCall ++ mid)
              (Call.launch (LaunchCall.clone (cloneFlags sampleEnv))))
            (reportedTrace launchWorld sampleEnv
              ([] ++ [Call.setsid] ++ sampleTask.LeafCgroups.map attachCall ++ mid))) = true
          ∧ (IsolateNet (fun _ => 0) launchWorld sampleEnv
            (launchWorld.sys
              ([] ++ [Call.setsid] ++ sampleTask.LeafCgroups.map attachCall ++ mid)
              (Call.launch (LaunchCall.clone (cloneFlags sampleEnv))))
            (reportedTrace launchWorld sampleEnv
              ([] ++ [Call.setsid] ++ sampleTask.LeafCgroups.map attachCall ++ mid))).2
            = reportedTrace launchWorld sampleEnv
                ([] ++ [Call.setsid] ++ sampleTask.LeafCgroups.map attachCall ++ mid) ++ net
        else net = []))
    ∧ (∃ rest, (ChildCallback launchWorld sampleEnv 36 []).2 =
          [] ++ [Call.close Fd.WaitParentWfd, Call.readSync] ++ rest
        ∧ (launchWorld.sys ([] ++ [Call.close Fd.WaitParentWfd]) Call.readSync ≠ 4 →
            rest = [])) :=
  intermediate_go_after_attach_and_net (fun _ => 0) launchWorld sampleConfig sampleEnv
    sampleTask [] launchWorld 36 [] (by decide)

/-! ## The daemon's side of `Start` -/

theorem CreateCwd_props (w : World) (cfg : Config) (env : TTaskEnv) (task : TTask)
    (tr : Trace) :
    Ext (fun c => isKill c = false) tr (CreateCwd w cfg env task tr).1
      ∧ (CreateCwd w cfg env task tr).1.1 ≠ none
      ∧ (CreateCwd w cfg env task tr).2.State = task.State
      ∧ (CreateCwd w cfg env task tr).2.Pid = task.Pid := by
  unfold CreateCwd
  simp only []
  split
  · refine ⟨?_, ?_, rfl, rfl⟩
    · exact Ext.andThen (Ext.call w _ (by rfl) tr)
        (fun tr => Ext.andThen (Ext.call w _ (by rfl) tr) (fun tr => Ext.refl _ _ _))
    · exact andThen_fst_ne_none (call_fst_ne_none w _ _)
        (fun tr => andThen_fst_ne_none (call_fst_ne_none w _ _) (fun tr => by simp))
  · exact ⟨Ext.refl _ _ _, by simp, rfl, rfl⟩

theorem Start_eq_startParent (Crc32 : String → Nat) (dw : DaemonWorld) (cfg : Config)
    (env : TTaskEnv) (task : TTask) (tr : Trace)
    (h : reachesParent dw cfg env task tr = true) :
    Start Crc32 dw cfg env task tr =
      startParent dw (forkedTask dw cfg env task tr) (forkPidOf dw cfg env task tr)
        (forkedTrace dw cfg env task tr) := by
  simp only [reachesParent, Bool.and_eq_true, beq_iff_eq, decide_eq_true_eq] at h
  obtain ⟨⟨hcwd, hpipe⟩, hfork⟩ := h
  have hfork' : ¬ forkPidOf dw cfg env task tr < 0 := by omega
  have hfork0 : ¬ forkPidOf dw cfg env task tr = 0 := by omega
  unfold forkPidOf at hfork' hfork0
  unfold Start
  by_cases hc : env.CreateCwd = true
  · simp only [hc, if_true, Bool.not_eq_true'] at hcwd
    simp only [hc, if_true, hcwd, Bool.false_eq_true, if_false]
    simp only [pipeTrace, hc, if_true] at hpipe hfork' hfork0
    simp only [startAfterCwd, hpipe, ne_eq, not_true_eq_false, if_false, hfork', hfork0,
      forkedTask, forkPidOf, forkedTrace, pipeTrace, hc, if_true, List.append_assoc,
      List.singleton_append]
  · simp only [hc, if_false, Bool.false_eq_true]
    simp only [pipeTrace, hc, if_false, Bool.false_eq_true] at hpipe hfork' hfork0
    simp only [startAfterCwd, hpipe, ne_eq, not_true_eq_false, if_false, hfork', hfork0,
      forkedTask, forkPidOf, forkedTrace, pipeTrace, hc, if_false, Bool.false_eq_true,
      List.append_assoc, List.singleton_append]

theorem startParent_cases (dw : DaemonWorld) (task : TTask) (forkPid : Int) (tr : Trace) :
    if bytesRead dw forkPid tr ≤ 0 then
      startParent dw task forkPid tr =
        (some { kind := EError.InvalidValue,
                errno := dw.errno (readTrace dw forkPid tr
                  ++ [Call.launch LaunchCall.readPid, Call.close Fd.Rfd]),
                msg := "Container couldn't start due to resource limits" },
         task,
         readTrace dw forkPid tr ++ [Call.launch LaunchCall.readPid, Call.close Fd.Rfd])
    else if (errorRead dw forkPid tr).isError = true ∨ statusAt dw forkPid tr ≠ 0 then
      startParent dw task forkPid tr =
        (some (if (errorRead dw forkPid tr).isError = true then errorRead dw forkPid tr
               else { kind := EError.InvalidValue,
                      errno := dw.errno (closedTrace dw forkPid tr
                        ++ (if 0 < dw.pidRead (readTrace dw forkPid tr)
                            then [Call.launch (LaunchCall.kill
                              (dw.pidRead (readTrace dw forkPid tr)) SIGKILL)] else [])),
                      msg := "Container couldn't start due to resource limits (child terminated with "
                        ++ toString (statusAt dw forkPid tr) ++ ")" }),
         { task with Pid := 0, ExitStatus := -1 },
         closedTrace dw forkPid tr
           ++ (if 0 < dw.pidRead (readTrace dw forkPid tr)
               then [Call.launch (LaunchCall.kill (dw.pidRead (readTrace dw forkPid tr))
                 SIGKILL)] else []))
    else
      startParent dw task forkPid tr =
        (some TError.Success,
         { task with Pid := dw.pidRead (readTrace dw forkPid tr), State := ETaskState.Started },
         closedTrace dw forkPid tr) := by
  have hrt : readTrace dw forkPid tr =
      if dw.sys (tr ++ [Call.close Fd.Wfd]) (Call.launch (LaunchCall.waitpid forkPid)) < 0 then
        tr ++ [Call.close Fd.Wfd] ++ [Call.launch (LaunchCall.waitpid forkPid)]
          ++ [Call.launch (LaunchCall.kill forkPid SIGKILL)]
      else tr ++ [Call.close Fd.Wfd] ++ [Call.launch (LaunchCall.waitpid forkPid)] := by
    unfold readTrace forkResultAt
    split <;> simp
  have hdef : startParent dw task forkPid tr =
      if bytesRead dw forkPid tr ≤ 0 then
        (some { kind := EError.InvalidValue,
                errno := dw.errno (readTrace dw forkPid tr
                  ++ [Call.launch LaunchCall.readPid] ++ [Call.close Fd.Rfd]),
                msg := "Container couldn't start due to resource limits" },
         (if 0 < bytesRead dw forkPid tr then
            { task with Pid := dw.pidRead (readTrace dw forkPid tr) } else task),
         readTrace dw forkPid tr ++ [Call.launch LaunchCall.readPid] ++ [Call.close Fd.Rfd])
      else
        if ((errorRead dw forkPid tr).isError || statusAt dw forkPid tr != 0) = true then
          (some (if (!(errorRead dw forkPid tr).isError) = true then
                  { kind := EError.InvalidValue,
                    errno := dw.errno
                      (if 0 < (if 0 < bytesRead dw forkPid tr then
                            { task with Pid := dw.pidRead (readTrace dw forkPid tr) }
                          else task).Pid
                       then readTrace dw forkPid tr ++ [Call.launch LaunchCall.readPid]
                          ++ [Call.launch LaunchCall.Deserialize] ++ [Call.close Fd.Rfd]
                          ++ [Call.launch (LaunchCall.kill
                            (if 0 < bytesRead dw forkPid tr then
                              { task with Pid := dw.pidRead (readTrace dw forkPid tr) }
                             else task).Pid SIGKILL)]
                       else readTrace dw forkPid tr ++ [Call.launch LaunchCall.readPid]
                          ++ [Call.launch LaunchCall.Deserialize] ++ [Call.close Fd.Rfd]),
                    msg := "Container couldn't start due to resource limits (child terminated with "
                      ++ toString (statusAt dw forkPid tr) ++ ")" }
                else errorRead dw forkPid tr),
           { (if 0 < bytesRead dw forkPid tr then
                { task with Pid := dw.pidRead (readTrace dw forkPid tr) } else task) with
             Pid := 0, ExitStatus := -1 },
           if 0 < (if 0 < bytesRead dw forkPid tr then
                 { task with Pid := dw.pidRead (readTrace dw forkPid tr) } else task).Pid
           then readTrace dw forkPid tr ++ [Call.launch LaunchCall.readPid]
              ++ [Call.launch LaunchCall.Deserialize] ++ [Call.close Fd.Rfd]
              ++ [Call.launch (LaunchCall.kill
                (if 0 < bytesRead dw forkPid tr then
                  { task with Pid := dw.pidRead (readTrace dw forkPid tr) }
                 else task).Pid SIGKILL)]
           else readTrace dw forkPid tr ++ [Call.launch LaunchCall.readPid]
              ++ [Call.launch LaunchCall.Deserialize] ++ [Call.close Fd.Rfd])
        else
          (some TError.Success,
           { (if 0 < bytesRead dw forkPid tr then
                { task with Pid := dw.pidRead (readTrace dw forkPid tr) } else task) with
             State := ETaskState.Started },
           readTrace dw forkPid tr ++ [Call.launch LaunchCall.readPid]
             ++ [Call.launch LaunchCall.Deserialize] ++ [Call.close Fd.Rfd]) := by
    unfold startParent bytesRead errorRead statusAt forkResultAt
    rw [hrt]
  rw [hdef]
  by_cases hn : bytesRead dw forkPid tr ≤ 0
  · have hn' : ¬ 0 < bytesRead dw forkPid tr := not_lt.mpr hn
    simp only [hn, if_true, hn', if_false, List.append_assoc, List.singleton_append]
  · have hn' : 0 < bytesRead dw forkPid tr := not_le.mp hn
    simp only [hn, if_false, hn', if_true]
    by_cases he : (errorRead dw forkPid tr).isError = true
    · simp only [he, Bool.true_or, if_true, true_or, Bool.not_true, Bool.false_eq_true,
        if_false, closedTrace, List.append_assoc, List.singleton_append, List.cons_append,
        List.nil_append]
      split <;> simp
    · have he' : (errorRead dw forkPid tr).isError = false := by simpa using he
      by_cases hst : statusAt dw forkPid tr = 0
      · simp [he', hst, closedTrace]
      · simp only [he', Bool.false_or, bne_iff_ne, ne_eq, hst, not_false_eq_true, if_true,
          Bool.false_eq_true, false_or, Bool.not_false, closedTrace, List.append_assoc,
          List.singleton_append, List.cons_append, List.nil_append]
        split <;> simp

theorem startAfterCwd_cases (Crc32 : String → Nat) (dw : DaemonWorld) (cfg : Config)
    (env : TTaskEnv) (task : TTask) (tr : Trace) :
    (startSucceeded (startAfterCwd Crc32 dw cfg env task tr) = false
      ∧ (startAfterCwd Crc32 dw cfg env task tr).2.1.State = task.State
      ∧ ¬ (dw.sys tr (Call.launch LaunchCall.pipe2Pfd) = 0
          ∧ 0 < dw.sys (tr ++ [Call.launch LaunchCall.pipe2Pfd]) (Call.launch LaunchCall.fork)))
    ∨ (dw.sys tr (Call.launch LaunchCall.pipe2Pfd) = 0
      ∧ 0 < dw.sys (tr ++ [Call.launch LaunchCall.pipe2Pfd]) (Call.launch LaunchCall.fork)) := by
  by_cases hpipe : dw.sys tr (Call.launch LaunchCall.pipe2Pfd) = 0
  · by_cases hfork : 0 < dw.sys (tr ++ [Call.launch LaunchCall.pipe2Pfd])
        (Call.launch LaunchCall.fork)
    · exact Or.inr ⟨hpipe, hfork⟩
    · left
      refine ⟨?_, ?_, fun h => hfork h.2⟩
      · unfold startAfterCwd
        simp only [hpipe, ne_eq, not_true_eq_false, if_false]
        split
        · simp [startSucceeded, TError.isError]
        · split
          · simp [startSucceeded]
          · omega
      · unfold startAfterCwd
        simp only [hpipe, ne_eq, not_true_eq_false, if_false]
        split
        · rfl
        · split
          · rfl
          · omega
  · left
    refine ⟨?_, ?_, fun h => hpipe h.1⟩
    · unfold startAfterCwd
      simp [hpipe, startSucceeded, TError.isError]
    · unfold startAfterCwd
      simp [hpipe]

theorem Start_not_reaches (Crc32 : String → Nat) (dw : DaemonWorld) (cfg : Config)
    (env : TTaskEnv) (task : TTask) (tr : Trace)
    (h : reachesParent dw cfg env task tr = false) :
    startSucceeded (Start Crc32 dw cfg env task tr) = false
      ∧ (Start Crc32 dw cfg env task tr).2.1.State = task.State := by
  unfold Start
  by_cases hc : env.CreateCwd = true
  · simp only [hc, if_true]
    have hprops := CreateCwd_props dw.toWorld cfg env { task with Pid := 0 } tr
    by_cases hf : failed (CreateCwd dw.toWorld cfg env { task with Pid := 0 } tr).1 = true
    · simp only [hf, if_true]
      refine ⟨?_, hprops.2.2.1⟩
      generalize (CreateCwd dw.toWorld cfg env { task with Pid := 0 } tr).1 = r at hf
      obtain ⟨o, t⟩ := r
      cases o with
      | none => simp [failed] at hf
      | some e =>
        have he : e.isError = true := by simpa [failed] using hf
        simp [startSucceeded, he]
    · simp only [hf, if_false, Bool.false_eq_true]
      rcases startAfterCwd_cases Crc32 dw cfg env
          (CreateCwd dw.toWorld cfg env { task with Pid := 0 } tr).2
          (CreateCwd dw.toWorld cfg env { task with Pid := 0 } tr).1.2 with
        ⟨h1, h2, -⟩ | ⟨hpipe, hfork⟩
      · exact ⟨h1, by rw [h2]; exact hprops.2.2.1⟩
      · exfalso
        have : reachesParent dw cfg env task tr = true := by
          simp only [reachesParent, hc, if_true, Bool.and_eq_true, beq_iff_eq,
            decide_eq_true_eq, forkPidOf, pipeTrace]
          exact ⟨⟨by simpa using hf, hpipe⟩, hfork⟩
        rw [h] at this
        exact Bool.false_ne_true this
  · simp only [hc, if_false, Bool.false_eq_true]
    rcases startAfterCwd_cases Crc32 dw cfg env { task with Pid := 0 } tr with
      ⟨h1, h2, -⟩ | ⟨hpipe, hfork⟩
    · exact ⟨h1, h2⟩
    · exfalso
      have : reachesParent dw cfg env task tr = true := by
        simp only [reachesParent, hc, if_false, Bool.false_eq_true, Bool.and_eq_true,
          beq_iff_eq, decide_eq_true_eq, forkPidOf, pipeTrace]
        exact ⟨⟨trivial, hpipe⟩, hfork⟩
      rw [h] at this
      exact Bool.false_ne_true this

theorem forkedTask_props (dw : DaemonWorld) (cfg : Config) (env : TTaskEnv) (task : TTask)
    (tr : Trace) :
    (forkedTask dw cfg env task tr).State = task.State
      ∧ (forkedTask dw cfg env task tr).Pid = 0 := by
  unfold forkedTask
  split
  · exact ⟨(CreateCwd_props dw.toWorld cfg env { task with Pid := 0 } tr).2.2.1,
      (CreateCwd_props dw.toWorld cfg env { task with Pid := 0 } tr).2.2.2⟩
  · exact ⟨rfl, rfl⟩

theorem forkedTrace_no_kill (dw : DaemonWorld) (cfg : Config) (env : TTaskEnv) (task : TTask)
    (tr : Trace) :
    ∃ d, forkedTrace dw cfg env task tr = tr ++ d ∧ ∀ c ∈ d, isKill c = false := by
  have hpipe : ∃ d, pipeTrace dw cfg env task tr = tr ++ d ∧ ∀ c ∈ d, isKill c = false := by
    unfold pipeTrace
    split
    · exact (CreateCwd_props dw.toWorld cfg env { task with Pid := 0 } tr).1
    · exact ⟨[], by simp, by simp⟩
  obtain ⟨d, hd, hk⟩ := hpipe
  refine ⟨d ++ [Call.launch LaunchCall.pipe2Pfd, Call.launch LaunchCall.fork], ?_, ?_⟩
  · rw [forkedTrace, hd, List.append_assoc]
  · intro c hc
    simp only [List.mem_append, List.mem_cons, List.mem_singleton, List.not_mem_nil,
      or_false] at hc
    rcases hc with h | h | h
    · exact hk c h
    · subst h; rfl
    · subst h; rfl

/-- C12: when `Start` has forked, has reaped the intermediate process, and its read of the pid
from the outer pipe returns no data, it returns the error `InvalidValue` with the message
"Container couldn't start due to resource limits"; after the fork it has only closed the write
end, waited, read and closed the read end, so no signal is sent during the whole call; `State`
is left as it was (so a task that was not `Started` is not `Started`) and `Pid` is 0. -/
theorem Start_empty_pid_read (Crc32 : String → Nat) (dw : DaemonWorld) (cfg : Config)
    (env : TTaskEnv) (task : TTask) (tr : Trace)
    (hreach : reachesParent dw cfg env task tr = true)
    (hreap : 0 ≤ forkResultAt dw (forkPidOf dw cfg env task tr)
      (forkedTrace dw cfg env task tr))
    (hread : bytesRead dw (forkPidOf dw cfg env task tr) (forkedTrace dw cfg env task tr) ≤ 0) :
    (∃ e, (Start Crc32 dw cfg env task tr).1 = some e ∧ e.isError = true
        ∧ e.kind = EError.InvalidValue
        ∧ e.msg = "Container couldn't start due to resource limits")
      ∧ (Start Crc32 dw cfg env task tr).2.2 =
          forkedTrace dw cfg env task tr
            ++ [Call.close Fd.Wfd,
                Call.launch (LaunchCall.waitpid (forkPidOf dw cfg env task tr)),
                Call.launch LaunchCall.readPid, Call.close Fd.Rfd]
      ∧ (∀ c ∈ (Start Crc32 dw cfg env task tr).2.2.drop tr.length, isKill c = false)
      ∧ (Start Crc32 dw cfg env task tr).2.1.State = task.State
      ∧ (task.State ≠ ETaskState.Started →
          (Start Crc32 dw cfg env task tr).2.1.State ≠ ETaskState.Started)
      ∧ (Start Crc32 dw cfg env task tr).2.1.Pid = 0 := by
  have hcases := startParent_cases dw (forkedTask dw cfg env task tr)
    (forkPidOf dw cfg env task tr) (forkedTrace dw cfg env task tr)
  rw [if_pos hread] at hcases
  have hrt : readTrace dw (forkPidOf dw cfg env task tr) (forkedTrace dw cfg env task tr) =
      forkedTrace dw cfg env task tr ++ [Call.close Fd.Wfd,
        Call.launch (LaunchCall.waitpid (forkPidOf dw cfg env task tr))] := by
    unfold readTrace
    rw [if_neg (not_lt.mpr hreap), List.append_nil]
  rw [hrt] at hcases
  have hstate := forkedTask_props dw cfg env task tr
  rw [Start_eq_startParent Crc32 dw cfg env task tr hreach, hcases]
  refine ⟨⟨_, rfl, rfl, rfl, rfl⟩, by simp, ?_, hstate.1, fun h => by rw [hstate.1]; exact h,
    hstate.2⟩
  obtain ⟨d, hd, hk⟩ := forkedTrace_no_kill dw cfg env task tr
  intro c hc
  rw [hd] at hc
  simp only [List.append_assoc, List.drop_left, List.mem_append, List.mem_cons,
    List.mem_singleton, List.not_mem_nil, or_false] at hc
  rcases hc with h | (h | h) | (h | h)
  · exact hk c h
  · subst h; rfl
  · subst h; rfl
  · subst h; rfl
  · subst h; rfl

/-- Witness of C12: the sample task launched in a world where the outer pipe is empty. -/
theorem Start_empty_pid_read_witness :
    (∃ e, (Start (fun _ => 0) emptyPipeWorld sampleConfig sampleEnv sampleTask []).1 = some e
        ∧ e.isError = true ∧ e.kind = EError.InvalidValue
        ∧ e.msg = "Container couldn't start due to resource limits")
      ∧ (Start (fun _ => 0) emptyPipeWorld sampleConfig sampleEnv sampleTask []).2.2 =
          forkedTrace emptyPipeWorld sampleConfig sampleEnv sampleTask []
            ++ [Call.close Fd.Wfd,
                Call.launch (LaunchCall.waitpid
                  (forkPidOf emptyPipeWorld sampleConfig sampleEnv sampleTask [])),
                Call.launch LaunchCall.readPid, Call.close Fd.Rfd]
      ∧ (∀ c ∈ (Start (fun _ => 0) emptyPipeWorld sampleConfig sampleEnv sampleTask []).2.2.drop
            ([] : Trace).length, isKill c = false)
      ∧ (Start (fun _ => 0) emptyPipeWorld sampleConfig sampleEnv sampleTask []).2.1.State
          = sampleTask.State
      ∧ (sampleTask.State ≠ ETaskState.Started →
          (Start (fun _ => 0) emptyPipeWorld sampleConfig sampleEnv sampleTask []).2.1.State
            ≠ ETaskState.Started)
      ∧ (Start (fun _ => 0) emptyPipeWorld sampleConfig sampleEnv sampleTask []).2.1.Pid = 0 :=
  Start_empty_pid_read (fun _ => 0) emptyPipeWorld sampleConfig sampleEnv sampleTask []
    (by decide) (by decide) (by decide)

/-- C13: when `Start` has read a pid from the outer pipe and then deserialises an error or
sees a non-zero wait status, it sends `SIGKILL` to that pid exactly when the pid is positive
(and makes no other call after closing the pipe), resets `Pid` to 0, leaves `State` as it was
and returns an error, which is the deserialised error whenever there is one.  When a pid was
read, no error was deserialised and the wait status is 0, it returns success with `State`
set to `Started`.  In every other run `Start` does not return success and does not touch
`State`. -/
theorem Start_after_pid_read (Crc32 : String → Nat) (dw : DaemonWorld) (cfg : Config)
    (env : TTaskEnv) (task : TTask) (tr : Trace) :
    let forkPid := forkPidOf dw cfg env task tr
    let forked := forkedTrace dw cfg env task tr
    let pid := dw.pidRead (readTrace dw forkPid forked)
    let r := Start Crc32 dw cfg env task tr
    if reachesParent dw cfg env task tr = true ∧ 0 < bytesRead dw forkPid forked then
      if (errorRead dw forkPid forked).isError = true ∨ statusAt dw forkPid forked ≠ 0 then
        r.2.2 = closedTrace dw forkPid forked
            ++ (if 0 < pid then [Call.launch (LaunchCall.kill pid SIGKILL)] else [])
          ∧ r.2.1.Pid = 0
          ∧ r.2.1.State = task.State
          ∧ ∃ e, r.1 = some e ∧ e.isError = true
              ∧ ((errorRead dw forkPid forked).isError = false
                  ∨ e = errorRead dw forkPid forked)
      else
        r.1 = some TError.Success
          ∧ r.2.1.State = ETaskState.Started
          ∧ r.2.1.Pid = pid
          ∧ r.2.2 = closedTrace dw forkPid forked
    else
      startSucceeded r = false ∧ r.2.1.State = task.State := by
  intro forkPid forked pid r
  have hstate := forkedTask_props dw cfg env task tr
  have hcases := startParent_cases dw (forkedTask dw cfg env task tr) forkPid forked
  by_cases hreach : reachesParent dw cfg env task tr = true
  · have hr : r = startParent dw (forkedTask dw cfg env task tr) forkPid forked :=
      Start_eq_startParent Crc32 dw cfg env task tr hreach
    by_cases hn : 0 < bytesRead dw forkPid forked
    · rw [if_pos ⟨hreach, hn⟩]
      rw [if_neg (not_le.mpr hn)] at hcases
      by_cases hbad : (errorRead dw forkPid forked).isError = true
          ∨ statusAt dw forkPid forked ≠ 0
      · rw [if_pos hbad] at hcases ⊢
        rw [hr, hcases]
        refine ⟨rfl, rfl, hstate.1, _, rfl, ?_, ?_⟩
        · by_cases he : (errorRead dw forkPid forked).isError = true
          · rw [if_pos he]
            exact he
          · rw [if_neg he]
            rfl
        · by_cases he : (errorRead dw forkPid forked).isError = true
          · rw [if_pos he]
            exact Or.inr rfl
          · exact Or.inl (by simpa using he)
      · rw [if_neg hbad] at hcases ⊢
        rw [hr, hcases]
        exact ⟨rfl, rfl, rfl, rfl⟩
    · rw [if_neg (fun h => hn h.2)]
      rw [if_pos (not_lt.mp hn)] at hcases
      rw [hr, hcases]
      exact ⟨by simp [startSucceeded, TError.isError], hstate.1⟩
  · rw [if_neg (fun h => hreach h.1)]
    exact Start_not_reaches Crc32 dw cfg env task tr (by simpa using hreach)

/-! ## The state machine of the task -/

/-- C14 fails on the code: a fresh task (`Pid = 0`, `State = Initial`) that is started
successfully (or restored) with pid 4242 and then receives `DeliverExitStatus` is `Stopped`
and still has `Pid = 4242`: `DeliverExitStatus` does not clear the pid. -/
theorem DeliverExitStatus_keeps_pid :
    sampleTask.Pid = 0 ∧ sampleTask.State = ETaskState.Initial
      ∧ (Start (fun _ => 0) okDaemonWorld sampleConfig sampleEnv sampleTask []).1
          = some TError.Success
      ∧ (Start (fun _ => 0) okDaemonWorld sampleConfig sampleEnv sampleTask []).2.1.State
          = ETaskState.Started
      ∧ (DeliverExitStatus
          (Start (fun _ => 0) okDaemonWorld sampleConfig sampleEnv sampleTask []).2.1 0).State
          = ETaskState.Stopped
      ∧ GetPid (DeliverExitStatus
          (Start (fun _ => 0) okDaemonWorld sampleConfig sampleEnv sampleTask []).2.1 0) = 4242
      ∧ (DeliverExitStatus (Restore sampleTask 4242) 0).State = ETaskState.Stopped
      ∧ GetPid (DeliverExitStatus (Restore sampleTask 4242) 0) = 4242 := by
  decide

/-- C15 fails on the code: for a task that was started with pid 4242 and then received
`DeliverExitStatus`, so that its state is `Stopped`, `Kill(SIGTERM)` is not rejected: it calls
`kill(4242, 15)` and returns success. -/
theorem Kill_after_exit_sends_signal :
    (DeliverExitStatus
        (Start (fun _ => 0) okDaemonWorld sampleConfig sampleEnv sampleTask []).2.1 0).State
        = ETaskState.Stopped
      ∧ Kill launchWorld
          (DeliverExitStatus
            (Start (fun _ => 0) okDaemonWorld sampleConfig sampleEnv sampleTask []).2.1 0)
          15 []
        = (some TError.Success, [Call.launch (LaunchCall.kill 4242 15)]) := by
  decide

/-- C16 as stated fails: after `Restore(4242)`, for a pid that is not a zombie,
`HasCorrectParent` returns false when the ppid (1) differs from the ppid of the daemon (777),
and `HasCorrectFreezer` returns false when the cgroups cannot be read; in both cases the task
keeps `Pid = 4242` and `State = Started`. -/
theorem restore_validation_failure_keeps_task :
    IsZombie strayProc (Restore sampleTask 4242) = false
      ∧ HasCorrectParent strayProc (Restore sampleTask 4242)
          = (false, Restore sampleTask 4242)
      ∧ HasCorrectFreezer unreadableProc (Restore sampleTask 4242)
          = some (false, Restore sampleTask 4242)
      ∧ (Restore sampleTask 4242).Pid = 4242
      ∧ (Restore sampleTask 4242).State = ETaskState.Started := by
  decide

/-! ## `TFile` -/

/-- C17 fails on the code: `AppendString` opens the stream with `ofstream::out`, which empties
the file, so a successful `AppendString("new\n")` on a file holding `"old\n"` leaves
`"new\n"`, not `"old\nnew\n"`: for every content `c` and string `s` it leaves `s`, exactly as
`WriteStringNoAppend` does. -/
theorem AppendString_truncates :
    TFile.AppendString true 0 (some "old\n") "new\n" = (TError.Success, some "new\n")
      ∧ (some "new\n" : Option String) ≠ some ("old\n" ++ "new\n")
      ∧ TFile.WriteStringNoAppend true 0 (some "old\n") "new\n"
          = (TError.Success, some "new\n")
      ∧ (∀ c s : String, TFile.AppendString true 0 (some c) s = (TError.Success, some s))
      ∧ (∀ c s : String,
          TFile.WriteStringNoAppend true 0 (some c) s = (TError.Success, some s)) := by
  refine ⟨by decide, by decide, by decide, ?_, ?_⟩
  · intro c s
    simp [TFile.AppendString, ofstreamOpen]
  · intro c s
    simp [TFile.WriteStringNoAppend, ofstreamOpen]

/-! ## Sequences of calls -/

theorem andThen_assoc (r : Ret) (k1 k2 : Trace → Ret) :
    andThen (andThen r k1) k2 = andThen r (fun tr => andThen (k1 tr) k2) := by
  by_cases hs : succeeded r = true
  · rw [andThen_of_succeeded _ hs, andThen_of_succeeded _ hs]
  · have hs' : succeeded r = false := by simpa using hs
    rw [andThen_of_not_succeeded k1 hs', andThen_of_not_succeeded _ hs',
      andThen_of_not_succeeded _ hs']

theorem forEach_map {α β : Type} (body : β → Trace → Ret) (f : α → β) (xs : List α)
    (tr : Trace) : forEach body (xs.map f) tr = forEach (fun x tr => body (f x) tr) xs tr := by
  induction xs generalizing tr with
  | nil => rfl
  | cons x xs ih =>
    simp only [List.map_cons, forEach]
    congr 1
    funext tr'
    exact ih tr'

theorem forEach_calls_cases (w : World) (cs : List Call) (tr : Trace) :
    (forEach (fun c tr => call w c tr) cs tr = (some TError.Success, tr ++ cs)
      ∧ ∀ pre c post, cs = pre ++ c :: post → (w.terr (tr ++ pre) c).isError = false)
    ∨ (∃ pre c post, cs = pre ++ c :: post
        ∧ forEach (fun c tr => call w c tr) cs tr
            = (some (w.terr (tr ++ pre) c), tr ++ pre ++ [c])
        ∧ (w.terr (tr ++ pre) c).isError = true
        ∧ ∀ pre' c' post', pre = pre' ++ c' :: post' →
            (w.terr (tr ++ pre') c').isError = false) := by
  induction cs generalizing tr with
  | nil =>
    left
    refine ⟨by simp [forEach], ?_⟩
    intro pre c post h
    simp at h
  | cons x xs ih =>
    simp only [forEach]
    by_cases hx : (w.terr tr x).isError = true
    · right
      refine ⟨[], x, xs, rfl, ?_, by simpa using hx, ?_⟩
      · simp [call, andThen, hx]
      · intro pre' c' post' h
        simp at h
    · have hx' : (w.terr tr x).isError = false := by simpa using hx
      have hcall : andThen (call w x tr) (forEach (fun c tr => call w c tr) xs)
          = forEach (fun c tr => call w c tr) xs (tr ++ [x]) := by
        simp [call, andThen, hx']
      rw [hcall]
      rcases ih (tr ++ [x]) with ⟨heq, hall⟩ | ⟨pre, c, post, hsplit, heq, herr, hall⟩
      · left
        refine ⟨by rw [heq]; simp, ?_⟩
        intro pre c post h
        cases pre with
        | nil =>
          simp only [List.nil_append, List.cons.injEq] at h
          rw [← h.1]
          simpa using hx'
        | cons p pre' =>
          simp only [List.cons_append, List.cons.injEq] at h
          have := hall pre' c post h.2
          rw [← h.1]
          simpa using this
      · right
        refine ⟨x :: pre, c, post, by rw [hsplit]; rfl, ?_, ?_, ?_⟩
        · rw [heq]
          simp
        · simpa using herr
        · intro pre' c' post' h
          cases pre' with
          | nil =>
            simp only [List.nil_append, List.cons.injEq] at h
            rw [← h.1]
            simpa using hx'
          | cons p pre'' =>
            simp only [List.cons_append, List.cons.injEq] at h
            have := hall pre'' c' post' h.2
            rw [← h.1]
            simpa using this

/-! ## `ChildMountRun` -/

theorem ChildMountRun_eq_calls (w : World) (env : TTaskEnv) (tr : Trace) :
    ChildMountRun w env tr
      = andThen (forEach (fun c tr => call w c tr) (mountRunCalls w env tr) tr)
          (fun tr => (some TError.Success, tr)) := by
  unfold ChildMountRun mountRunCalls runTmpfs
  by_cases h : w.pathExists tr (env.Root ++ "/run") = true
  · simp only [h, Bool.not_true, Bool.false_eq_true, if_false, if_true, List.cons_append,
      List.nil_append, forEach, andThen_assoc, forEach_map]
  · have h' : w.pathExists tr (env.Root ++ "/run") = false := by simpa using h
    simp only [h', Bool.not_false, if_true, Bool.false_eq_true, if_false, forEach,
      andThen_assoc]

/-- Claim C20: started at any trace, `ChildMountRun` performs the calls of `mountRunCalls` in
order: when `root/run` exists, the listing of its directories at the start, the tmpfs mount, and
the creation of `root/run/<name>` for each name of that listing in its order; when it does not
exist, the creation of `root/run` and the mount, nothing else. Either every call succeeds, they
are all performed and the function returns success; or it stops at the first call that fails
and returns the error of that call. -/
theorem ChildMountRun_recreates_captured (w : World) (env : TTaskEnv) (tr : Trace) :
    (mountRunCalls w env tr
        = if w.pathExists tr (env.Root ++ "/run") then
            [Call.FolderItems (env.Root ++ "/run"), runTmpfs env]
              ++ (w.items tr (env.Root ++ "/run")).map
                  (fun name => Call.FolderCreate (env.Root ++ "/run" ++ "/" ++ name) none)
          else [Call.FolderCreate (env.Root ++ "/run") none, runTmpfs env])
    ∧ ((ChildMountRun w env tr = (some TError.Success, tr ++ mountRunCalls w env tr)
        ∧ ∀ pre c post, mountRunCalls w env tr = pre ++ c :: post →
            (w.terr (tr ++ pre) c).isError = false)
      ∨ (∃ pre c post, mountRunCalls w env tr = pre ++ c :: post
          ∧ ChildMountRun w env tr = (some (w.terr (tr ++ pre) c), tr ++ pre ++ [c])
          ∧ (w.terr (tr ++ pre) c).isError = true
          ∧ ∀ pre1 c1 post1, pre = pre1 ++ c1 :: post1 →
              (w.terr (tr ++ pre1) c1).isError = false)) := by
  refine ⟨rfl, ?_⟩
  rw [ChildMountRun_eq_calls]
  rcases forEach_calls_cases w (mountRunCalls w env tr) tr with
    ⟨heq, hall⟩ | ⟨pre, c, post, hsplit, heq, herr, hall⟩
  · left
    refine ⟨?_, hall⟩
    rw [heq]
    simp [andThen, TError.Success, TError.isError]
  · right
    refine ⟨pre, c, post, hsplit, ?_, herr, hall⟩
    rw [heq]
    simp [andThen, herr]

/-! ## `ChildIsolateFs` -/

theorem runSteps_cons (step : Trace → Ret) (rest : List (Trace → Ret)) (tr : Trace) :
    (succeeded (runSteps (step :: rest) tr) = succeeded (andThen (step tr) (runSteps rest))
      ∧ (runSteps (step :: rest) tr).2 = (andThen (step tr) (runSteps rest)).2)
    ∧ (rest ≠ [] → runSteps (step :: rest) tr = andThen (step tr) (runSteps rest))
    ∧ (succeeded (step tr) = false → runSteps (step :: rest) tr = step tr) := by
  cases rest with
  | nil =>
    refine ⟨?_, fun h => absurd rfl h, fun _ => rfl⟩
    simp only [runSteps]
    by_cases hs : succeeded (step tr) = true
    · rw [andThen_of_succeeded _ hs]
      exact ⟨hs, rfl⟩
    · have hs' : succeeded (step tr) = false := by simpa using hs
      rw [andThen_of_not_succeeded _ hs']
      exact ⟨rfl, rfl⟩
  | cons s rest =>
    refine ⟨⟨rfl, rfl⟩, fun _ => rfl, fun hs => ?_⟩
    simp only [runSteps]
    exact andThen_of_not_succeeded _ hs

/-- The first step that does not succeed ends the run with its outcome. -/
theorem runSteps_first_failure (pre : List (Trace → Ret)) (step : Trace → Ret)
    (post : List (Trace → Ret)) (tr : Trace)
    (hpre : succeeded (runSteps pre tr) = true)
    (hstep : succeeded (step (runSteps pre tr).2) = false) :
    runSteps (pre ++ step :: post) tr = step (runSteps pre tr).2 := by
  induction pre generalizing tr with
  | nil => exact (runSteps_cons step post tr).2.2 hstep
  | cons p pre ih =>
    have hc := runSteps_cons p pre tr
    have hp : succeeded (p tr) = true := by
      by_contra hn
      have hn' : succeeded (p tr) = false := by simpa using hn
      rw [hc.1.1, andThen_of_not_succeeded _ hn'] at hpre
      rw [hpre] at hn'
      exact Bool.noConfusion hn'
    rw [andThen_of_succeeded _ hp] at hc
    have hne : pre ++ step :: post ≠ [] := by simp
    rw [List.cons_append, (runSteps_cons p (pre ++ step :: post) tr).2.1 hne,
      andThen_of_succeeded _ hp]
    have hpre' : succeeded (runSteps pre (p tr).2) = true := by rw [← hc.1.1]; exact hpre
    have hstep' : succeeded (step (runSteps pre (p tr).2).2) = false := by
      rw [← hc.1.2]; exact hstep
    rw [ih (p tr).2 hpre' hstep', hc.1.2]

/-- A run that succeeds has run every step, and every step succeeded. -/
theorem runSteps_all_succeeded (pre : List (Trace → Ret)) (step : Trace → Ret)
    (post : List (Trace → Ret)) (tr : Trace)
    (h : succeeded (runSteps (pre ++ step :: post) tr) = true) :
    succeeded (runSteps pre tr) = true ∧ succeeded (step (runSteps pre tr).2) = true := by
  induction pre generalizing tr with
  | nil =>
    refine ⟨rfl, ?_⟩
    by_contra hn
    have hn' : succeeded (step tr) = false := by simpa using hn
    rw [List.nil_append, (runSteps_cons step post tr).2.2 hn'] at h
    rw [h] at hn'
    exact Bool.noConfusion hn'
  | cons p pre ih =>
    have hne : pre ++ step :: post ≠ [] := by simp
    rw [List.cons_append, (runSteps_cons p (pre ++ step :: post) tr).2.1 hne] at h
    have hp : succeeded (p tr) = true := by
      by_contra hn
      have hn' : succeeded (p tr) = false := by simpa using hn
      rw [andThen_of_not_succeeded _ hn'] at h
      rw [h] at hn'
      exact Bool.noConfusion hn'
    rw [andThen_of_succeeded _ hp] at h
    have hc := runSteps_cons p pre tr
    rw [andThen_of_succeeded _ hp] at hc
    have := ih (p tr).2 h
    rw [hc.1.1, hc.1.2]
    exact this


theorem pivotOrChroot_eq_step (w : World) (env : TTaskEnv) (tr : Trace) :
    pivotOrChroot w env tr
      = andThen (pivotRootStep w env tr) (fun tr => call w (Call.Chdir "/") tr) := by
  unfold pivotOrChroot pivotRootStep
  cases h : (w.terr tr (Call.PivotRoot env.Root)).isError <;> simp [call, failed, h]

theorem ChildIsolateFs_eq_runSteps (w : World) (env : TTaskEnv) (tr : Trace)
    (hroot : env.Root ≠ "/") :
    ChildIsolateFs w env tr = runSteps (isolateFsSteps w env) tr := by
  have hflags : ∀ t : Trace,
      (if (!w.pathExists t env.Loop) = true then MS_REMOUNT ||| MS_RDONLY ||| MS_BIND
        else MS_REMOUNT ||| MS_RDONLY)
      = (if w.pathExists t env.Loop = true then MS_REMOUNT ||| MS_RDONLY
        else MS_REMOUNT ||| MS_RDONLY ||| MS_BIND) := by
    intro t
    cases w.pathExists t env.Loop <;> simp
  unfold ChildIsolateFs isolateFsSteps
  simp only [hroot, if_false, runSteps, pivotOrChroot_eq_step, hflags]

theorem not_succeeded_of_failed {r : Ret} (h : failed r = true) : succeeded r = false := by
  obtain ⟨o, tr⟩ := r
  cases o with
  | none => rfl
  | some e =>
    simp only [failed] at h
    simp [succeeded, h]

/-- Claim C19: for a root different from `/`, `ChildIsolateFs` is the run, in order, of the
thirteen steps of `isolateFsSteps` (root mount, sysfs, proc, `ChildRestrictProc`,
`ChildMountDev`, `ChildMountRun` for a loop root, shm, `ChildBindDns` when `BindDns`, the bind
map, the read-only remount when `RootRdOnly`, `chdir(root)`, `pivot_root` replaced by `chroot`
when it fails, `chdir("/")`): when the steps before some step succeeded and that step fails,
the function returns what that step returned and runs nothing after it; and when the function
succeeds, every step was run after the success of the steps before it, and succeeded. -/
theorem ChildIsolateFs_step_order (w : World) (env : TTaskEnv) (tr : Trace)
    (hroot : env.Root ≠ "/") :
    ChildIsolateFs w env tr = runSteps (isolateFsSteps w env) tr
    ∧ (∀ pre step post, isolateFsSteps w env = pre ++ step :: post →
        succeeded (runSteps pre tr) = true → failed (step (runSteps pre tr).2) = true →
        ChildIsolateFs w env tr = step (runSteps pre tr).2)
    ∧ (succeeded (ChildIsolateFs w env tr) = true →
        ∀ pre step post, isolateFsSteps w env = pre ++ step :: post →
          succeeded (runSteps pre tr) = true
            ∧ succeeded (step (runSteps pre tr).2) = true) := by
  have heq := ChildIsolateFs_eq_runSteps w env tr hroot
  refine ⟨heq, ?_, ?_⟩
  · intro pre step post hsplit hpre hstep
    rw [heq, hsplit]
    exact runSteps_first_failure pre step post tr hpre (not_succeeded_of_failed hstep)
  · intro hs pre step post hsplit
    rw [heq, hsplit] at hs
    exact runSteps_all_succeeded pre step post tr hs

/-- Witness of C19: the sample environment has the root `/tmp/rfs`. -/
theorem ChildIsolateFs_step_order_witness :
    sampleEnv.Root ≠ "/"
    ∧ (ChildIsolateFs okWorld sampleEnv [] = runSteps (isolateFsSteps okWorld sampleEnv) []
      ∧ (∀ pre step post, isolateFsSteps okWorld sampleEnv = pre ++ step :: post →
          succeeded (runSteps pre []) = true → failed (step (runSteps pre []).2) = true →
          ChildIsolateFs okWorld sampleEnv [] = step (runSteps pre []).2)
      ∧ (succeeded (ChildIsolateFs okWorld sampleEnv []) = true →
          ∀ pre step post, isolateFsSteps okWorld sampleEnv = pre ++ step :: post →
            succeeded (runSteps pre []) = true
              ∧ succeeded (step (runSteps pre []).2) = true)) :=
  ⟨by decide, ChildIsolateFs_step_order okWorld sampleEnv [] (by decide)⟩

/-! ## `EnableNet` -/

theorem enableLink_of_succeeded (w : World) (env : TTaskEnv) (dev : String) (tr : Trace)
    (h : succeeded (enableLink w env dev tr) = true) :
    (enableLink w env dev tr).2 = tr ++ linkCalls env dev := by
  unfold enableLink at h ⊢
  have h1 := succeeded_of_andThen h
  rw [andThen_of_succeeded _ h1] at h ⊢
  have h2 := succeeded_of_andThen h
  rw [andThen_of_succeeded _ h2] at h ⊢
  unfold linkCalls
  simp only [call_snd]
  cases hl : env.IpMap.lookup dev with
  | none => simp
  | some ip =>
    by_cases ha : (ip.Addr != "") = true
    · simp [ha, call]
    · simp [ha]

theorem linksCalls_cons (env : TTaskEnv) (dev : String) (devices : List String) :
    linksCalls env (dev :: devices) = linkCalls env dev ++ linksCalls env devices := by
  simp [linksCalls]

theorem linksCalls_append (env : TTaskEnv) (xs ys : List String) :
    linksCalls env (xs ++ ys) = linksCalls env xs ++ linksCalls env ys := by
  simp [linksCalls]

theorem enableLinks_of_succeeded (w : World) (env : TTaskEnv) (devices : List String)
    (gw : Option String) (tr : Trace)
    (h : succeeded (enableLinks w env devices gw tr).1 = true) :
    (enableLinks w env devices gw tr).1 = (some TError.Success, tr ++ linksCalls env devices)
    ∧ (enableLinks w env devices gw tr).2
        = (if gw.isNone then firstWithQueue w env devices tr else gw) := by
  induction devices generalizing gw tr with
  | nil =>
    refine ⟨by simp [enableLinks, linksCalls], ?_⟩
    cases gw <;> rfl
  | cons dev devices ih =>
    have hsnd : ∀ e t, enableLink w env dev tr = (some e, t) → e.isError = false →
        t = tr ++ linkCalls env dev := by
      intro e t heq he
      have := enableLink_of_succeeded w env dev tr (by rw [heq]; simp [succeeded, he])
      rw [heq] at this
      exact this
    unfold enableLinks at h ⊢
    cases hr : enableLink w env dev tr with
    | mk o t =>
      cases o with
      | none =>
        rw [hr] at h
        simp [succeeded] at h
      | some e =>
        rw [hr] at h
        by_cases he : e.isError = true
        · simp [he, succeeded] at h
        · have he' : e.isError = false := by simpa using he
          have ht := hsnd e t hr he'
          simp only [he', Bool.false_eq_true, if_false] at h ⊢
          have := ih _ t h
          rw [this.1, this.2, ht, linksCalls_cons]
          refine ⟨by simp, ?_⟩
          cases gw with
          | some g => rfl
          | none =>
            simp only [Option.isNone_none, Bool.true_and, firstWithQueue]
            by_cases hq : w.hasQueue (tr ++ linkCalls env dev) dev = true
            · simp [hq]
            · simp [hq]

theorem firstWithQueue_cases (w : World) (env : TTaskEnv) (devices : List String) (tr : Trace) :
    (firstWithQueue w env devices tr = none
      ∧ ∀ p1 d p2, devices = p1 ++ d :: p2 →
          w.hasQueue (tr ++ linksCalls env (p1 ++ [d])) d = false)
    ∨ (∃ pre gw post, devices = pre ++ gw :: post
        ∧ firstWithQueue w env devices tr = some gw
        ∧ w.hasQueue (tr ++ linksCalls env (pre ++ [gw])) gw = true
        ∧ ∀ p1 d p2, pre = p1 ++ d :: p2 →
            w.hasQueue (tr ++ linksCalls env (p1 ++ [d])) d = false) := by
  induction devices generalizing tr with
  | nil =>
    left
    refine ⟨rfl, ?_⟩
    intro p1 d p2 h
    simp at h
  | cons dev devices ih =>
    have hone : linksCalls env ([] ++ [dev]) = linkCalls env dev := by simp [linksCalls]
    by_cases hq : w.hasQueue (tr ++ linkCalls env dev) dev = true
    · right
      refine ⟨[], dev, devices, rfl, by simp [firstWithQueue, hq], by rw [hone]; exact hq, ?_⟩
      intro p1 d p2 h
      simp at h
    · have hq' : w.hasQueue (tr ++ linkCalls env dev) dev = false := by simpa using hq
      have hstep : firstWithQueue w env (dev :: devices) tr
          = firstWithQueue w env devices (tr ++ linkCalls env dev) := by
        simp [firstWithQueue, hq']
      have hshift : ∀ l : List String, tr ++ linksCalls env (dev :: l)
          = tr ++ linkCalls env dev ++ linksCalls env l := by
        intro l
        rw [linksCalls_cons, List.append_assoc]
      have hhead : ∀ p1 d p2 (l : List String), dev :: l = p1 ++ d :: p2 →
          (∀ q1 e q2, l = q1 ++ e :: q2 →
            w.hasQueue (tr ++ linkCalls env dev ++ linksCalls env (q1 ++ [e])) e = false) →
          w.hasQueue (tr ++ linksCalls env (p1 ++ [d])) d = false := by
        intro p1 d p2 l h hall
        cases p1 with
        | nil =>
          simp only [List.nil_append, List.cons.injEq] at h
          rw [← h.1, hone]
          exact hq'
        | cons p p1 =>
          simp only [List.cons_append, List.cons.injEq] at h
          rw [← h.1, List.cons_append, hshift]
          exact hall p1 d p2 h.2
      rcases ih (tr ++ linkCalls env dev) with ⟨hnone, hall⟩ | ⟨pre, gw, post, hsplit, hsome, hgw, hall⟩
      · left
        refine ⟨by rw [hstep]; exact hnone, ?_⟩
        intro p1 d p2 h
        exact hhead p1 d p2 devices h hall
      · right
        refine ⟨dev :: pre, gw, post, by rw [hsplit]; rfl, by rw [hstep]; exact hsome, ?_, ?_⟩
        · rw [List.cons_append, hshift]
          exact hgw
        · intro p1 d p2 h
          exact hhead p1 d p2 pre h hall


/-- Claim C22: a successful `EnableNet` returns success after these calls, in this order: the
connection; for every enumerated link, in the order of the enumeration, its load, its `Up`
and, exactly when `IpMap` has an entry for its name with a non-empty address, the setting of
that address and prefix; and then either nothing, when `DefaultGw` is empty or no link had a
queue when it was set up, or one `SetDefaultGw(DefaultGw)` on the first link of the
enumeration that had a queue, when `DefaultGw` is not empty. -/
theorem EnableNet_links_addresses_gateway (w : World) (env : TTaskEnv) (tr : Trace)
    (h : succeeded (EnableNet w env tr) = true) :
    (∃ gwCalls,
      EnableNet w env tr
        = (some TError.Success,
            tr ++ [Call.NlConnect] ++ linksCalls env (w.findLink (tr ++ [Call.NlConnect]))
              ++ gwCalls)
      ∧ ((gwCalls = []
          ∧ (env.DefaultGw = ""
            ∨ ∀ p1 d p2, w.findLink (tr ++ [Call.NlConnect]) = p1 ++ d :: p2 →
                w.hasQueue (tr ++ [Call.NlConnect] ++ linksCalls env (p1 ++ [d])) d = false))
        ∨ (∃ pre gw post, w.findLink (tr ++ [Call.NlConnect]) = pre ++ gw :: post
            ∧ env.DefaultGw ≠ ""
            ∧ gwCalls = [Call.LinkSetDefaultGw gw env.DefaultGw]
            ∧ w.hasQueue (tr ++ [Call.NlConnect] ++ linksCalls env (pre ++ [gw])) gw = true
            ∧ ∀ p1 d p2, pre = p1 ++ d :: p2 →
                w.hasQueue (tr ++ [Call.NlConnect] ++ linksCalls env (p1 ++ [d])) d = false)))
    ∧ (∀ xs ys, linksCalls env (xs ++ ys) = linksCalls env xs ++ linksCalls env ys)
    ∧ (∀ dev, linksCalls env [dev] = linkCalls env dev)
    ∧ (∀ dev ip, env.IpMap.lookup dev = some ip → ip.Addr ≠ "" →
        linkCalls env dev
          = [Call.LinkLoad dev, Call.LinkUp dev, Call.LinkSetIpAddr dev ip.Addr ip.PrefixLen])
    ∧ (∀ dev, (∀ ip, env.IpMap.lookup dev = some ip → ip.Addr = "") →
        linkCalls env dev = [Call.LinkLoad dev, Call.LinkUp dev]) := by
  refine ⟨?_, linksCalls_append env, fun dev => by simp [linksCalls], ?_, ?_⟩
  · unfold EnableNet at h ⊢
    have h1 := succeeded_of_andThen h
    rw [andThen_of_succeeded _ h1] at h ⊢
    simp only [call_snd] at h ⊢
    have h2 := succeeded_of_andThen h
    obtain ⟨hl1, hl2⟩ := enableLinks_of_succeeded w env _ none _ h2
    rw [andThen_of_succeeded _ h2] at h ⊢
    rw [hl1, hl2] at h ⊢
    simp only [Option.isNone_none, if_true] at h ⊢
    have h3 := succeeded_of_andThen h
    rw [andThen_of_succeeded _ h3]
    rcases firstWithQueue_cases w env (w.findLink (tr ++ [Call.NlConnect]))
        (tr ++ [Call.NlConnect]) with
      ⟨hnone, hall⟩ | ⟨pre, gw, post, hsplit, hsome, hgw, hall⟩
    · refine ⟨[], ?_, Or.inl ⟨rfl, Or.inr hall⟩⟩
      rw [hnone]
      simp
    · by_cases hd : env.DefaultGw = ""
      · refine ⟨[], ?_, Or.inl ⟨rfl, Or.inl hd⟩⟩
        rw [hsome]
        simp [hd]
      · refine ⟨[Call.LinkSetDefaultGw gw env.DefaultGw], ?_,
          Or.inr ⟨pre, gw, post, hsplit, hd, rfl, hgw, hall⟩⟩
        rw [hsome]
        simp [hd, call]
  · intro dev ip hl ha
    simp [linkCalls, hl, ha]
  · intro dev hl
    unfold linkCalls
    cases hlk : env.IpMap.lookup dev with
    | none => rfl
    | some ip => simp [hl ip hlk]

/-- Witness of C22: three links `lo`, `eth0`, `eth1`, of which the last two have a queue; an
address for `eth0`, an empty one for `lo`, and a default gateway, which goes to `eth0`. -/
theorem EnableNet_links_addresses_gateway_witness :
    succeeded (EnableNet linksWorld gatewayEnv []) = true
    ∧ EnableNet linksWorld gatewayEnv []
      = (some TError.Success,
          [Call.NlConnect, Call.LinkLoad "lo", Call.LinkUp "lo",
           Call.LinkLoad "eth0", Call.LinkUp "eth0", Call.LinkSetIpAddr "eth0" "10.0.0.2" 24,
           Call.LinkLoad "eth1", Call.LinkUp "eth1",
           Call.LinkSetDefaultGw "eth0" "10.0.0.1"])
    ∧ linkCalls gatewayEnv "lo" = [Call.LinkLoad "lo", Call.LinkUp "lo"]
    ∧ linkCalls gatewayEnv "eth0"
      = [Call.LinkLoad "eth0", Call.LinkUp "eth0", Call.LinkSetIpAddr "eth0" "10.0.0.2" 24] :=
  ⟨by decide, by decide,
   (EnableNet_links_addresses_gateway linksWorld gatewayEnv [] (by decide)).2.2.2.2 "lo"
     (by decide),
   (EnableNet_links_addresses_gateway linksWorld gatewayEnv [] (by decide)).2.2.2.1 "eth0"
     { Addr := "10.0.0.2", PrefixLen := 24 } (by decide) (by decide)⟩

/-! ## `IsolateNet` -/

theorem forEach_apply_map {α : Type} (f : α → Trace → Ret) (xs : List α) (tr : Trace) :
    forEach (fun (step : Trace → Ret) tr => step tr) (xs.map f) tr = forEach f xs tr :=
  forEach_map (fun (step : Trace → Ret) tr => step tr) f xs tr

theorem IsolateNet_eq_steps (Crc32 : String → Nat) (w : World) (env : TTaskEnv)
    (childPid : Int) (tr : Trace) :
    IsolateNet Crc32 w env childPid tr
      = andThen (isolateNetUpTo w (netSteps Crc32 w env childPid) tr)
          (fun tr => (some TError.Success, tr)) := by
  unfold IsolateNet isolateNetUpTo netSteps
  rw [andThen_assoc]
  congr 1
  funext t
  simp only [forEach_append, forEach_apply_map, andThen_assoc]

theorem isolateNetUpTo_split (w : World) (pre : List (Trace → Ret)) (step : Trace → Ret)
    (post : List (Trace → Ret)) (tr : Trace) :
    isolateNetUpTo w (pre ++ step :: post) tr
      = andThen (isolateNetUpTo w pre tr)
          (fun t => andThen (step t) (forEach (fun step tr => step tr) post)) := by
  unfold isolateNetUpTo
  rw [andThen_assoc]
  congr 1
  funext t
  rw [forEach_append]
  rfl

theorem IsolateNet_first_failure (Crc32 : String → Nat) (w : World) (env : TTaskEnv)
    (childPid : Int) (tr : Trace) (pre : List (Trace → Ret)) (step : Trace → Ret)
    (post : List (Trace → Ret)) (hsplit : netSteps Crc32 w env childPid = pre ++ step :: post)
    (hpre : succeeded (isolateNetUpTo w pre tr) = true)
    (hstep : succeeded (step (isolateNetUpTo w pre tr).2) = false) :
    IsolateNet Crc32 w env childPid tr = step (isolateNetUpTo w pre tr).2 := by
  rw [IsolateNet_eq_steps, hsplit, isolateNetUpTo_split, andThen_of_succeeded _ hpre,
    andThen_of_not_succeeded _ hstep, andThen_of_not_succeeded _ hstep]

theorem IsolateNet_all_succeeded (Crc32 : String → Nat) (w : World) (env : TTaskEnv)
    (childPid : Int) (tr : Trace) (pre : List (Trace → Ret)) (step : Trace → Ret)
    (post : List (Trace → Ret)) (hsplit : netSteps Crc32 w env childPid = pre ++ step :: post)
    (h : succeeded (IsolateNet Crc32 w env childPid tr) = true) :
    succeeded (isolateNetUpTo w pre tr) = true
      ∧ succeeded (step (isolateNetUpTo w pre tr).2) = true := by
  rw [IsolateNet_eq_steps, hsplit, isolateNetUpTo_split] at h
  have h1 := succeeded_of_andThen h
  have hpre := succeeded_of_andThen h1
  rw [andThen_of_succeeded _ hpre] at h1
  exact ⟨hpre, succeeded_of_andThen h1⟩

theorem isolateIpVlan_move_fails (w : World) (childPid : Int) (ipvlan : TIpVlanNetCfg)
    (t : Trace)
    (hadd : (w.terr (t ++ [Call.LinkRemove ("piv" ++ toString (w.tid t))])
      (Call.LinkAddIpVlan ("piv" ++ toString (w.tid t)) ipvlan.Master ipvlan.Mode
        ipvlan.Mtu)).isError = false)
    (hmove : (w.terr (t ++ [Call.LinkRemove ("piv" ++ toString (w.tid t)),
        Call.LinkAddIpVlan ("piv" ++ toString (w.tid t)) ipvlan.Master ipvlan.Mode ipvlan.Mtu])
      (Call.LinkChangeNs ("piv" ++ toString (w.tid t)) ipvlan.Name childPid)).isError = true) :
    isolateIpVlan w childPid ipvlan t
      = (some (w.terr (t ++ [Call.LinkRemove ("piv" ++ toString (w.tid t)),
            Call.LinkAddIpVlan ("piv" ++ toString (w.tid t)) ipvlan.Master ipvlan.Mode
              ipvlan.Mtu])
          (Call.LinkChangeNs ("piv" ++ toString (w.tid t)) ipvlan.Name childPid)),
         t ++ [Call.LinkRemove ("piv" ++ toString (w.tid t)),
               Call.LinkAddIpVlan ("piv" ++ toString (w.tid t)) ipvlan.Master ipvlan.Mode
                 ipvlan.Mtu,
               Call.LinkChangeNs ("piv" ++ toString (w.tid t)) ipvlan.Name childPid,
               Call.LinkRemove ("piv" ++ toString (w.tid t))]) := by
  unfold isolateIpVlan
  simp only [call, andThen, hadd, Bool.false_eq_true, if_false, List.append_assoc,
    List.singleton_append, hmove, if_true]
  rfl

theorem isolateMacVlan_move_fails (Crc32 : String → Nat) (w : World) (env : TTaskEnv)
    (childPid : Int) (mvlan : TMacVlanNetCfg) (t : Trace) (hw : String)
    (hhw : hw = if mvlan.Hw = "" then GenerateHw Crc32 env.Hostname (mvlan.Master ++ mvlan.Name)
      else mvlan.Hw)
    (hadd : (w.terr (t ++ [Call.LinkRemove ("pmv" ++ toString (w.tid t))])
      (Call.LinkAddMacVlan ("pmv" ++ toString (w.tid t)) mvlan.Master mvlan.Type_ hw
        mvlan.Mtu)).isError = false)
    (hmove : (w.terr (t ++ [Call.LinkRemove ("pmv" ++ toString (w.tid t)),
        Call.LinkAddMacVlan ("pmv" ++ toString (w.tid t)) mvlan.Master mvlan.Type_ hw
          mvlan.Mtu])
      (Call.LinkChangeNs ("pmv" ++ toString (w.tid t)) mvlan.Name childPid)).isError = true) :
    isolateMacVlan Crc32 w env childPid mvlan t
      = (some (w.terr (t ++ [Call.LinkRemove ("pmv" ++ toString (w.tid t)),
            Call.LinkAddMacVlan ("pmv" ++ toString (w.tid t)) mvlan.Master mvlan.Type_ hw
              mvlan.Mtu])
          (Call.LinkChangeNs ("pmv" ++ toString (w.tid t)) mvlan.Name childPid)),
         t ++ [Call.LinkRemove ("pmv" ++ toString (w.tid t)),
               Call.LinkAddMacVlan ("pmv" ++ toString (w.tid t)) mvlan.Master mvlan.Type_ hw
                 mvlan.Mtu,
               Call.LinkChangeNs ("pmv" ++ toString (w.tid t)) mvlan.Name childPid,
               Call.LinkRemove ("pmv" ++ toString (w.tid t))]) := by
  subst hhw
  unfold isolateMacVlan
  simp only [call, andThen, hadd, Bool.false_eq_true, if_false, List.append_assoc,
    List.singleton_append, hmove, if_true]
  rfl


theorem IsolateNet_entry_fails (Crc32 : String → Nat) (w : World) (env : TTaskEnv)
    (childPid : Int) (tr : Trace) (pre : List (Trace → Ret)) (step : Trace → Ret)
    (post : List (Trace → Ret)) (hsplit : netSteps Crc32 w env childPid = pre ++ step :: post)
    (hpre : succeeded (isolateNetUpTo w pre tr) = true)
    (t : Trace) (ht : (isolateNetUpTo w pre tr).2 = t) (r : Ret) (hstep : step t = r)
    (hfail : succeeded r = false) :
    IsolateNet Crc32 w env childPid tr = r := by
  subst ht
  subst hstep
  exact IsolateNet_first_failure Crc32 w env childPid tr pre step post hsplit hpre hfail

/-- Claim C21: `IsolateNet` is the connection followed by the entries in the order host
devices, ipvlans, macvlans, veths, and success at the end.  For an ipvlan entry reached after
the success of everything before it, with the transient link `piv<tid>` created successfully:
when the move of the link into the namespace of the grandchild under the name of the entry
fails, `Remove` is called on the transient link, and `IsolateNet` returns the error of the
move with that `Remove` as its last call.  The same holds for a macvlan entry and its link
`pmv<tid>`.  The first entry that fails ends `IsolateNet` with what it returned, and a
successful `IsolateNet` has run every entry with success. -/
theorem IsolateNet_removes_transient_link (Crc32 : String → Nat) (w : World) (env : TTaskEnv)
    (childPid : Int) (tr : Trace) :
    IsolateNet Crc32 w env childPid tr
        = andThen (isolateNetUpTo w (netSteps Crc32 w env childPid) tr)
            (fun tr => (some TError.Success, tr))
    ∧ (∀ pre ipvlan post t link, env.NetCfg.IpVlan = pre ++ ipvlan :: post →
        succeeded (isolateNetUpTo w (env.NetCfg.Host.map (isolateHost w childPid)
          ++ pre.map (isolateIpVlan w childPid)) tr) = true →
        (isolateNetUpTo w (env.NetCfg.Host.map (isolateHost w childPid)
          ++ pre.map (isolateIpVlan w childPid)) tr).2 = t →
        link = "piv" ++ toString (w.tid t) →
        (w.terr (t ++ [Call.LinkRemove link])
          (Call.LinkAddIpVlan link ipvlan.Master ipvlan.Mode ipvlan.Mtu)).isError = false →
        (w.terr (t ++ [Call.LinkRemove link,
            Call.LinkAddIpVlan link ipvlan.Master ipvlan.Mode ipvlan.Mtu])
          (Call.LinkChangeNs link ipvlan.Name childPid)).isError = true →
        IsolateNet Crc32 w env childPid tr
          = (some (w.terr (t ++ [Call.LinkRemove link,
                Call.LinkAddIpVlan link ipvlan.Master ipvlan.Mode ipvlan.Mtu])
              (Call.LinkChangeNs link ipvlan.Name childPid)),
             t ++ [Call.LinkRemove link,
                   Call.LinkAddIpVlan link ipvlan.Master ipvlan.Mode ipvlan.Mtu,
                   Call.LinkChangeNs link ipvlan.Name childPid,
                   Call.LinkRemove link]))
    ∧ (∀ pre mvlan post t link hw, env.NetCfg.MacVlan = pre ++ mvlan :: post →
        succeeded (isolateNetUpTo w (env.NetCfg.Host.map (isolateHost w childPid)
          ++ env.NetCfg.IpVlan.map (isolateIpVlan w childPid)
          ++ pre.map (isolateMacVlan Crc32 w env childPid)) tr) = true →
        (isolateNetUpTo w (env.NetCfg.Host.map (isolateHost w childPid)
          ++ env.NetCfg.IpVlan.map (isolateIpVlan w childPid)
          ++ pre.map (isolateMacVlan Crc32 w env childPid)) tr).2 = t →
        link = "pmv" ++ toString (w.tid t) →
        hw = (if mvlan.Hw = "" then GenerateHw Crc32 env.Hostname (mvlan.Master ++ mvlan.Name)
              else mvlan.Hw) →
        (w.terr (t ++ [Call.LinkRemove link])
          (Call.LinkAddMacVlan link mvlan.Master mvlan.Type_ hw mvlan.Mtu)).isError = false →
        (w.terr (t ++ [Call.LinkRemove link,
            Call.LinkAddMacVlan link mvlan.Master mvlan.Type_ hw mvlan.Mtu])
          (Call.LinkChangeNs link mvlan.Name childPid)).isError = true →
        IsolateNet Crc32 w env childPid tr
          = (some (w.terr (t ++ [Call.LinkRemove link,
                Call.LinkAddMacVlan link mvlan.Master mvlan.Type_ hw mvlan.Mtu])
              (Call.LinkChangeNs link mvlan.Name childPid)),
             t ++ [Call.LinkRemove link,
                   Call.LinkAddMacVlan link mvlan.Master mvlan.Type_ hw mvlan.Mtu,
                   Call.LinkChangeNs link mvlan.Name childPid,
                   Call.LinkRemove link]))
    ∧ (∀ pre step post, netSteps Crc32 w env childPid = pre ++ step :: post →
        succeeded (isolateNetUpTo w pre tr) = true →
        failed (step (isolateNetUpTo w pre tr).2) = true →
        IsolateNet Crc32 w env childPid tr = step (isolateNetUpTo w pre tr).2)
    ∧ (succeeded (IsolateNet Crc32 w env childPid tr) = true →
        ∀ pre step post, netSteps Crc32 w env childPid = pre ++ step :: post →
          succeeded (isolateNetUpTo w pre tr) = true
            ∧ succeeded (step (isolateNetUpTo w pre tr).2) = true) := by
  refine ⟨IsolateNet_eq_steps Crc32 w env childPid tr, ?_, ?_, ?_, ?_⟩
  · intro pre ipvlan post t link hsplit hpre ht hlink hadd hmove
    subst hlink
    have hsteps : netSteps Crc32 w env childPid
        = (env.NetCfg.Host.map (isolateHost w childPid) ++ pre.map (isolateIpVlan w childPid))
          ++ isolateIpVlan w childPid ipvlan
            :: (post.map (isolateIpVlan w childPid)
                ++ env.NetCfg.MacVlan.map (isolateMacVlan Crc32 w env childPid)
                ++ env.NetCfg.Veth.map (isolateVeth Crc32 w env childPid)) := by
      unfold netSteps
      rw [hsplit]
      simp only [List.map_append, List.map_cons, List.append_assoc, List.cons_append]
    exact IsolateNet_entry_fails Crc32 w env childPid tr _ _ _ hsteps hpre t ht _
      (isolateIpVlan_move_fails w childPid ipvlan t hadd hmove) (by simp [succeeded, hmove])
  · intro pre mvlan post t link hw hsplit hpre ht hlink hhw hadd hmove
    subst hlink
    have hsteps : netSteps Crc32 w env childPid
        = (env.NetCfg.Host.map (isolateHost w childPid)
            ++ env.NetCfg.IpVlan.map (isolateIpVlan w childPid)
            ++ pre.map (isolateMacVlan Crc32 w env childPid))
          ++ isolateMacVlan Crc32 w env childPid mvlan
            :: (post.map (isolateMacVlan Crc32 w env childPid)
                ++ env.NetCfg.Veth.map (isolateVeth Crc32 w env childPid)) := by
      unfold netSteps
      rw [hsplit]
      simp only [List.map_append, List.map_cons, List.append_assoc, List.cons_append]
    exact IsolateNet_entry_fails Crc32 w env childPid tr _ _ _ hsteps hpre t ht _
      (isolateMacVlan_move_fails Crc32 w env childPid mvlan t hw hhw hadd hmove)
      (by simp [succeeded, hmove])
  · intro pre step post hsplit hpre hstep
    exact IsolateNet_first_failure Crc32 w env childPid tr pre step post hsplit hpre
      (not_succeeded_of_failed hstep)
  · intro h pre step post hsplit
    exact IsolateNet_all_succeeded Crc32 w env childPid tr pre step post hsplit h


/-- Witness of C21: with a host device, two ipvlans and a macvlan, the failure of the move of
the second ipvlan ends `IsolateNet` with the error of the move after the `Remove` of `piv1`,
before the macvlan; and the failure of the move of the macvlan ends it after the `Remove` of
`pmv1`. -/
theorem IsolateNet_removes_transient_link_witness :
    IsolateNet (fun _ => 0) moveFailWorld vlanEnv 42 []
        = (some { kind := EError.Unknown, errno := 16, msg := "Can't change link namespace" },
           [Call.NlConnect, Call.LinkChangeNs "eth9" "eth9" 42,
            Call.LinkRemove "piv1", Call.LinkAddIpVlan "piv1" "eth0" "l2" 1500,
            Call.LinkChangeNs "piv1" "iv0" 42,
            Call.LinkRemove "piv1", Call.LinkAddIpVlan "piv1" "eth0" "l2" 1500,
            Call.LinkChangeNs "piv1" "iv1" 42, Call.LinkRemove "piv1"])
    ∧ IsolateNet (fun _ => 0) macMoveFailWorld vlanEnv 42 []
        = (some { kind := EError.Unknown, errno := 16, msg := "Can't change link namespace" },
           [Call.NlConnect, Call.LinkChangeNs "eth9" "eth9" 42,
            Call.LinkRemove "piv1", Call.LinkAddIpVlan "piv1" "eth0" "l2" 1500,
            Call.LinkChangeNs "piv1" "iv0" 42,
            Call.LinkRemove "piv1", Call.LinkAddIpVlan "piv1" "eth0" "l2" 1500,
            Call.LinkChangeNs "piv1" "iv1" 42,
            Call.LinkRemove "pmv1",
            Call.LinkAddMacVlan "pmv1" "eth0" "bridge" "02:00:00:00:00:00" 1500,
            Call.LinkChangeNs "pmv1" "mv0" 42, Call.LinkRemove "pmv1"]) :=
  ⟨((IsolateNet_removes_transient_link (fun _ => 0) moveFailWorld vlanEnv 42 []).2.1
      [{ Master := "eth0", Name := "iv0", Mode := "l2", Mtu := 1500 }]
      { Master := "eth0", Name := "iv1", Mode := "l2", Mtu := 1500 } []
      [Call.NlConnect, Call.LinkChangeNs "eth9" "eth9" 42,
       Call.LinkRemove "piv1", Call.LinkAddIpVlan "piv1" "eth0" "l2" 1500,
       Call.LinkChangeNs "piv1" "iv0" 42]
      "piv1" (by decide) (by decide) (by decide) (by decide) (by decide) (by decide)).trans
      (by decide),
   ((IsolateNet_removes_transient_link (fun _ => 0) macMoveFailWorld vlanEnv 42 []).2.2.1
      [] { Master := "eth0", Name := "mv0", Type_ := "bridge", Hw := "", Mtu := 1500 } []
      [Call.NlConnect, Call.LinkChangeNs "eth9" "eth9" 42,
       Call.LinkRemove "piv1", Call.LinkAddIpVlan "piv1" "eth0" "l2" 1500,
       Call.LinkChangeNs "piv1" "iv0" 42,
       Call.LinkRemove "piv1", Call.LinkAddIpVlan "piv1" "eth0" "l2" 1500,
       Call.LinkChangeNs "piv1" "iv1" 42]
      "pmv1" "02:00:00:00:00:00" (by decide) (by decide) (by decide) (by decide) (by decide)
      (by decide) (by decide)).trans (by decide)⟩

/-! ## The validation of a restored task -/

/-- C16, amended: after `Restore(pid)` (which sets `Pid = pid`, `ExitStatus = 0`,
`State = Started`), when the freezer cgroup of the pid can be read and differs from the
expected leaf, `HasCorrectFreezer` returns false and leaves the task with `Pid = 0` and
`State = Stopped` if the pid is not a zombie, and returns true and leaves the task unchanged
if it is a zombie.  In every case `HasCorrectParent` leaves the task unchanged and is true
exactly when the ppid can be read and equals the ppid of this process; and whenever the
cgroups of the pid cannot be read, `HasCorrectFreezer` returns false and leaves the task
unchanged. -/
theorem restore_validation (pw : ProcWorld) (task : TTask) (pid : Int) :
    ((Restore task pid).Pid = pid ∧ (Restore task pid).ExitStatus = 0
        ∧ (Restore task pid).State = ETaskState.Started)
      ∧ (∀ cgmap relpath, pw.taskCgroups pid = Except.ok cgmap →
          task.LeafCgroups.lookup "freezer" = some (some relpath) →
          relpath ≠ (cgmap.lookup "freezer").getD "" →
          if IsZombie pw (Restore task pid) = true then
            HasCorrectFreezer pw (Restore task pid) = some (true, Restore task pid)
          else
            HasCorrectFreezer pw (Restore task pid) =
              some (false, { Restore task pid with Pid := 0, State := ETaskState.Stopped }))
      ∧ (HasCorrectParent pw (Restore task pid)).2 = Restore task pid
      ∧ ((HasCorrectParent pw (Restore task pid)).1 = true
          ↔ GetPPid pw (Restore task pid) = Except.ok pw.getppid)
      ∧ ((∃ err, pw.taskCgroups pid = Except.error err) →
          HasCorrectFreezer pw (Restore task pid) = some (false, Restore task pid)) := by
  refine ⟨⟨rfl, rfl, rfl⟩, ?_, ?_, ?_, ?_⟩
  · intro cgmap relpath hcg hleaf hmismatch
    have hcg' : pw.taskCgroups (Restore task pid).Pid = Except.ok cgmap := hcg
    have hleaf' : (Restore task pid).LeafCgroups.lookup "freezer" = some (some relpath) := hleaf
    unfold HasCorrectFreezer
    rw [hcg']
    simp only [hleaf', hmismatch, ne_eq, not_false_eq_true, if_true]
    split <;> rfl
  · unfold HasCorrectParent
    split
    · rfl
    · split <;> rfl
  · unfold HasCorrectParent
    split
    · rename_i err herr
      rw [herr]
      simp
    · rename_i ppid hppid
      rw [hppid]
      by_cases hp : ppid = pw.getppid
      · simp [hp]
      · simp [hp]
  · rintro ⟨err, herr⟩
    have herr' : pw.taskCgroups (Restore task pid).Pid = Except.error err := herr
    unfold HasCorrectFreezer
    rw [herr']

/-- Witness of the amended C16: pid 4242 is not a zombie; its freezer cgroup `/porto/b` is not
the leaf `/porto/a` of the task, so `HasCorrectFreezer` clears the task; its ppid 1 is not
the ppid 777 of the daemon, so `HasCorrectParent` is false and leaves the task; and when its
cgroups cannot be read `HasCorrectFreezer` is false and leaves the task. -/
theorem restore_validation_witness :
    (if IsZombie strayProc (Restore sampleTask 4242) = true then
        HasCorrectFreezer strayProc (Restore sampleTask 4242)
          = some (true, Restore sampleTask 4242)
      else
        HasCorrectFreezer strayProc (Restore sampleTask 4242) =
          some (false, { Restore sampleTask 4242 with Pid := 0, State := ETaskState.Stopped }))
      ∧ IsZombie strayProc (Restore sampleTask 4242) = false
      ∧ (HasCorrectParent strayProc (Restore sampleTask 4242)).2 = Restore sampleTask 4242
      ∧ (HasCorrectParent strayProc (Restore sampleTask 4242)).1 = false
      ∧ HasCorrectFreezer unreadableProc (Restore sampleTask 4242)
          = some (false, Restore sampleTask 4242) :=
  ⟨(restore_validation strayProc sampleTask 4242).2.1
      [("freezer", "/porto/b"), ("memory", "/porto/a")] "/porto/a" rfl (by decide) (by decide),
   by decide,
   (restore_validation strayProc sampleTask 4242).2.2.1,
   by decide,
   (restore_validation unreadableProc sampleTask 4242).2.2.2.2
     ⟨{ kind := EError.Unknown, errno := 2, msg := "Cannot open" }, rfl⟩⟩

/-! ## The report of the pid by the intermediate process -/

theorem orReportAbort_andThen (r : Ret) (g : Trace → Ret) (k : Trace → Trace) :
    orReportAbort (andThen r g) k = orReportAbort r (fun t => orReportAbort (g t) k) := by
  obtain ⟨o, tr⟩ := r
  cases o with
  | none => rfl
  | some e => cases he : e.isError <;> simp [andThen, orReportAbort, he]

theorem orReportAbort_success (k : Trace → Trace) (tr : Trace) :
    orReportAbort (some TError.Success, tr) k = k tr := rfl

theorem startIntermediate_eq_steps (Crc32 : String → Nat) (w : World) (cfg : Config)
    (env : TTaskEnv) (task : TTask) (tr0 : Trace) :
    startIntermediate Crc32 w cfg env task tr0
      = orReportAbort (forEach (fun step tr => step tr) (preCloneSteps w env task)
          (tr0 ++ [Call.setsid])) (intermediateFromClone Crc32 w cfg env) := by
  rw [startIntermediate_eq_fromClone]
  unfold preCloneSteps
  cases hv : env.ClientNs.Valid
  · simp only [Bool.false_eq_true, if_false, List.append_nil, forEach_append,
      forEach_apply_map, forEach, orReportAbort_andThen, orReportAbort_success]
  · simp only [if_true, forEach_append, forEach_apply_map, forEach,
      orReportAbort_andThen, orReportAbort_success]

theorem steps_first_failure (steps pre : List (Trace → Ret)) (step : Trace → Ret)
    (post : List (Trace → Ret)) (k : Trace → Trace) (tr : Trace) (e : TError)
    (hsplit : steps = pre ++ step :: post)
    (hpre : succeeded (forEach (fun step tr => step tr) pre tr) = true)
    (hstep : (step (forEach (fun step tr => step tr) pre tr).2).1 = some e)
    (he : e.isError = true) :
    orReportAbort (forEach (fun step tr => step tr) steps tr) k
      = (step (forEach (fun step tr => step tr) pre tr).2).2
          ++ [Call.launch (LaunchCall.ReportPid (-1)), Call.launch (LaunchCall.Serialize e),
              Call.launch (LaunchCall.exit EXIT_FAILURE)] := by
  subst hsplit
  have hfailed : failed (step (forEach (fun step tr => step tr) pre tr).2) = true := by
    simp [failed, hstep, he]
  have hns : succeeded (step (forEach (fun step tr => step tr) pre tr).2) = false :=
    not_succeeded_of_failed hfailed
  rw [forEach_append, andThen_of_succeeded _ hpre]
  simp only [forEach]
  rw [andThen_of_not_succeeded _ hns]
  obtain ⟨e', -, he1, heq⟩ := orReportAbort_of_failed k hfailed
  rw [hstep] at he1
  cases he1
  exact heq

theorem steps_cases (steps : List (Trace → Ret)) (tr : Trace)
    (hret : ∀ step ∈ steps, ∀ t, (step t).1 ≠ none) :
    succeeded (forEach (fun step tr => step tr) steps tr) = true
    ∨ ∃ pre step post e, steps = pre ++ step :: post
        ∧ succeeded (forEach (fun step tr => step tr) pre tr) = true
        ∧ (step (forEach (fun step tr => step tr) pre tr).2).1 = some e
        ∧ e.isError = true := by
  induction steps generalizing tr with
  | nil => left; rfl
  | cons s steps ih =>
    rcases succeeded_or_failed (s tr) (hret s (List.mem_cons_self _ _) tr) with hs | hf
    · rcases ih (s tr).2 (fun step hstep => hret step (List.mem_cons_of_mem _ hstep)) with
        h | ⟨pre, step, post, e, hsplit, hpre, hstep, he⟩
      · left
        simp only [forEach]
        rw [andThen_of_succeeded _ hs]
        exact h
      · right
        refine ⟨s :: pre, step, post, e, by rw [hsplit]; rfl, ?_, ?_, he⟩
        · simp only [forEach]
          rw [andThen_of_succeeded _ hs]
          exact hpre
        · simp only [forEach]
          rw [andThen_of_succeeded _ hs]
          exact hstep
    · right
      obtain ⟨e, he, he1, -⟩ := orReportAbort_of_failed (fun t => t) hf
      exact ⟨[], s, steps, e, rfl, rfl, he1, he⟩

theorem preCloneSteps_return (w : World) (env : TTaskEnv) (task : TTask) :
    ∀ step ∈ preCloneSteps w env task, ∀ t, (step t).1 ≠ none := by
  intro step hstep t
  unfold preCloneSteps at hstep
  simp only [List.mem_append, List.mem_map, List.mem_cons, List.mem_singleton,
    List.not_mem_nil, or_false] at hstep
  rcases hstep with (⟨cg, -, rfl⟩ | h) | h
  · simp [call]
  · cases hv : env.ClientNs.Valid
    · simp [hv] at h
    · simp only [hv, if_true, List.mem_cons, List.mem_singleton, List.not_mem_nil,
        or_false] at h
      rcases h with rfl | rfl <;> simp [call]
  · rcases h with rfl | rfl | rfl
    · exact (ChildReopenStdio_calm w env t).2
    · simp [call]
    · exact (pipe2Sync_calm w t).2


theorem intermediateFromClone_eq (Crc32 : String → Nat) (w : World) (cfg : Config)
    (env : TTaskEnv) (tr : Trace) :
    intermediateFromClone Crc32 w cfg env tr =
      if clonePidAt w env tr < 0 then
        Abort { kind := if w.errno (reportedTrace w env tr) = ENOMEM
                  then EError.ResourceNotAvailable else EError.Unknown,
                errno := w.errno (reportedTrace w env tr), msg := "clone()" }
          (reportedTrace w env tr)
      else
        orAbort (isolateNetStep Crc32 w cfg env (clonePidAt w env tr) (reportedTrace w env tr))
          fun tr =>
          if w.sys tr (Call.launch LaunchCall.writeGo) ≠ 4 then
            Abort { kind := EError.Unknown, errno := 0,
                    msg := "Partial write to child sync pipe ("
                      ++ toString (w.sys tr (Call.launch LaunchCall.writeGo)) ++ " != "
                      ++ toString (0 : Int) ++ ")" } (tr ++ [Call.launch LaunchCall.writeGo])
          else
            tr ++ [Call.launch LaunchCall.writeGo]
              ++ [Call.launch (LaunchCall.exit EXIT_SUCCESS)] := by
  simp [intermediateFromClone, clonePidAt, reportedTrace, isolateNetStep, ReportPid]

theorem intermediateFromClone_outcomes (Crc32 : String → Nat) (w : World) (cfg : Config)
    (env : TTaskEnv) (t : Trace) :
    (clonePidAt w env t < 0 →
        intermediateFromClone Crc32 w cfg env t
          = reportedTrace w env t
            ++ [Call.launch (LaunchCall.Serialize
                  { kind := if w.errno (reportedTrace w env t) = ENOMEM
                      then EError.ResourceNotAvailable else EError.Unknown,
                    errno := w.errno (reportedTrace w env t), msg := "clone()" }),
                Call.launch (LaunchCall.exit EXIT_FAILURE)])
    ∧ (0 ≤ clonePidAt w env t → ∀ e,
        (isolateNetStep Crc32 w cfg env (clonePidAt w env t) (reportedTrace w env t)).1
          = some e →
        e.isError = true →
        intermediateFromClone Crc32 w cfg env t
          = (isolateNetStep Crc32 w cfg env (clonePidAt w env t) (reportedTrace w env t)).2
            ++ [Call.launch (LaunchCall.Serialize e),
                Call.launch (LaunchCall.exit EXIT_FAILURE)])
    ∧ (0 ≤ clonePidAt w env t →
        succeeded (isolateNetStep Crc32 w cfg env (clonePidAt w env t)
          (reportedTrace w env t)) = true →
        intermediateFromClone Crc32 w cfg env t
          = (isolateNetStep Crc32 w cfg env (clonePidAt w env t) (reportedTrace w env t)).2
            ++ [Call.launch LaunchCall.writeGo]
            ++ (if w.sys (isolateNetStep Crc32 w cfg env (clonePidAt w env t)
                    (reportedTrace w env t)).2 (Call.launch LaunchCall.writeGo) = 4
                then [Call.launch (LaunchCall.exit EXIT_SUCCESS)]
                else [Call.launch (LaunchCall.Serialize
                        { kind := EError.Unknown, errno := 0,
                          msg := "Partial write to child sync pipe ("
                            ++ toString (w.sys (isolateNetStep Crc32 w cfg env
                                (clonePidAt w env t) (reportedTrace w env t)).2
                                (Call.launch LaunchCall.writeGo))
                            ++ " != " ++ toString (0 : Int) ++ ")" }),
                      Call.launch (LaunchCall.exit EXIT_FAILURE)]))
    ∧ (∃ d, (isolateNetStep Crc32 w cfg env (clonePidAt w env t) (reportedTrace w env t)).2
          = reportedTrace w env t ++ d
        ∧ ∀ c ∈ d, isReport c = false ∧ isSerialize c = false) := by
  refine ⟨?_, ?_, ?_, ?_⟩
  · intro hp
    rw [intermediateFromClone_eq, if_pos hp]
    rfl
  · intro hp e he1 he
    have hf : failed (isolateNetStep Crc32 w cfg env (clonePidAt w env t)
        (reportedTrace w env t)) = true := by
      simp [failed, he1, he]
    rw [intermediateFromClone_eq, if_neg (not_lt.mpr hp)]
    obtain ⟨e', -, he2, heq⟩ := orAbort_of_failed _ hf
    rw [he1] at he2
    cases he2
    exact heq
  · intro hp hs
    rw [intermediateFromClone_eq, if_neg (not_lt.mpr hp), orAbort_of_succeeded _ hs]
    by_cases hgo : w.sys (isolateNetStep Crc32 w cfg env (clonePidAt w env t)
        (reportedTrace w env t)).2 (Call.launch LaunchCall.writeGo) = 4
    · simp [hgo]
    · simp [hgo, Abort]
  · obtain ⟨d, hd, hforeign⟩ := (isolateNetStep_foreign Crc32 w cfg env
      (clonePidAt w env t) (reportedTrace w env t)).1
    refine ⟨d, hd, fun c hc => ?_⟩
    have hfc := hforeign c hc
    constructor
    · exact quiet_of_foreign c hfc
    · cases c <;> first | rfl | simp [foreign, isLaunch] at hfc


/-- C11: on every execution path of the intermediate process exactly one pid is written on
the outer pipe, and it is written before any serialised error.  The steps before the clone
are the attach of each leaf cgroup, the attach and the chroot of the client namespace, the
reopening of the standard streams, the attach of the parent namespace and the creation of the
inner pipe.  The first of them that fails ends the run right after its own calls with the
report of pid -1, the serialisation of the error of that step, and the exit with failure.
When none fails the clone is called, and the value it returned (which is -1 for a failed
`clone`) is reported right after it: a negative value is followed by the serialisation of the
`clone()` error and the exit; otherwise the calls of `IsolateNet` and the write of the go
come after the report, and their errors are serialised after it.  Every run is of one of
these kinds. -/
theorem startIntermediate_reports_pid_once (Crc32 : String → Nat) (w : World) (cfg : Config)
    (env : TTaskEnv) (task : TTask) (tr0 : Trace) :
    ((startIntermediate Crc32 w cfg env task tr0).drop tr0.length).countP isReport = 1
    ∧ ((∃ b e, startIntermediate Crc32 w cfg env task tr0 =
            tr0 ++ b ++ [Call.launch (LaunchCall.ReportPid (-1)),
              Call.launch (LaunchCall.Serialize e), Call.launch (LaunchCall.exit EXIT_FAILURE)]
          ∧ e.isError = true
          ∧ ∀ c ∈ b, isReport c = false ∧ isSerialize c = false ∧ isClone c = false)
      ∨ (∃ b after, startIntermediate Crc32 w cfg env task tr0 =
            tr0 ++ b ++ [Call.launch (LaunchCall.clone (cloneFlags env)),
              Call.close Fd.WaitParentRfd,
              Call.launch (LaunchCall.ReportPid
                (w.sys (tr0 ++ b) (Call.launch (LaunchCall.clone (cloneFlags env)))))] ++ after
          ∧ (∀ c ∈ b, isReport c = false ∧ isSerialize c = false ∧ isClone c = false)
          ∧ (∀ c ∈ after, isReport c = false)
          ∧ (w.sys (tr0 ++ b) (Call.launch (LaunchCall.clone (cloneFlags env))) < 0 →
              ∃ e, e.isError = true ∧ after = [Call.launch (LaunchCall.Serialize e),
                Call.launch (LaunchCall.exit EXIT_FAILURE)])))
    ∧ preCloneSteps w env task
        = task.LeafCgroups.map (fun cg tr =>
            call w (Call.launch (LaunchCall.CgroupAttach cg.1 cg.2)) tr)
          ++ (if env.ClientNs.Valid then
                [fun tr => call w (Call.launch LaunchCall.ClientNsAttach) tr,
                 fun tr => call w (Call.launch LaunchCall.ClientNsChroot) tr]
              else [])
          ++ [fun tr => ChildReopenStdio w env tr,
              fun tr => call w (Call.launch LaunchCall.ParentNsAttach) tr,
              fun tr => pipe2Sync w tr]
    ∧ (∀ pre step post e, preCloneSteps w env task = pre ++ step :: post →
        succeeded (forEach (fun step tr => step tr) pre (tr0 ++ [Call.setsid])) = true →
        (step (forEach (fun step tr => step tr) pre (tr0 ++ [Call.setsid])).2).1 = some e →
        e.isError = true →
        startIntermediate Crc32 w cfg env task tr0
          = (step (forEach (fun step tr => step tr) pre (tr0 ++ [Call.setsid])).2).2
            ++ [Call.launch (LaunchCall.ReportPid (-1)), Call.launch (LaunchCall.Serialize e),
                Call.launch (LaunchCall.exit EXIT_FAILURE)])
    ∧ (succeeded (forEach (fun step tr => step tr) (preCloneSteps w env task)
          (tr0 ++ [Call.setsid])) = true →
        startIntermediate Crc32 w cfg env task tr0
          = intermediateFromClone Crc32 w cfg env
              (forEach (fun step tr => step tr) (preCloneSteps w env task)
                (tr0 ++ [Call.setsid])).2)
    ∧ (∀ t,
        (clonePidAt w env t < 0 →
          intermediateFromClone Crc32 w cfg env t
            = reportedTrace w env t
              ++ [Call.launch (LaunchCall.Serialize
                    { kind := if w.errno (reportedTrace w env t) = ENOMEM
                        then EError.ResourceNotAvailable else EError.Unknown,
                      errno := w.errno (reportedTrace w env t), msg := "clone()" }),
                  Call.launch (LaunchCall.exit EXIT_FAILURE)])
        ∧ (0 ≤ clonePidAt w env t → ∀ e,
            (isolateNetStep Crc32 w cfg env (clonePidAt w env t) (reportedTrace w env t)).1
              = some e →
            e.isError = true →
            intermediateFromClone Crc32 w cfg env t
              = (isolateNetStep Crc32 w cfg env (clonePidAt w env t)
                  (reportedTrace w env t)).2
                ++ [Call.launch (LaunchCall.Serialize e),
                    Call.launch (LaunchCall.exit EXIT_FAILURE)])
        ∧ (0 ≤ clonePidAt w env t →
            succeeded (isolateNetStep Crc32 w cfg env (clonePidAt w env t)
              (reportedTrace w env t)) = true →
            intermediateFromClone Crc32 w cfg env t
              = (isolateNetStep Crc32 w cfg env (clonePidAt w env t)
                  (reportedTrace w env t)).2
                ++ [Call.launch LaunchCall.writeGo]
                ++ (if w.sys (isolateNetStep Crc32 w cfg env (clonePidAt w env t)
                        (reportedTrace w env t)).2 (Call.launch LaunchCall.writeGo) = 4
                    then [Call.launch (LaunchCall.exit EXIT_SUCCESS)]
                    else [Call.launch (LaunchCall.Serialize
                            { kind := EError.Unknown, errno := 0,
                              msg := "Partial write to child sync pipe ("
                                ++ toString (w.sys (isolateNetStep Crc32 w cfg env
                                    (clonePidAt w env t) (reportedTrace w env t)).2
                                    (Call.launch LaunchCall.writeGo))
                                ++ " != " ++ toString (0 : Int) ++ ")" }),
                          Call.launch (LaunchCall.exit EXIT_FAILURE)]))
        ∧ (∃ d, (isolateNetStep Crc32 w cfg env (clonePidAt w env t)
              (reportedTrace w env t)).2 = reportedTrace w env t ++ d
            ∧ ∀ c ∈ d, isReport c = false ∧ isSerialize c = false)
        ∧ reportedTrace w env t
            = t ++ [Call.launch (LaunchCall.clone (cloneFlags env)), Call.close Fd.WaitParentRfd,
                    Call.launch (LaunchCall.ReportPid
                      (w.sys t (Call.launch (LaunchCall.clone (cloneFlags env)))))]
        ∧ clonePidAt w env t = w.sys t (Call.launch (LaunchCall.clone (cloneFlags env))))
    ∧ (succeeded (forEach (fun step tr => step tr) (preCloneSteps w env task)
          (tr0 ++ [Call.setsid])) = true
      ∨ ∃ pre step post e, preCloneSteps w env task = pre ++ step :: post
          ∧ succeeded (forEach (fun step tr => step tr) pre (tr0 ++ [Call.setsid])) = true
          ∧ (step (forEach (fun step tr => step tr) pre (tr0 ++ [Call.setsid])).2).1 = some e
          ∧ e.isError = true) := by
  have h := startIntermediate_reportsOnce Crc32 w cfg env task tr0
  refine ⟨?_, h, rfl, ?_, ?_, fun t => ?_,
    steps_cases _ _ (preCloneSteps_return w env task)⟩
  · rcases h with ⟨b, e, heq, -, hb⟩ | ⟨b, after, heq, hb, hafter, -⟩
    · rw [heq]
      simp only [List.append_assoc, List.drop_left, List.countP_append,
        countP_isReport_eq_zero b (fun c hc => (hb c hc).1)]
      rfl
    · rw [heq]
      simp only [List.append_assoc, List.drop_left, List.countP_append,
        countP_isReport_eq_zero b (fun c hc => (hb c hc).1),
        countP_isReport_eq_zero after hafter]
      rfl
  · intro pre step post e hsplit hpre hstep he
    rw [startIntermediate_eq_steps]
    exact steps_first_failure _ pre step post _ _ e hsplit hpre hstep he
  · intro hs
    rw [startIntermediate_eq_steps, orReportAbort_of_succeeded _ hs]
  · obtain ⟨h1, h2, h3, h4⟩ := intermediateFromClone_outcomes Crc32 w cfg env t
    exact ⟨h1, h2, h3, h4, rfl, rfl⟩

/-- Witness of C11: the sample task in a world where the intermediate process cannot open its
standard input: after `setsid`, the two attaches, the closing of the descriptors and the
failed `open`, it reports pid -1, serialises the error of `ChildReopenStdio` and exits. -/
theorem startIntermediate_reports_pid_once_witness :
    startIntermediate (fun _ => 0) reopenFailWorld sampleConfig sampleEnv sampleTask []
      = [Call.setsid,
         Call.launch (LaunchCall.CgroupAttach "freezer" (some "/porto/a")),
         Call.launch (LaunchCall.CgroupAttach "memory" (some "/porto/a")),
         Call.launch (LaunchCall.CloseFds 3),
         Call.launch (LaunchCall.openFile "/dev/null" (O_CREAT ||| O_RDONLY) 0o660),
         Call.launch (LaunchCall.ReportPid (-1)),
         Call.launch (LaunchCall.Serialize
           { kind := EError.Unknown, errno := 24, msg := "open(/dev/null) -> 0" }),
         Call.launch (LaunchCall.exit EXIT_FAILURE)] :=
  ((startIntermediate_reports_pid_once (fun _ => 0) reopenFailWorld sampleConfig sampleEnv
      sampleTask []).2.2.2.1
    [fun tr => call reopenFailWorld
       (Call.launch (LaunchCall.CgroupAttach "freezer" (some "/porto/a"))) tr,
     fun tr => call reopenFailWorld
       (Call.launch (LaunchCall.CgroupAttach "memory" (some "/porto/a"))) tr]
    (fun tr => ChildReopenStdio reopenFailWorld sampleEnv tr)
    [fun tr => call reopenFailWorld (Call.launch LaunchCall.ParentNsAttach) tr,
     fun tr => pipe2Sync reopenFailWorld tr]
    { kind := EError.Unknown, errno := 24, msg := "open(/dev/null) -> 0" }
    rfl (by decide) (by decide) (by decide)).trans (by decide)

end Porto
